import Mathlib

/-!
# go-espada: the per-frame simulation of `espada.go`

A shallow embedding of the entity simulation and collision engine of
`src/espada.go` (movement, weapons, spawning, collision resolution and the
scene state machine), followed by theorems about it.

Conventions of the embedding

* The package-level variables of the Go program (`state`, `player`,
  `enemies`, `totalEnemies`, ...) are the fields of the record `Game`; a Go
  function that mutates them is a function `Game → Game`.
* `sdl.Rect` has `int32` fields.  They are integers here and every `int32`
  operation of the source is wrapped with `i32` (two's complement, 32 bits).
* Go `int` is taken as 64 bits, like `int64`.  The arithmetic of the source
  on `Health`, `Score` and `totalEnemies` that no test of the code bounds
  (`Health -= d`, `Score += 50`, `Score -= 100`, `totalEnemies--`) is wrapped
  with `i64` (two's complement, 64 bits).  The counters the code moves between
  small bounds only (timers and velocities behind their sign tests, the path
  length, `totalEnemies++` counting the slots of the pool up from 0) are
  integers as they stand.
* `rand.Int()` is an oracle: the functions that draw random numbers take the
  list of the raw values the generator will return next and give back the
  rest of it (an exhausted list keeps returning `0`).
* Sound, music and drawing are side effects outside the simulation state and
  are left out; the sprite sheets of the entities are not modelled.
* A `for _, e := range enemies` loop is a structural recursion over the
  slice; the slot being visited is held outside the `Game` record while the
  loop body runs and is written back when the loop is done.
-/

namespace Espada

/-! ## Constants -/

def WIDTH : Int := 640
def HEIGHT : Int := 480
def BOTTOM : Int := HEIGHT - 32
def FPS : Int := 60

def MAX_LASERS : Nat := 5
def MAX_ENEMIES : Nat := 4
def MAX_EXPLOSIONS : Nat := 16
def MAX_HEALTH : Int := 5

/-- Scene states (`TITLE = iota`). -/
def TITLE : Int := 0
def PLAY : Int := 1
def GAMEOVER : Int := 2

/-- Key and action bits (`KDL = 1 << iota`). -/
def KDL : Nat := 1
def KDR : Nat := 2
def KDD : Nat := 4
def KDU : Nat := 8
def KDZ : Nat := 16
def KDQ : Nat := 32
def KDP : Nat := 64
def KDI : Nat := 128
def KRP : Nat := 256

/-! ## Machine integers -/

/-- Conversion to `int32`: the value modulo `2^32`, in `[-2^31, 2^31)`. -/
def i32 (x : Int) : Int := (x + 2147483648) % 4294967296 - 2147483648

/-- The values an `int32` can hold. -/
def isI32 (x : Int) : Prop := -2147483648 ≤ x ∧ x ≤ 2147483647

instance (x : Int) : Decidable (isI32 x) := by unfold isI32; infer_instance

/-- Go `int` and `int64` arithmetic: the value modulo `2^64`, in
`[-2^63, 2^63)`. -/
def i64 (x : Int) : Int :=
  (x + 9223372036854775808) % 18446744073709551616 - 9223372036854775808

/-- The values an `int64` (and a Go `int`) can hold. -/
def isI64 (x : Int) : Prop := -9223372036854775808 ≤ x ∧ x ≤ 9223372036854775807

instance (x : Int) : Decidable (isI64 x) := by unfold isI64; infer_instance

/-- Go `randn(a, b) = rand.Int()%(b-a+1) + a`, where `r` is the value
returned by `rand.Int()` (never negative). -/
def randn (a b : Int) (r : Nat) : Int := Int.tmod (r : Int) (b - a + 1) + a

/-- The next value of the random oracle and the rest of the supply. -/
def draw : List Nat → Nat × List Nat
  | [] => (0, [])
  | r :: rs => (r, rs)

def cyclic (x a b : Int) : Int :=
  if x < a then b
  else if x > b then a
  else x

def clamp (x a b : Int) : Int :=
  if x < a then a
  else if x > b then b
  else x

/-! ## Data model -/

structure Rect where
  X : Int
  Y : Int
  W : Int
  H : Int
deriving DecidableEq, Repr

/-- Every field is an `int32` value. -/
def Rect.wf (r : Rect) : Prop := isI32 r.X ∧ isI32 r.Y ∧ isI32 r.W ∧ isI32 r.H

instance (r : Rect) : Decidable r.wf := by unfold Rect.wf; infer_instance

structure Menu where
  Selection : Int
  Level : Int
deriving DecidableEq, Repr

structure Status where
  Text : String
  Timeout : Int
deriving DecidableEq, Repr

structure Laser extends Rect where
  Alive : Bool
deriving DecidableEq, Repr

structure Entity extends Rect where
  Alive : Bool
  Frame : Int
  Lasers : List Laser
  LaserTimer : Int
deriving DecidableEq, Repr

structure Player extends Entity where
  Health : Int
  Score : Int
  Action : Nat
  Vx : Int
  Vy : Int
  Invuln : Bool
  InvulnTimer : Nat
deriving DecidableEq, Repr

structure Enemy extends Entity where
  Kind : Int
  PathLength : Int
  Dir : Int
deriving DecidableEq, Repr

structure Explosion extends Rect where
  Frame : Int
  Alive : Bool
deriving DecidableEq, Repr

/-- The package-level variables of the simulation (`conf.Invincible` is the
field `invincible`). -/
structure Game where
  run : Bool
  paused : Bool
  state : Int
  menu : Menu
  invincible : Bool
  player : Player
  enemies : List Enemy
  totalEnemies : Int
  explosions : List Explosion
  animationTimer : Int
  enemySpawnTimer : Int
  enemyWaves : Int
  transitionTimer : Int
  status : Status
deriving DecidableEq, Repr

/-! ## Rectangle overlap -/

def collide (a b : Rect) : Bool :=
  if i32 (a.Y + a.H) ≤ b.Y then false
  else if a.Y ≥ i32 (b.Y + b.H) then false
  else if i32 (a.X + a.W) ≤ b.X then false
  else if a.X ≥ i32 (b.X + b.W) then false
  else true

/-! ## Session set-up -/

def Status.Set (_s : Status) (text : String) (timeout : Int) : Status :=
  { Text := text, Timeout := timeout }

def newLaser : Laser :=
  { X := 0, Y := 0, W := 8, H := 16, Alive := false }

def newPlayer : Player :=
  { X := 295, Y := BOTTOM - 64, W := 64, H := 64
    Alive := true
    Frame := 0
    Lasers := List.replicate MAX_LASERS newLaser
    LaserTimer := 0
    Health := MAX_HEALTH
    Score := 0, Action := 0, Vx := 0, Vy := 0
    Invuln := false, InvulnTimer := 0 }

def newEnemy : Enemy :=
  { X := 0, Y := 0, W := 0, H := 0
    Alive := false
    Frame := 0
    Lasers := List.replicate MAX_LASERS newLaser
    LaserTimer := 0
    Kind := 0, PathLength := 0, Dir := 0 }

def newExplosion : Explosion :=
  { X := 0, Y := 0, W := 0, H := 0, Frame := 0, Alive := false }

def reset (g : Game) : Game :=
  { g with
    menu := { Selection := 0, Level := 0 }
    status := { Text := "", Timeout := 0 }
    paused := false
    run := true
    state := TITLE }

def newGame (g : Game) : Game :=
  { g with
    state := PLAY
    player := newPlayer
    enemies := List.replicate MAX_ENEMIES newEnemy
    explosions := List.replicate MAX_EXPLOSIONS newExplosion
    enemySpawnTimer := 180
    enemyWaves := 0
    totalEnemies := 0
    transitionTimer := 10 }

/-! ## Explosions -/

/-- The loop of `spawnExplosion`: the first dead slot is activated. -/
def spawnExplosionLoop (x y : Int) : List Explosion → List Explosion
  | [] => []
  | e :: es =>
    if !e.Alive then
      { e with Alive := true, toRect := { X := i32 x, Y := i32 y, W := 64, H := 64 }, Frame := 0 } :: es
    else
      e :: spawnExplosionLoop x y es

def spawnExplosion (g : Game) (x y : Int) : Game :=
  { g with explosions := spawnExplosionLoop x y g.explosions }

/-! ## The player -/

def Player.InvulnTick (p : Player) : Player :=
  if p.InvulnTimer ≠ 0 then { p with InvulnTimer := p.InvulnTimer - 1 }
  else { p with Invuln := false }

/-- Go `Player.Move`: the statements of the source in order, on the four fields
they assign (`Vx`, `Vy`, `X`, `Y`). -/
def Player.Move (p : Player) : Player :=
  let maxSpeed : Int := 8
  let vx := p.Vx
  let vy := p.Vy
  let vx :=
    if p.Action &&& KDL ≠ 0 then (if vx > -maxSpeed then vx - 1 else vx)
    else if p.Action &&& KDR ≠ 0 then (if vx < maxSpeed then vx + 1 else vx)
    else vx
  let vy :=
    if p.Action &&& KDU ≠ 0 then (if vy > -maxSpeed / 2 then vy - 1 else vy)
    else if p.Action &&& KDD ≠ 0 then (if vy < maxSpeed / 2 then vy + 1 else vy)
    else vy
  let vx := if p.Action &&& KDL = 0 then (if vx < 0 then vx + 1 else vx) else vx
  let vx := if p.Action &&& KDR = 0 then (if vx > 0 then vx - 1 else vx) else vx
  let vy := if p.Action &&& KDU = 0 then (if vy < 0 then vy + 1 else vy) else vy
  let vy := if p.Action &&& KDD = 0 then (if vy > 0 then vy - 1 else vy) else vy
  let x := i32 (p.X + i32 vx)
  let y := i32 (p.Y + i32 vy)
  let x := if x < 0 then 0 else x
  let y := if y < 0 then 0 else y
  let x := if i32 (x + p.W) > WIDTH then i32 (WIDTH - p.W) else x
  let y := if i32 (y + p.H) > BOTTOM then i32 (BOTTOM - p.H) else y
  { p with Vx := vx, Vy := vy, X := x, Y := y }

/-- The loop of `Player.Fire` over the player's laser slots; the flag tells
whether a dead slot was found (and activated). -/
def Player.fireLoop (p : Player) : List Laser → List Laser × Bool
  | [] => ([], false)
  | l :: ls =>
    if !l.Alive then
      ({ l with Alive := true, X := i32 (p.X + Int.tdiv p.W 2), Y := i32 (p.Y - l.H) } :: ls, true)
    else
      let r := Player.fireLoop p ls
      (l :: r.1, r.2)

def Player.Fire (p : Player) : Player :=
  let r : List Laser × Int :=
    if p.Action &&& KDZ ≠ 0 ∧ p.LaserTimer = 0 then
      let f := p.fireLoop p.Lasers
      (f.1, if f.2 then 15 else p.LaserTimer)
    else (p.Lasers, p.LaserTimer)
  let timer := r.2
  let timer := if timer > 0 then timer - 1 else timer
  { p with Lasers := r.1, LaserTimer := timer }

/-- Go `Player.Damage(d)`; the method works on the global `player`. -/
def Player.Damage (g : Game) (d : Int) : Game :=
  if g.invincible then g
  else
    let health := i64 (g.player.Health - d)
    if health ≤ 0 then
      let g := { g with player := { g.player with Invuln := true, InvulnTimer := 100, Health := 0, Alive := false } }
      { spawnExplosion g g.player.X g.player.Y with state := GAMEOVER }
    else
      { g with player := { g.player with Invuln := true, InvulnTimer := 100, Health := health } }

/-! ## Enemies -/

/-- The loop of `Enemy.Fire` over the enemy's laser slots. -/
def Enemy.fireLoop (e : Enemy) : List Laser → List Laser × Bool
  | [] => ([], false)
  | l :: ls =>
    if !l.Alive then
      ({ l with Alive := true, X := i32 (e.X + Int.tdiv e.W 2), Y := i32 (e.Y + e.H) } :: ls, true)
    else
      let r := Enemy.fireLoop e ls
      (l :: r.1, r.2)

def Enemy.Fire (e : Enemy) (rs : List Nat) : Enemy × List Nat :=
  let r : List Laser × Int × List Nat :=
    if e.LaserTimer = 0 ∧ e.Alive = true ∧ e.Y ≥ 0 then
      let f := e.fireLoop e.Lasers
      if f.2 then
        if e.Kind = 0 then (f.1, randn 100 250 (draw rs).1, (draw rs).2)
        else if e.Kind = 1 then (f.1, randn 50 100 (draw rs).1, (draw rs).2)
        else (f.1, e.LaserTimer, rs)
      else (f.1, e.LaserTimer, rs)
    else (e.Lasers, e.LaserTimer, rs)
  let timer := r.2.1
  let timer := if timer > 0 then timer - 1 else timer
  ({ e with Lasers := r.1, LaserTimer := timer }, r.2.2)

/-- The horizontal patrol of `Enemy.Move` (the body of `if e.Alive` up to
`e.Y++`): new `X`, `PathLength` and `Dir`, and the rest of the random supply. -/
def Enemy.patrol (e : Enemy) (rs : List Nat) : Int × Int × Int × List Nat :=
  let moveSpeed : Int := if e.Kind = 1 then 3 else 2
  let pr : Int × List Nat :=
    if e.PathLength = 0 then (randn 10 (WIDTH / 2) (draw rs).1, (draw rs).2)
    else (e.PathLength, rs)
  let pl := pr.1
  if pl ≠ 0 then
    if e.Dir = 0 then
      let s : Int × Int := if i32 (e.X + e.W) < WIDTH then (i32 (e.X + moveSpeed), pl - 1) else (e.X, pl)
      if i32 (s.1 + e.W) ≥ WIDTH ∨ s.2 = 0 then (s.1, 0, 1, pr.2) else (s.1, s.2, e.Dir, pr.2)
    else if e.Dir = 1 then
      let s : Int × Int := if e.X > 0 then (i32 (e.X - moveSpeed), pl - 1) else (e.X, pl)
      if s.1 ≤ 0 ∨ s.2 = 0 then (s.1, 0, 0, pr.2) else (s.1, s.2, e.Dir, pr.2)
    else (e.X, pl, e.Dir, pr.2)
  else (e.X, pl, e.Dir, pr.2)

/-- The first block of `Enemy.Move`, `if e.Alive { ... }`: the patrol and
`e.Y++`. -/
def Enemy.advance (e : Enemy) (rs : List Nat) : Enemy × List Nat :=
  if e.Alive then
    let pt := e.patrol rs
    ({ e with X := pt.1, PathLength := pt.2.1, Dir := pt.2.2.1, Y := i32 (e.Y + 1) }, pt.2.2.2)
  else (e, rs)

/-- Go `Enemy.Move`: the result flag, the enemy, the globals it changes
(`totalEnemies`, `player.Score`) and the rest of the random supply. -/
def Enemy.Move (e : Enemy) (g : Game) (rs : List Nat) : Bool × Enemy × Game × List Nat :=
  let m := e.advance rs
  let e := m.1
  if e.Y > i32 (BOTTOM + e.H) then
    let e := { e with Alive := false, X := 0, Y := 0 }
    let g := { g with totalEnemies := i64 (g.totalEnemies - 1) }
    if g.state ≠ GAMEOVER then
      let score :=
        if e.Kind = 0 then i64 (g.player.Score - 100)
        else if e.Kind = 1 then i64 (g.player.Score - 200)
        else g.player.Score
      let score := if score < 0 then 0 else score
      (true, e, { g with player := { g.player with Score := score } }, m.2)
    else (false, e, g, m.2)
  else (false, e, g, m.2)

/-- The burst loop of `spawnEnemies`: every dead slot is activated. -/
def spawnLoop : List Enemy → Game → List Nat → List Enemy × Game × List Nat
  | [], g, rs => ([], g, rs)
  | e :: es, g, rs =>
    if !e.Alive then
      let w : Int := 64
      let h : Int := if g.enemyWaves < 5 then 32 else 64
      let kind : Int := if g.enemyWaves < 5 then 0 else 1
      let d1 := draw rs
      let d2 := draw d1.2
      let d3 := draw d2.2
      let e : Enemy :=
        { e with
          W := w, H := h, Kind := kind
          Alive := true, Frame := 0, PathLength := 0, LaserTimer := 0
          Dir := randn 0 1 d1.1
          X := i32 (randn 0 (WIDTH - w) d2.1)
          Y := i32 (randn (-192) (-64) d3.1) }
      let r := spawnLoop es { g with totalEnemies := g.totalEnemies + 1 } d3.2
      (e :: r.1, r.2)
    else
      let r := spawnLoop es g rs
      (e :: r.1, r.2)

def spawnEnemies (g : Game) (rs : List Nat) : Game × List Nat :=
  let r : Game × List Nat :=
    if g.totalEnemies = 0 then
      let r : Game × List Nat :=
        if g.enemySpawnTimer = 0 then
          let s := spawnLoop g.enemies g rs
          ({ s.2.1 with enemies := s.1 }, s.2.2)
        else (g, rs)
      if r.1.enemySpawnTimer > 0 then
        ({ r.1 with enemySpawnTimer := r.1.enemySpawnTimer - 1 }, r.2)
      else r
    else ({ g with enemySpawnTimer := 180 }, rs)
  if r.1.enemySpawnTimer = 179 ∧ r.1.totalEnemies = 0 then
    let waves := if r.1.enemyWaves < 1000000000 then r.1.enemyWaves + 1 else r.1.enemyWaves
    ({ r.1 with enemyWaves := waves, status := r.1.status.Set ("Wave: " ++ toString waves) 120 }, r.2)
  else r

def enemiesFireLoop : List Enemy → List Nat → List Enemy × List Nat
  | [], rs => ([], rs)
  | e :: es, rs =>
    let f := e.Fire rs
    let r := enemiesFireLoop es f.2
    (f.1 :: r.1, r.2)

def enemiesFire (g : Game) (rs : List Nat) : Game × List Nat :=
  let r := enemiesFireLoop g.enemies rs
  ({ g with enemies := r.1 }, r.2)

/-- The loop of `moveEnemies`: it stops at the first enemy whose `Move`
returns true. -/
def moveEnemiesLoop : List Enemy → Game → List Nat → List Enemy × Game × List Nat
  | [], g, rs => ([], g, rs)
  | e :: es, g, rs =>
    let m := e.Move g rs
    if m.1 then (m.2.1 :: es, m.2.2)
    else
      let r := moveEnemiesLoop es m.2.2.1 m.2.2.2
      (m.2.1 :: r.1, r.2)

def moveEnemies (g : Game) (rs : List Nat) : Game × List Nat :=
  let r := moveEnemiesLoop g.enemies g rs
  ({ r.2.1 with enemies := r.1 }, r.2.2)

/-! ## Lasers -/

/-- The body of the first loop of `moveLasers` (`moveSpeed = 10`). -/
def movePlayerLaser (l : Laser) : Laser :=
  let moveSpeed : Int := 10
  let l := if l.Alive then { l with Y := i32 (l.Y - moveSpeed) } else l
  if l.Y < 0 then { l with Alive := false } else l

/-- The body of the second loop of `moveLasers` (`moveSpeed / 2 = 5`). -/
def moveEnemyLaser (l : Laser) : Laser :=
  let moveSpeed : Int := 10
  let l := if l.Alive then { l with Y := i32 (l.Y + moveSpeed / 2) } else l
  if l.Y > HEIGHT then { l with Alive := false } else l

def moveLasers (g : Game) : Game :=
  { g with
    player := { g.player with Lasers := g.player.Lasers.map movePlayerLaser }
    enemies := g.enemies.map fun e => { e with Lasers := e.Lasers.map moveEnemyLaser } }

/-! ## Collision resolution -/

/-- First pass of `testCollisions`, inner loop: player laser `l` against the
enemies in pool order, stopping at the first hit. -/
def laserScan (l : Laser) : List Enemy → Game → Laser × List Enemy × Game
  | [], g => (l, [], g)
  | e :: es, g =>
    if !(g.player.Alive && l.Alive && e.Alive && decide (i32 (e.Y + e.H) ≥ 0)
          && collide l.toRect e.toRect) then
      let r := laserScan l es g
      (r.1, e :: r.2.1, r.2.2)
    else
      let score :=
        if e.Kind = 0 then i64 (g.player.Score + 50)
        else if e.Kind = 1 then i64 (g.player.Score + 100)
        else g.player.Score
      let g := { g with
        totalEnemies := i64 (g.totalEnemies - 1)
        player := { g.player with Score := score } }
      ({ l with Alive := false }, { e with Alive := false } :: es, spawnExplosion g e.X e.Y)

/-- First pass of `testCollisions`, outer loop over the player's lasers. -/
def laserPass : List Laser → List Enemy → Game → List Laser × List Enemy × Game
  | [], es, g => ([], es, g)
  | l :: ls, es, g =>
    let r := laserScan l es g
    let s := laserPass ls r.2.1 r.2.2
    (r.1 :: s.1, s.2)

/-- Second pass of `testCollisions`, inner loop: the lasers of one enemy
against the player, stopping at the first overlapping laser. -/
def enemyLaserScan : List Laser → Game → List Laser × Game
  | [], g => ([], g)
  | l :: ls, g =>
    if !(g.player.Alive && l.Alive && collide g.player.toRect l.toRect) then
      let r := enemyLaserScan ls g
      (l :: r.1, r.2)
    else if !g.player.Invuln then
      ({ l with Alive := false } :: ls, Player.Damage g 1)
    else (l :: ls, g)

/-- Second pass of `testCollisions`, outer loop over the enemies. -/
def enemyLaserPass : List Enemy → Game → List Enemy × Game
  | [], g => ([], g)
  | e :: es, g =>
    let r := enemyLaserScan e.Lasers g
    let s := enemyLaserPass es r.2
    ({ e with Lasers := r.1 } :: s.1, s.2)

/-- Third pass of `testCollisions`: enemy bodies against the player,
stopping at the first overlapping enemy. -/
def bodyPass : List Enemy → Game → List Enemy × Game
  | [], g => ([], g)
  | e :: es, g =>
    if !(e.Alive && g.player.Alive && collide e.toRect g.player.toRect) then
      let r := bodyPass es g
      (e :: r.1, r.2)
    else if !g.player.Invuln then
      ({ e with Alive := false } :: es,
        Player.Damage { g with totalEnemies := i64 (g.totalEnemies - 1) } 2)
    else (e :: es, g)

/-- State after the first pass of `testCollisions`. -/
def testCollisions1 (g : Game) : Game :=
  let r := laserPass g.player.Lasers g.enemies g
  { r.2.2 with player := { r.2.2.player with Lasers := r.1 }, enemies := r.2.1 }

/-- The second pass of `testCollisions`. -/
def testCollisions2 (g : Game) : Game :=
  let r := enemyLaserPass g.enemies g
  { r.2 with enemies := r.1 }

/-- The third pass of `testCollisions`. -/
def testCollisions3 (g : Game) : Game :=
  let r := bodyPass g.enemies g
  { r.2 with enemies := r.1 }

def testCollisions (g : Game) : Game :=
  testCollisions3 (testCollisions2 (testCollisions1 g))

/-! ## Events and the frame update -/

/-- Go `x &^ y` on unsigned values: the bits of `y` are cleared in `x`. -/
def bitClear (x y : Nat) : Nat := x ^^^ (x &&& y)

def evPlay (g : Game) (key action : Nat) : Game :=
  let invincible := if key &&& KDI ≠ 0 ∧ key &&& KRP = 0 then !g.invincible else g.invincible
  let paused := if key &&& KDP ≠ 0 then !g.paused else g.paused
  let status :=
    if key &&& KDP ≠ 0 then
      if paused then g.status.Set "Game Paused | Press 'q' to quit" (-1)
      else g.status.Set "" 0
    else g.status
  let g := { g with invincible := invincible, paused := paused, status := status }
  if key &&& KDQ ≠ 0 ∧ g.paused = true then reset g
  else
    let timer := if g.transitionTimer > 0 then g.transitionTimer - 1 else g.transitionTimer
    let action := if timer > 0 then bitClear action KDZ else action
    { g with transitionTimer := timer, player := { g.player with Action := action } }

def evGameOver (g : Game) (key : Nat) : Game :=
  if key &&& KDQ ≠ 0 then reset g else g

/-- The end of `update`: the game-over status line and the animation
timer. -/
def frameEnd (g : Game) : Game :=
  { g with
    status :=
      if g.state = GAMEOVER then g.status.Set "Game Over | Press 'q' to continue" (-1)
      else g.status
    animationTimer := cyclic (g.animationTimer - 1) 0 2 }

def update (g : Game) (rs : List Nat) : Game × List Nat :=
  if g.paused = true ∨ g.state = TITLE then (g, rs)
  else
    let g :=
      if g.state ≠ GAMEOVER then
        testCollisions { g with player := g.player.InvulnTick.Move.Fire }
      else g
    let r := spawnEnemies g rs
    let r := moveEnemies r.1 r.2
    let r := enemiesFire r.1 r.2
    let g := moveLasers r.1
    (frameEnd g, r.2)

/-! ## Reachable states -/

/-- One step of the simulation: any of the operations `update` is made of
(with any random values), the event handlers of the PLAY and GAMEOVER scenes
(with any key and action masks) and the start of a new session. A whole
`update` call is a sequence of such steps (`Reachable.update`). -/
inductive Step : Game → Game → Prop
  | invulnTick (g : Game) : Step g { g with player := g.player.InvulnTick }
  | playerMove (g : Game) : Step g { g with player := g.player.Move }
  | playerFire (g : Game) : Step g { g with player := g.player.Fire }
  | testCollisions (g : Game) : Step g (testCollisions g)
  | spawnEnemies (g : Game) (rs : List Nat) : Step g (spawnEnemies g rs).1
  | moveEnemies (g : Game) (rs : List Nat) : Step g (moveEnemies g rs).1
  | enemiesFire (g : Game) (rs : List Nat) : Step g (enemiesFire g rs).1
  | moveLasers (g : Game) : Step g (moveLasers g)
  | frameEnd (g : Game) : Step g (frameEnd g)
  | evPlay (g : Game) (key action : Nat) : Step g (evPlay g key action)
  | evGameOver (g : Game) (key : Nat) : Step g (evGameOver g key)
  | newGame (g : Game) : Step g (newGame g)

/-- The states reachable from a fresh session (`newGame` run on any
values of the globals it does not assign). -/
inductive Reachable : Game → Prop
  | init (g0 : Game) : Reachable (newGame g0)
  | step {g g1 : Game} : Reachable g → Step g g1 → Reachable g1

/-- The number of slots of an enemy pool whose `Alive` flag is set. -/
def aliveCount (es : List Enemy) : Int := (es.countP fun e => e.Alive : Nat)

/-- A state with every global at its zero value, as before the first session. -/
def blank : Game :=
  { run := true, paused := false, state := TITLE
    menu := { Selection := 0, Level := 0 }
    invincible := false
    player := { newPlayer with Alive := false, Health := 0 }
    enemies := [], totalEnemies := 0, explosions := []
    animationTimer := 0, enemySpawnTimer := 0, enemyWaves := 0, transitionTimer := 0
    status := { Text := "", Timeout := 0 } }

/-- A run of `Player.Damage` calls: each call comes with the value the
invincibility flag has when it is made and with its damage amount. -/
def damageCalls (g : Game) (calls : List (Bool × Int)) : Game :=
  calls.foldl (fun g c => Player.Damage { g with invincible := c.1 } c.2) g

/-- A fresh session. -/
def fresh : Game := newGame blank

/-- A fresh session in which the player has one health point left. -/
def lastHealth : Game :=
  { fresh with player := { newPlayer with Health := 1 } }

/-- A fresh session whose player has a health of -2. -/
def negativeHealth : Game :=
  { fresh with player := { newPlayer with Health := -2 } }

/-- A fresh session in which the player was just hit: the invulnerability
window is open with 50 frames to go. -/
def invulnerable : Game :=
  { fresh with player := { newPlayer with Invuln := true, InvulnTimer := 50 } }

/-- The session `invulnerable` with an alive laser of the first enemy lying
on the player's rectangle. -/
def invulnerableUnderFire : Game :=
  { invulnerable with
    enemies :=
      [{ newEnemy with Lasers := [{ X := 300, Y := 400, W := 8, H := 16, Alive := true }] }] }

/-- What the first pass of `testCollisions` may change of the globals:
`totalEnemies`, `player.Score` and the explosion pool (the laser and enemy
slots are handed back separately by the loops). -/
def ScoreFrame (g g1 : Game) : Prop :=
  ∃ (t s : Int) (ex : List Explosion),
    g1 = { g with totalEnemies := t, player := { g.player with Score := s }, explosions := ex }

/-- A player holding the fire action with a saturated laser pool and three
frames of cooldown left. -/
def saturatedPlayer : Player :=
  { newPlayer with
    Action := KDZ
    LaserTimer := 3
    Lasers := List.replicate MAX_LASERS { newLaser with Alive := true } }

/-- An alive enemy on the field with a saturated laser pool and no cooldown
left. -/
def saturatedEnemy : Enemy :=
  { newEnemy with
    Alive := true, Y := 10, W := 64, H := 32
    Lasers := List.replicate MAX_LASERS { newLaser with Alive := true } }

/-- The enemy `saturatedEnemy` with three frames of cooldown left. -/
def coolingEnemy : Enemy :=
  { saturatedEnemy with LaserTimer := 3 }

/-- The spawner scenario of the specification: a fresh session (no enemy
alive) with the spawn countdown at 0 and the wave count at 3. -/
def waveThree : Game :=
  { fresh with enemySpawnTimer := 0, enemyWaves := 3 }

/-- A 64x64 player at the right end of the `int32` range, at rest. -/
def farRight : Player :=
  { newPlayer with X := 2147483647 }

/-- The score penalty `Enemy.Move` applies for an escaped enemy of the given
kind. -/
def penalty (kind : Int) : Int :=
  if kind = 0 then 100 else if kind = 1 then 200 else 0

/-- A run of `Enemy.Move` calls (each enemy with the random values of its
call): the globals after the run. -/
def escapeRun (g : Game) : List (Enemy × List Nat) → Game
  | [] => g
  | x :: t => escapeRun (x.1.Move g x.2).2.2.1 t

/-- Every `Enemy.Move` call of the run returns true, that is, the enemy
escapes past the bottom and the penalty is applied. -/
def allEscape (g : Game) : List (Enemy × List Nat) → Bool
  | [] => true
  | x :: t => (x.1.Move g x.2).1 && allEscape (x.1.Move g x.2).2.2.1 t

/-- An alive weak enemy one step from leaving the field (`BOTTOM + H = 480`). -/
def leavingEnemy : Enemy :=
  { newEnemy with Alive := true, W := 64, H := 32, X := 100, Y := 480, PathLength := 5 }

/-- A fresh session with a score of 150. -/
def score150 : Game :=
  { fresh with player := { newPlayer with Score := 150 } }

/-- What every slot of the enemy pool satisfies in a running session: its
height is between 0 and 64 and its `Y` lies between the highest spawn row and
the escape line `BOTTOM + H`. -/
def SlotOk (e : Enemy) : Prop :=
  0 ≤ e.H ∧ e.H ≤ 64 ∧ -192 ≤ e.Y ∧ e.Y ≤ BOTTOM + e.H

/-- The invariant of the enemy pool: the counter agrees with the pool, every
slot is `SlotOk` and the pool has at most its `MAX_ENEMIES` slots. -/
def EnemyInv (g : Game) : Prop :=
  g.totalEnemies = aliveCount g.enemies ∧ (∀ e ∈ g.enemies, SlotOk e) ∧
    g.enemies.length ≤ MAX_ENEMIES

/-- The player laser of the collision scenario, at `(100, 50)`. -/
def duelLaser : Laser :=
  { newLaser with X := 100, Y := 50, Alive := true }

/-- The weak enemy of the collision scenario, at `(100, 50)`. -/
def duelEnemy : Enemy :=
  { newEnemy with Alive := true, X := 100, Y := 50, W := 64, H := 32, Kind := 0 }

/-- The collision scenario of the specification: a fresh session with one
alive player laser and one alive weak enemy, both at `(100, 50)`. -/
def duel : Game :=
  { fresh with
    totalEnemies := 1
    player := { newPlayer with Lasers := duelLaser :: List.replicate 4 newLaser }
    enemies := duelEnemy :: List.replicate 3 newEnemy }

/-- The player after `n` consecutive `Player.Move` calls (the action mask is
not changed in between). -/
def moveCalls : Nat → Player → Player
  | 0, p => p
  | n + 1, p => moveCalls n p.Move

/-- A player drifting right and up with no key held. -/
def drifting : Player :=
  { newPlayer with Vx := 8, Vy := -4 }

/-- The strong counterpart of `duelEnemy`: alive, `Kind` 1, 64x64, at
`(100, 50)`. -/
def strongEnemy : Enemy :=
  { duelEnemy with Kind := 1, H := 64 }

/-- The horizontal step of an enemy's patrol: `moveSpeed` in `Enemy.Move`. -/
def patrolSpeed (e : Enemy) : Int := if e.Kind = 1 then 3 else 2

/-- The session `duel` in which the first enemy also has an alive laser at
`(120, 478)`, two pixels above the bottom of the window. -/
def crossfire : Game :=
  { duel with
    enemies :=
      { duelEnemy with Lasers := [{ newLaser with X := 120, Y := 478, Alive := true }] }
        :: List.replicate 3 newEnemy }

/-- A session after the player's death: scene GAMEOVER, player dead with no
health left; the enemy `duelEnemy` lies on the player's rectangle and one of
its lasers is alive on it as well. -/
def afterDeath : Game :=
  { fresh with
    state := GAMEOVER
    totalEnemies := 1
    player := { newPlayer with Alive := false, Health := 0 }
    enemies :=
      { duelEnemy with
        X := 295, Y := 390
        Lasers := [{ newLaser with X := 300, Y := 400, Alive := true }] }
        :: List.replicate 3 newEnemy }

/-- Whether a `Player.Fire` call on `p` activates a laser slot: the fire
action is set, the cooldown is 0 and the loop finds a dead slot. -/
def Player.firing (p : Player) : Bool :=
  decide (p.Action &&& KDZ ≠ 0 ∧ p.LaserTimer = 0) && (p.fireLoop p.Lasers).2

/-- A run of `Player.Fire` calls; before each call the action mask and the
laser pool are replaced by the given ones (keys pressed or released, lasers
moved or destroyed in between). -/
def fireCalls (p : Player) : List (Nat × List Laser) → Player
  | [] => p
  | c :: t => fireCalls ({ p with Action := c.1, Lasers := c.2 } : Player).Fire t

/-- The fresh player holding the fire key. -/
def trigger : Player :=
  { newPlayer with Action := KDZ }

/-- A run of `evPlay` calls, each with its key mask and action mask. -/
def evPlayCalls (g : Game) : List (Nat × Nat) → Game
  | [] => g
  | c :: t => evPlayCalls (evPlay g c.1 c.2) t

/-- A GAMEOVER session in which the weak enemy `leavingEnemy` is about to
escape past the bottom while another enemy lies on the dead player's
rectangle; the player has a score of 150 and a laser in flight. -/
def gameOverScene : Game :=
  { afterDeath with
    totalEnemies := 2
    player := { afterDeath.player with Score := 150, Lasers := [duelLaser] }
    enemies := leavingEnemy :: afterDeath.enemies }

/-! ## Runs of frames and their spawn bursts -/

/-- The dispatch of `event()` for one polled event of a session: `evPlay` in
the PLAY scene (key mask and action mask), `evGameOver` in the GAMEOVER scene.
A session that has returned to the title scene is over (the title menu starts
the next one with a new `newGame`). -/
def handleEvent (g : Game) (ev : Nat × Nat) : Game :=
  if g.state = PLAY then evPlay g ev.1 ev.2
  else if g.state = GAMEOVER then evGameOver g ev.1
  else g

/-- Go `event()`: the loop over the events polled in one frame. -/
def handleEvents (g : Game) : List (Nat × Nat) → Game
  | [] => g
  | ev :: t => handleEvents (handleEvent g ev) t

/-- The first block of `update`, `if state != GAMEOVER { ... }`: the player's
tick, move and fire, then `testCollisions`. -/
def playerBlock (g : Game) : Game :=
  if g.state ≠ GAMEOVER then testCollisions { g with player := g.player.InvulnTick.Move.Fire }
  else g

/-- One iteration of the main loop: `event()` with the polled events `f.1`,
then `update()` with the random supply `f.2`. -/
def frame (g : Game) (f : List (Nat × Nat) × List Nat) : Game :=
  (update (handleEvents g f.1) f.2).1

/-- The slots a `spawnEnemies` call has activated: dead in the pool before
the call, alive in the pool after it. -/
def spawned (before after : List Enemy) : List Enemy :=
  ((before.zip after).filter fun p => !p.1.Alive && p.2.Alive).map fun p => p.2

/-- The enemies activated by the `spawnEnemies` call of one frame (none when
`update` returns at once, paused or in the title scene). -/
def burstOf (g : Game) (f : List (Nat × Nat) × List Nat) : List Enemy :=
  if (handleEvents g f.1).paused = true ∨ (handleEvents g f.1).state = TITLE then []
  else
    spawned (playerBlock (handleEvents g f.1)).enemies
      (spawnEnemies (playerBlock (handleEvents g f.1)) f.2).1.enemies

/-- The spawn bursts of a run, in order: for each frame whose `spawnEnemies`
call activates a slot, the enemies it activates. -/
def bursts (g : Game) : List (List (Nat × Nat) × List Nat) → List (List Enemy)
  | [] => []
  | f :: fs =>
    if (burstOf g f).isEmpty then bursts (frame g f) fs
    else burstOf g f :: bursts (frame g f) fs

/-- What `testCollisions` leaves alone: the spawner's countdown and wave
counter, the pause flag and the player's rectangle. -/
def clock (g : Game) : Int × Int × Bool × Rect :=
  (g.enemySpawnTimer, g.enemyWaves, g.paused, g.player.toRect)

/-- Slot `b` is slot `a` after a collision pass or a fire pass: same body and
kind, and alive only if `a` was. -/
def Fades (a b : Enemy) : Prop :=
  b.toRect = a.toRect ∧ b.Kind = a.Kind ∧ (b.Alive = true → a.Alive = true)

/-- The descent left to the alive enemies of a pool: for each alive slot the
distance from its `Y` to two past the escape line `BOTTOM + H`. -/
def descent (es : List Enemy) : Int :=
  (es.map fun e => if e.Alive then BOTTOM + e.H + 2 - e.Y else 0).sum

/-- No alive enemy of the pool has entered the field: its lower edge is
above the top of the window. -/
def Above (es : List Enemy) : Prop :=
  ∀ e ∈ es, e.Alive = true → i32 (e.Y + e.H) < 0

/-- The enemies of a pool `d` frames after a burst of height `h`: all alive,
of height `h`, with `Y` between the highest spawn row `-192` and `-64 + d`. -/
def Fresh (h d : Int) (es : List Enemy) : Prop :=
  ∀ e ∈ es, e.Alive = true ∧ e.H = h ∧ -192 ≤ e.Y ∧ e.Y ≤ -64 + d

/-- What the spawner reads and writes, and the height of the player: the
enemy pool, `totalEnemies`, `enemySpawnTimer`, `enemyWaves`, `player.H`. -/
def pace (g : Game) : List Enemy × Int × Int × Int × Int :=
  (g.enemies, g.totalEnemies, g.enemySpawnTimer, g.enemyWaves, g.player.H)

/-- The wave counter `w` as it stands when `n` bursts are behind: equal to
`n` up to the fifth, at least 5 from then on. -/
def wavesOK (n : Nat) (w : Int) : Prop :=
  (n < 5 → w = n) ∧ (5 ≤ n → 5 ≤ w)

/-- The kind of an enemy of the burst that has `n` bursts before it: weak
(Kind 0, 64x32) for `n < 4`, strong (Kind 1, 64x64) from `n = 4` on. -/
def kindOK (n : Nat) (e : Enemy) : Prop :=
  (n < 4 → e.Kind = 0 ∧ e.W = 64 ∧ e.H = 32) ∧ (4 ≤ n → e.Kind = 1 ∧ e.W = 64 ∧ e.H = 64)

/-- The spawner between two frames when `b` bursts are behind. Either the
countdown stands at 180 (enemies alive, or the last one just gone), or it
runs with the pool empty and the wave counter already incremented, or a
burst has just filled the pool (countdown still 0, and weak enemies still
above the field). -/
def Phase (b : Nat) (g : Game) : Prop :=
  EnemyInv g ∧ g.player.H = 64 ∧
  ((g.enemySpawnTimer = 180 ∧ wavesOK b g.enemyWaves) ∨
   (g.totalEnemies = 0 ∧ 0 ≤ g.enemySpawnTimer ∧ g.enemySpawnTimer ≤ 179 ∧
      wavesOK (b + 1) g.enemyWaves) ∨
   (0 < g.totalEnemies ∧ g.enemySpawnTimer = 0 ∧ wavesOK b g.enemyWaves ∧
      (g.enemyWaves < 5 → Above g.enemies)))

/-- The spawner after the player block of a frame, when `b` bursts are
behind. -/
def Mid (b : Nat) (g : Game) : Prop :=
  EnemyInv g ∧ g.player.H = 64 ∧
  ((g.enemySpawnTimer = 180 ∧ wavesOK b g.enemyWaves) ∨
   (g.totalEnemies = 0 ∧ 0 ≤ g.enemySpawnTimer ∧ g.enemySpawnTimer ≤ 179 ∧
      wavesOK (b + 1) g.enemyWaves) ∨
   (g.enemySpawnTimer = 0 ∧ wavesOK b g.enemyWaves ∧
      (g.enemyWaves < 5 → 0 < g.totalEnemies)))

/-- The frames an event-free, unpaused session is at most away from its next
burst: the countdown while the pool is empty, else the way the alive enemies
have left to fall plus the countdown from 180. -/
def untilBurst (g : Game) : Int :=
  if g.totalEnemies = 0 then g.enemySpawnTimer + 1 else descent g.enemies + 182

/-- A run of `n` frames without events, every random draw being 0. -/
def quiet (n : Nat) : List (List (Nat × Nat) × List Nat) :=
  List.replicate n ([], [])

/-- The enemies of the first burst of the quiet run. -/
def firstBurst : List Enemy :=
  List.replicate MAX_ENEMIES { newEnemy with Alive := true, W := 64, H := 32, Y := -192 }

/-! ## Scenarios for the invulnerability window and the damage bound -/

/-- A run of `n` calls of `Player.InvulnTick`. -/
def invulnTicks (p : Player) : Nat → Player
  | 0 => p
  | n + 1 => (invulnTicks p n).InvulnTick

/-- The laser pools of the enemies, in pool order. -/
def enemyLasers (es : List Enemy) : List (List Laser) :=
  es.map fun e => e.Lasers

/-- The session `invulnerable` with an alive enemy lying on the player's
rectangle, one of its lasers alive on the player too. -/
def invulnerableInContact : Game :=
  { invulnerable with
    totalEnemies := 1
    enemies :=
      [{ newEnemy with
          Alive := true, X := 295, Y := 400, W := 64, H := 32
          Lasers := [{ X := 300, Y := 400, W := 8, H := 16, Alive := true }] }] }

/-- A fresh session with one alive enemy lying on the player's rectangle,
one of its lasers alive on the player too. -/
def underFire : Game :=
  { fresh with
    totalEnemies := 1
    enemies :=
      [{ newEnemy with
          Alive := true, X := 295, Y := 400, W := 64, H := 32
          Lasers := [{ X := 300, Y := 400, W := 8, H := 16, Alive := true }] }] }

/-- The session `underFire` with the enemy's laser spent: only the body of
the enemy lies on the player. -/
def bodyContact : Game :=
  { fresh with
    totalEnemies := 1
    enemies :=
      [{ newEnemy with
          Alive := true, X := 295, Y := 400, W := 64, H := 32
          Lasers := [{ X := 300, Y := 400, W := 8, H := 16, Alive := false }] }] }

/-! ## Scripted sessions -/

/-- The name of one step of the simulation with its inputs: one constructor
for each constructor of `Step`. -/
inductive Op where
  | invulnTick
  | playerMove
  | playerFire
  | testCollisions
  | spawnEnemies (rs : List Nat)
  | moveEnemies (rs : List Nat)
  | enemiesFire (rs : List Nat)
  | moveLasers
  | frameEnd
  | evPlay (key action : Nat)
  | evGameOver (key : Nat)
  | newGame

/-- The state after the step `o` is taken from `g`. -/
def Op.run : Op → Game → Game
  | .invulnTick, g => { g with player := g.player.InvulnTick }
  | .playerMove, g => { g with player := g.player.Move }
  | .playerFire, g => { g with player := g.player.Fire }
  | .testCollisions, g => Espada.testCollisions g
  | .spawnEnemies rs, g => (Espada.spawnEnemies g rs).1
  | .moveEnemies rs, g => (Espada.moveEnemies g rs).1
  | .enemiesFire rs, g => (Espada.enemiesFire g rs).1
  | .moveLasers, g => Espada.moveLasers g
  | .frameEnd, g => Espada.frameEnd g
  | .evPlay k a, g => Espada.evPlay g k a
  | .evGameOver k, g => Espada.evGameOver g k
  | .newGame, g => Espada.newGame g

/-- The state after a list of steps, taken in order. -/
def script : List Op → Game → Game
  | [], g => g
  | o :: t, g => script t (o.run g)

/-- The state `g` with another score. -/
def withScore (s : Int) (g : Game) : Game :=
  { g with player := { g.player with Score := s } }

/-- The escape test of `Enemy.Move` fails for `e`: after `e.Y++` (for an
alive enemy) `Y` is not beyond `BOTTOM + H`. -/
def Enemy.stays (e : Enemy) : Bool :=
  decide ((if e.Alive = true then i32 (e.Y + 1) else e.Y) ≤ i32 (BOTTOM + e.H))

/-- The steps that neither read nor write the score: the player's fire, the
movement of the lasers, the spawner, and `moveEnemies` when no enemy of the
pool escapes. -/
def Op.blind : Op → Game → Bool
  | .playerFire, _ => true
  | .moveLasers, _ => true
  | .spawnEnemies _, _ => true
  | .moveEnemies _, g => g.enemies.all Enemy.stays
  | _, _ => false

/-- Every step of the list, taken in order from `g`, is blind to the score. -/
def blind : List Op → Game → Bool
  | [], _ => true
  | o :: t, g => o.blind g && blind t (o.run g)

/-- A laser slot of the player after its laser hit an enemy at the top of
the play field. -/
def spentLaser : Laser := { X := 327, Y := 8, W := 8, H := 16, Alive := false }

/-- A weak enemy slot after the enemy was shot as it came into view. -/
def shotEnemy : Enemy :=
  { newEnemy with X := 302, Y := -23, W := 64, H := 32, PathLength := 9 }

/-- An explosion slot activated by the destruction of `shotEnemy`. -/
def smoke : Explosion := { X := 302, Y := -23, W := 64, H := 64, Frame := 0, Alive := true }

/-- The session with score `s` in which the player holds the fire key, the
four enemies of the last burst have just been shot and `n` explosion slots
are taken. -/
def puffs (n : Nat) (s : Int) : Game :=
  { fresh with
    player := { newPlayer with
      Lasers := List.replicate 4 spentLaser ++ [newLaser], Score := s, Action := KDZ }
    enemies := List.replicate 4 shotEnemy
    explosions := List.replicate n smoke ++ List.replicate (MAX_EXPLOSIONS - n) newExplosion
    enemySpawnTimer := 0, enemyWaves := 1, transitionTimer := 0
    status := { Text := "Wave: 1", Timeout := 120 } }

/-- The session `puffs 16 s`: every explosion slot is taken. -/
def scoring (s : Int) : Game := puffs 16 s

/-- The session `scoring s` one burst later, before the collision pass: four
lasers of the player overlap the four enemies of the burst. -/
def armed (s : Int) : Game :=
  { scoring s with
    player := { (scoring s).player with
      Lasers := List.replicate 4 { spentLaser with Alive := true } ++ [newLaser] }
    enemies := List.replicate 4 { shotEnemy with Alive := true }
    totalEnemies := 4 }

/-- A fresh session after the start-up pause and the first spawn countdown,
with the fire key held. -/
def ready : Game :=
  { fresh with
    player := { newPlayer with Action := KDZ }
    enemySpawnTimer := 0, enemyWaves := 1, transitionTimer := 0
    status := { Text := "Wave: 1", Timeout := 120 } }

/-- The random values of a burst of four enemies, each with `Dir = 0`,
`X = 300` and `Y = -64`. -/
def burstDraws : List Nat := [0, 300, 128, 0, 300, 128, 0, 300, 128, 0, 300, 128]

/-- The steps from a fresh session to `ready`: the fire key is held through
the ten event polls that end the start-up pause, and the spawn countdown runs
out. -/
def warmup : List Op :=
  List.replicate 10 (Op.evPlay 0 KDZ) ++ List.replicate 180 (Op.spawnEnemies [])

/-- The steps from `scoring s` to `armed s`: the player fires four lasers
(60 calls of `Fire`), they fly to the top of the play field, a burst is
spawned and descends for 41 steps. -/
def approach : List Op :=
  List.replicate 60 Op.playerFire ++ List.replicate 36 Op.moveLasers ++
    [Op.spawnEnemies burstDraws] ++ List.replicate 41 (Op.moveEnemies [])

/-- One burst shot down: `approach` and the collision pass. -/
def volley : List Op := approach ++ [Op.testCollisions]

/-- The states reachable from a fresh session by steps each taken from a
state whose score is at least 100 for each enemy slot below the largest
`int64`, so that no award of the collision pass wraps around. -/
inductive ReachableUnwrapped : Game → Prop
  | init (g0 : Game) : ReachableUnwrapped (newGame g0)
  | step {g g1 : Game} : ReachableUnwrapped g →
      g.player.Score + 100 * MAX_ENEMIES ≤ 9223372036854775807 → Step g g1 →
      ReachableUnwrapped g1

/-- Every step of the list is taken from a state whose score is at least
400 below the largest `int64`. -/
def capped : List Op → Game → Bool
  | [], _ => true
  | o :: t, g =>
    decide (g.player.Score + 100 * MAX_ENEMIES ≤ 9223372036854775807) && capped t (o.run g)

/-- The steps from `ready` to `twoShots`: the player fires two lasers (16
calls of `Fire`), they fly to the top of the play field, a burst is spawned
and descends for 41 steps. -/
def shots : List Op :=
  List.replicate 16 Op.playerFire ++ List.replicate 36 Op.moveLasers ++
    [Op.spawnEnemies burstDraws] ++ List.replicate 41 (Op.moveEnemies [])

/-- The session `ready` after `shots`, before the collision pass: two lasers
of the player overlap the four enemies of the first burst. -/
def twoShots : Game :=
  { ready with
    player := { newPlayer with
      Action := KDZ, LaserTimer := 14
      Lasers := List.replicate 2 { spentLaser with Alive := true } ++ List.replicate 3 newLaser }
    enemies := List.replicate 4 { shotEnemy with Alive := true }
    totalEnemies := 4 }

/-- The session `twoShots` after the collision pass and some descent: two
enemies of the burst were shot (score 100), the other two are alive at
`(x, y)` with `PathLength = pl` and `Dir = dir`. -/
def remnant (x y pl dir : Int) : Game :=
  { ready with
    player := { newPlayer with
      Action := KDZ, LaserTimer := 14, Score := 100
      Lasers := List.replicate 2 spentLaser ++ List.replicate 3 newLaser }
    enemies := List.replicate 2 shotEnemy ++
      List.replicate 2 { shotEnemy with Alive := true, X := x, Y := y, PathLength := pl, Dir := dir }
    explosions := List.replicate 2 smoke ++ List.replicate 14 newExplosion
    totalEnemies := 2 }

/-- A run of `n` calls of `moveEnemies`, each drawing the value 0. -/
def sink (n : Nat) : List Op := List.replicate n (Op.moveEnemies [])

/-! ## Machine integer facts -/

theorem i32_of_isI32 {x : Int} (h : isI32 x) : i32 x = x := by
  unfold isI32 at h
  unfold i32
  omega

theorem isI32_i32 (x : Int) : isI32 (i32 x) := by
  unfold isI32 i32
  omega

theorem i64_of_isI64 {x : Int} (h : isI64 x) : i64 x = x := by
  unfold isI64 at h
  unfold i64
  omega

theorem isI64_i64 (x : Int) : isI64 (i64 x) := by
  unfold isI64 i64
  omega

/-! ## A whole frame is a sequence of steps -/

theorem Reachable.update {g : Game} (h : Reachable g) (rs : List Nat) :
    Reachable (update g rs).1 := by
  have tail : ∀ g1 : Game, Reachable g1 →
      Reachable (frameEnd (moveLasers (enemiesFire (moveEnemies (spawnEnemies g1 rs).1
        (spawnEnemies g1 rs).2).1 (moveEnemies (spawnEnemies g1 rs).1
          (spawnEnemies g1 rs).2).2).1)) := by
    intro g1 h1
    exact .step (.step (.step (.step (.step h1 (.spawnEnemies _ _)) (.moveEnemies _ _))
      (.enemiesFire _ _)) (.moveLasers _)) (.frameEnd _)
  simp only [Espada.update]
  split_ifs with h1 h2
  · exact h
  · have hp : Reachable (testCollisions { g with player := g.player.InvulnTick.Move.Fire }) :=
      .step (.step (.step (.step h (.invulnTick _)) (.playerMove _)) (.playerFire _))
        (.testCollisions _)
    exact tail _ hp
  · exact tail _ h

/-! ## C2: rectangle overlap -/

/-- C2. `collide a b` holds exactly when both axis projections strictly
overlap, `a.X < b.X + b.W`, `b.X < a.X + a.W`, `a.Y < b.Y + b.H` and
`b.Y < a.Y + a.H`, the sums being the `int32` sums of the source; when the
four sums fit in an `int32` they are the exact sums; and rectangles that only
touch (one's far edge equal to the other's near edge, on either axis) do not
collide. -/
theorem collide_iff_strict_overlap (a b : Rect) :
    (collide a b = true ↔
      a.X < i32 (b.X + b.W) ∧ b.X < i32 (a.X + a.W) ∧
      a.Y < i32 (b.Y + b.H) ∧ b.Y < i32 (a.Y + a.H)) ∧
    (isI32 (a.X + a.W) ∧ isI32 (b.X + b.W) ∧ isI32 (a.Y + a.H) ∧ isI32 (b.Y + b.H) →
      (collide a b = true ↔
        a.X < b.X + b.W ∧ b.X < a.X + a.W ∧ a.Y < b.Y + b.H ∧ b.Y < a.Y + a.H)) ∧
    (i32 (a.X + a.W) = b.X ∨ i32 (b.X + b.W) = a.X ∨
      i32 (a.Y + a.H) = b.Y ∨ i32 (b.Y + b.H) = a.Y → collide a b = false) := by
  have key : collide a b = true ↔
      a.X < i32 (b.X + b.W) ∧ b.X < i32 (a.X + a.W) ∧
      a.Y < i32 (b.Y + b.H) ∧ b.Y < i32 (a.Y + a.H) := by
    unfold collide
    split_ifs <;> simp <;> omega
  refine ⟨key, ?_, ?_⟩
  · rintro ⟨h1, h2, h3, h4⟩
    rw [key, i32_of_isI32 h1, i32_of_isI32 h2, i32_of_isI32 h3, i32_of_isI32 h4]
  · intro h
    cases hc : collide a b with
    | false => rfl
    | true =>
      rw [key] at hc
      omega

/-- C2, at two 10x10 rectangles: side by side they touch along the edge
`x = 10` and do not collide; shifted by one pixel they overlap and collide. -/
theorem collide_iff_strict_overlap_witness :
    (i32 ((0 : Int) + 10) = 10 ∧
      collide { X := 0, Y := 0, W := 10, H := 10 } { X := 10, Y := 0, W := 10, H := 10 } = false) ∧
    ((isI32 ((0 : Int) + 10) ∧ isI32 ((9 : Int) + 10)) ∧
      collide { X := 0, Y := 0, W := 10, H := 10 } { X := 9, Y := 0, W := 10, H := 10 } = true) :=
  ⟨⟨by decide,
    (collide_iff_strict_overlap { X := 0, Y := 0, W := 10, H := 10 }
      { X := 10, Y := 0, W := 10, H := 10 }).2.2 (Or.inl (by decide))⟩,
   ⟨by decide,
    ((collide_iff_strict_overlap { X := 0, Y := 0, W := 10, H := 10 }
      { X := 9, Y := 0, W := 10, H := 10 }).2.1 (by decide)).2 (by decide)⟩⟩

/-! ## Facts about `spawnExplosion` and `Player.Damage` -/

theorem spawnExplosionLoop_first_dead (x y : Int) (pre : List Explosion) (e : Explosion)
    (post : List Explosion) (hpre : ∀ a ∈ pre, a.Alive = true) (he : e.Alive = false) :
    spawnExplosionLoop x y (pre ++ e :: post) =
      pre ++ { X := i32 x, Y := i32 y, W := 64, H := 64, Frame := 0, Alive := true } :: post := by
  induction pre with
  | nil => simp [spawnExplosionLoop, he]
  | cons a pre ih =>
    have ha : a.Alive = true := hpre a (List.mem_cons_self _ _)
    have ih1 := ih (fun b hb => hpre b (List.mem_cons_of_mem _ hb))
    simp [spawnExplosionLoop, ha, ih1]

theorem Damage_invincible (g : Game) (d : Int) (h : g.invincible = true) :
    Player.Damage g d = g := by
  simp [Player.Damage, h]

theorem Damage_health (g : Game) (d : Int) (h : g.invincible = false) :
    (Player.Damage g d).player.Health =
      if i64 (g.player.Health - d) ≤ 0 then 0 else i64 (g.player.Health - d) := by
  unfold Player.Damage
  simp only [h]
  split_ifs <;> simp_all [spawnExplosion]

theorem Damage_health_range (g : Game) (d : Int) (hd : 0 ≤ d) (hd2 : isI64 d)
    (h0 : 0 ≤ g.player.Health) (h1 : g.player.Health ≤ MAX_HEALTH) :
    0 ≤ (Player.Damage g d).player.Health ∧ (Player.Damage g d).player.Health ≤ MAX_HEALTH := by
  cases hi : g.invincible with
  | true => rw [Damage_invincible g d hi]; exact ⟨h0, h1⟩
  | false =>
    have hw : i64 (g.player.Health - d) = g.player.Health - d :=
      i64_of_isI64 (by unfold isI64 at *; simp only [MAX_HEALTH] at h1; omega)
    rw [Damage_health g d hi, hw]
    split_ifs <;> constructor <;> simp only [MAX_HEALTH] at * <;> omega

theorem damageCalls_health_range (calls : List (Bool × Int)) :
    ∀ g : Game, (∀ c ∈ calls, 0 ≤ c.2 ∧ isI64 c.2) →
      0 ≤ g.player.Health → g.player.Health ≤ MAX_HEALTH →
      0 ≤ (damageCalls g calls).player.Health ∧
        (damageCalls g calls).player.Health ≤ MAX_HEALTH := by
  induction calls with
  | nil => intro g _ h0 h1; exact ⟨h0, h1⟩
  | cons c cs ih =>
    intro g hd h0 h1
    have hc := hd c (List.mem_cons_self _ _)
    have hr := Damage_health_range { g with invincible := c.1 } c.2 hc.1 hc.2 h0 h1
    exact ih _ (fun b hb => hd b (List.mem_cons_of_mem _ hb)) hr.1 hr.2

/-! ## C3: fatal damage -/

/-- C3 fails as stated: `Health -= d` is a Go `int` subtraction and wraps
around. In the session `negativeHealth` (health -2, invincibility off) the
damage `d = 2^63 - 1 >= Health` leaves `Health = 2^63 - 1`, the player alive
and the scene in PLAY. -/
theorem Damage_fatal_wraps :
    negativeHealth.invincible = false ∧
    (9223372036854775807 : Int) ≥ negativeHealth.player.Health ∧
    (Player.Damage negativeHealth 9223372036854775807).player.Health = 9223372036854775807 ∧
    (Player.Damage negativeHealth 9223372036854775807).player.Alive = true ∧
    (Player.Damage negativeHealth 9223372036854775807).state = PLAY := by
  decide

/-- C3 as amended. With invincibility off, `Player.Damage(d)` with
`d >= Health` whose difference `Health - d` does not wrap around
(`Health - d >= -2^63`) leaves `Health = 0`, `Alive = false` and the scene in
GAMEOVER, and the first dead explosion slot (all slots before it alive)
becomes an alive 64x64 explosion at the player's `(X, Y)` with frame 0, every
other slot unchanged. -/
theorem Damage_fatal (g : Game) (d : Int) (hinv : g.invincible = false)
    (hd : d ≥ g.player.Health) (hw : -9223372036854775808 ≤ g.player.Health - d)
    (hx : isI32 g.player.X) (hy : isI32 g.player.Y) :
    (Player.Damage g d).player.Health = 0 ∧
    (Player.Damage g d).player.Alive = false ∧
    (Player.Damage g d).state = GAMEOVER ∧
    ∀ (pre : List Explosion) (e : Explosion) (post : List Explosion),
      g.explosions = pre ++ e :: post → (∀ a ∈ pre, a.Alive = true) → e.Alive = false →
      (Player.Damage g d).explosions =
        pre ++ { X := g.player.X, Y := g.player.Y, W := 64, H := 64, Frame := 0, Alive := true }
          :: post := by
  have hle : i64 (g.player.Health - d) ≤ 0 := by
    rw [i64_of_isI64 (by unfold isI64; omega)]; omega
  have hD : Player.Damage g d =
      { spawnExplosion
          { g with player :=
              { g.player with Invuln := true, InvulnTimer := 100, Health := 0, Alive := false } }
          g.player.X g.player.Y with state := GAMEOVER } := by
    simp [Player.Damage, hinv, hle]
  rw [hD]
  refine ⟨rfl, rfl, rfl, ?_⟩
  intro pre e post hex hpre he
  simp only [spawnExplosion, hex]
  rw [spawnExplosionLoop_first_dead _ _ pre e post hpre he, i32_of_isI32 hx, i32_of_isI32 hy]

/-- C3 as amended, at the scenario of the specification: health 1, damage 2,
in a fresh session (all sixteen explosion slots dead). -/
theorem Damage_fatal_witness :
    (lastHealth.invincible = false ∧ (2 : Int) ≥ lastHealth.player.Health ∧
      (-9223372036854775808 : Int) ≤ lastHealth.player.Health - 2) ∧
    (Player.Damage lastHealth 2).player.Health = 0 ∧
    (Player.Damage lastHealth 2).player.Alive = false ∧
    (Player.Damage lastHealth 2).state = GAMEOVER ∧
    (Player.Damage lastHealth 2).explosions =
      { X := 295, Y := 384, W := 64, H := 64, Frame := 0, Alive := true }
        :: List.replicate 15 newExplosion :=
  have h := Damage_fatal lastHealth 2 (by decide) (by decide) (by decide) (by decide)
    (by decide)
  ⟨⟨by decide, by decide, by decide⟩, h.1, h.2.1, h.2.2.1,
    h.2.2.2 [] newExplosion (List.replicate 15 newExplosion) (by decide) (by simp) rfl⟩

/-! ## C4: health stays in range -/

/-- C4. From a player with `0 <= Health <= MAX_HEALTH`, after every call of a
run of `Player.Damage(d)` calls with `d >= 0` (each made with the
invincibility flag on or off, each `d` a Go `int`),
`0 <= Health <= MAX_HEALTH`. -/
theorem Damage_calls_keep_health_in_range (g : Game) (calls : List (Bool × Int)) (n : Nat)
    (h0 : 0 ≤ g.player.Health) (h1 : g.player.Health ≤ MAX_HEALTH)
    (hd : ∀ c ∈ calls, 0 ≤ c.2 ∧ isI64 c.2) :
    0 ≤ (damageCalls g (calls.take n)).player.Health ∧
      (damageCalls g (calls.take n)).player.Health ≤ MAX_HEALTH :=
  damageCalls_health_range (calls.take n) g
    (fun c hc => hd c (List.mem_of_mem_take hc)) h0 h1

/-- C4 on a fresh session hit for 2, 0 (invincible) and 7: health is 3, 3, 0
after the three calls. -/
theorem Damage_calls_keep_health_in_range_witness :
    (0 ≤ fresh.player.Health ∧ fresh.player.Health ≤ MAX_HEALTH) ∧
    (0 ≤ (damageCalls fresh ([(false, 2), (true, 0), (false, 7)].take 3)).player.Health ∧
      (damageCalls fresh ([(false, 2), (true, 0), (false, 7)].take 3)).player.Health
        ≤ MAX_HEALTH) ∧
    (damageCalls fresh [(false, 2)]).player.Health = 3 ∧
    (damageCalls fresh [(false, 2), (true, 0)]).player.Health = 3 ∧
    (damageCalls fresh [(false, 2), (true, 0), (false, 7)]).player.Health = 0 :=
  ⟨⟨by decide, by decide⟩,
    Damage_calls_keep_health_in_range fresh [(false, 2), (true, 0), (false, 7)] 3
      (by decide) (by decide) (by decide),
    by decide, by decide, by decide⟩

/-! ## Facts about the passes of `testCollisions` -/

theorem ScoreFrame.refl (g : Game) : ScoreFrame g g := ⟨g.totalEnemies, g.player.Score, g.explosions, rfl⟩

theorem ScoreFrame.trans {a b c : Game} (h1 : ScoreFrame a b) (h2 : ScoreFrame b c) :
    ScoreFrame a c := by
  obtain ⟨t1, s1, x1, rfl⟩ := h1
  obtain ⟨t2, s2, x2, rfl⟩ := h2
  exact ⟨t2, s2, x2, rfl⟩

theorem laserScan_frame (l : Laser) (es : List Enemy) (g : Game) :
    ScoreFrame g (laserScan l es g).2.2 := by
  induction es with
  | nil => exact ScoreFrame.refl g
  | cons e es ih =>
    unfold laserScan
    split_ifs
    · exact ih
    all_goals exact ⟨_, _, _, rfl⟩

theorem laserPass_frame (ls : List Laser) :
    ∀ (es : List Enemy) (g : Game), ScoreFrame g (laserPass ls es g).2.2 := by
  induction ls with
  | nil => intro es g; exact ScoreFrame.refl g
  | cons l ls ih =>
    intro es g
    unfold laserPass
    exact ScoreFrame.trans (laserScan_frame l es g) (ih _ _)

theorem enemyLaserScan_invuln (ls : List Laser) (g : Game) (h : g.player.Invuln = true) :
    enemyLaserScan ls g = (ls, g) := by
  induction ls with
  | nil => rfl
  | cons l ls ih =>
    unfold enemyLaserScan
    split_ifs <;> simp_all

theorem enemyLaserPass_invuln (es : List Enemy) (g : Game) (h : g.player.Invuln = true) :
    enemyLaserPass es g = (es, g) := by
  induction es with
  | nil => rfl
  | cons e es ih =>
    unfold enemyLaserPass
    simp [enemyLaserScan_invuln _ g h, ih]

theorem bodyPass_invuln (es : List Enemy) (g : Game) (h : g.player.Invuln = true) :
    bodyPass es g = (es, g) := by
  induction es with
  | nil => rfl
  | cons e es ih =>
    unfold bodyPass
    split_ifs <;> simp_all

theorem testCollisions1_player (g : Game) :
    ∃ s : Int, (testCollisions1 g).player =
      { g.player with Score := s, Lasers := (laserPass g.player.Lasers g.enemies g).1 } := by
  obtain ⟨t, s, ex, h⟩ := laserPass_frame g.player.Lasers g.enemies g
  exact ⟨s, by simp [testCollisions1, h]⟩

/-- While the invulnerability window is open the second and third pass of
`testCollisions` change nothing. -/
theorem testCollisions_invuln (g : Game) (h : g.player.Invuln = true) :
    testCollisions g = testCollisions1 g := by
  have h1 : (testCollisions1 g).player.Invuln = true := by
    obtain ⟨s, hs⟩ := testCollisions1_player g
    rw [hs]; exact h
  have h2 : testCollisions2 (testCollisions1 g) = testCollisions1 g := by
    simp [testCollisions2, enemyLaserPass_invuln _ _ h1]
  have h3 : testCollisions3 (testCollisions1 g) = testCollisions1 g := by
    simp [testCollisions3, bodyPass_invuln _ _ h1]
  simp [testCollisions, h2, h3]

/-! ## C5: damage during the invulnerability window -/

/-- C5 fails as stated: in the session `invulnerable` the window is open
(`Invuln = true`, `InvulnTimer = 50`) and `Player.Damage(1)` takes `Health`
from 5 to 4. -/
theorem Damage_in_window_reduces_health :
    invulnerable.player.Invuln = true ∧ 0 < invulnerable.player.InvulnTimer ∧
    invulnerable.player.Health = 5 ∧ (Player.Damage invulnerable 1).player.Health = 4 := by
  decide

/-- C5 as amended. `Player.Damage(d)` does not look at the invulnerability
window: with invincibility off it takes `Health` to the Go `int` difference
`Health - d` (which is `Health - d` itself when that fits in 64 bits), or to
0 when that is not positive, and with invincibility on it changes nothing.
The window is enforced by the caller: `testCollisions` on a state with
`player.Invuln = true` leaves `Health` unchanged. -/
theorem Damage_window_enforced_by_testCollisions (g : Game) :
    (∀ d : Int, g.invincible = false →
      (Player.Damage g d).player.Health =
        (if i64 (g.player.Health - d) ≤ 0 then 0 else i64 (g.player.Health - d)) ∧
      (isI64 (g.player.Health - d) →
        (Player.Damage g d).player.Health =
          if g.player.Health - d ≤ 0 then 0 else g.player.Health - d)) ∧
    (∀ d : Int, g.invincible = true → Player.Damage g d = g) ∧
    (g.player.Invuln = true → (testCollisions g).player.Health = g.player.Health) := by
  refine ⟨fun d h => ⟨Damage_health g d h, fun hw => ?_⟩,
    fun d h => Damage_invincible g d h, ?_⟩
  · rw [Damage_health g d h, i64_of_isI64 hw]
  intro h
  rw [testCollisions_invuln g h]
  obtain ⟨s, hs⟩ := testCollisions1_player g
  rw [hs]

/-- C5 as amended, on a session whose player is invulnerable while an enemy
laser lies on the player's rectangle. -/
theorem Damage_window_enforced_by_testCollisions_witness :
    (invulnerableUnderFire.invincible = false ∧ invulnerableUnderFire.player.Invuln = true) ∧
    (Player.Damage invulnerableUnderFire 1).player.Health = 4 ∧
    (testCollisions invulnerableUnderFire).player.Health = 5 :=
  have h := Damage_window_enforced_by_testCollisions invulnerableUnderFire
  ⟨⟨by decide, by decide⟩, ((h.1 1 (by decide)).2 (by decide)).trans (by decide),
    (h.2.2 (by decide)).trans (by decide)⟩

/-! ## C7: firing with a saturated pool -/

theorem playerFireLoop_saturated (p : Player) (ls : List Laser)
    (h : ∀ l ∈ ls, l.Alive = true) : p.fireLoop ls = (ls, false) := by
  induction ls with
  | nil => rfl
  | cons l ls ih =>
    have hl : l.Alive = true := h l (List.mem_cons_self _ _)
    have ih1 := ih (fun b hb => h b (List.mem_cons_of_mem _ hb))
    simp [Player.fireLoop, hl, ih1]

theorem enemyFireLoop_saturated (e : Enemy) (ls : List Laser)
    (h : ∀ l ∈ ls, l.Alive = true) : e.fireLoop ls = (ls, false) := by
  induction ls with
  | nil => rfl
  | cons l ls ih =>
    have hl : l.Alive = true := h l (List.mem_cons_self _ _)
    have ih1 := ih (fun b hb => h b (List.mem_cons_of_mem _ hb))
    simp [Enemy.fireLoop, hl, ih1]

/-- C7 fails as stated: the player `saturatedPlayer` holds the fire action,
all its laser slots are alive and `LaserTimer = 3`; `Fire` leaves
`LaserTimer = 2`. The same happens to the enemy `coolingEnemy`, which has
`LaserTimer = 3`. -/
theorem Fire_saturated_changes_cooldown :
    (saturatedPlayer.Action &&& KDZ ≠ 0 ∧
      saturatedPlayer.Lasers.all (fun l => l.Alive) = true ∧
      saturatedPlayer.Lasers.length = MAX_LASERS ∧
      saturatedPlayer.LaserTimer = 3 ∧ saturatedPlayer.Fire.LaserTimer = 2) ∧
    (coolingEnemy.Lasers.all (fun l => l.Alive) = true ∧
      coolingEnemy.Lasers.length = MAX_LASERS ∧
      coolingEnemy.LaserTimer = 3 ∧ (coolingEnemy.Fire []).1.LaserTimer = 2) := by
  decide

/-- C7 as amended. For an owner all of whose laser slots are alive, `Fire`
leaves every laser slot unchanged and only ticks the cooldown: `LaserTimer`
goes down by one when it is positive and is unchanged otherwise; so the call
changes nothing at all when `LaserTimer = 0`, the only case in which a shot is
attempted. An enemy's `Fire` draws no random value then. -/
theorem Fire_saturated (p : Player) (e : Enemy) (rs : List Nat) :
    ((∀ l ∈ p.Lasers, l.Alive = true) →
      p.Fire.Lasers = p.Lasers ∧
      p.Fire.LaserTimer = (if p.LaserTimer > 0 then p.LaserTimer - 1 else p.LaserTimer) ∧
      (p.LaserTimer = 0 → p.Fire = p)) ∧
    ((∀ l ∈ e.Lasers, l.Alive = true) →
      (e.Fire rs).1.Lasers = e.Lasers ∧
      (e.Fire rs).1.LaserTimer = (if e.LaserTimer > 0 then e.LaserTimer - 1 else e.LaserTimer) ∧
      (e.Fire rs).2 = rs ∧
      (e.LaserTimer = 0 → (e.Fire rs).1 = e)) := by
  constructor
  · intro h
    have hl := playerFireLoop_saturated p p.Lasers h
    have hF : p.Fire = { p with LaserTimer :=
        if p.LaserTimer > 0 then p.LaserTimer - 1 else p.LaserTimer } := by
      unfold Player.Fire
      split_ifs <;> simp_all
    refine ⟨by rw [hF], by rw [hF], ?_⟩
    intro h0
    have ht : (if p.LaserTimer > 0 then p.LaserTimer - 1 else p.LaserTimer) = p.LaserTimer := by
      simp [h0]
    rw [hF, ht]
  · intro h
    have hl := enemyFireLoop_saturated e e.Lasers h
    have hF : e.Fire rs = ({ e with LaserTimer :=
        if e.LaserTimer > 0 then e.LaserTimer - 1 else e.LaserTimer }, rs) := by
      unfold Enemy.Fire
      split_ifs <;> simp_all
    refine ⟨by rw [hF], by rw [hF], by rw [hF], ?_⟩
    intro h0
    have ht : (if e.LaserTimer > 0 then e.LaserTimer - 1 else e.LaserTimer) = e.LaserTimer := by
      simp [h0]
    rw [hF, ht]

/-- C7 as amended, at `saturatedPlayer` and `saturatedEnemy`. -/
theorem Fire_saturated_witness :
    (saturatedPlayer.Lasers.all (fun l => l.Alive) = true ∧
      saturatedEnemy.Lasers.all (fun l => l.Alive) = true) ∧
    saturatedPlayer.Fire.Lasers = saturatedPlayer.Lasers ∧
    (saturatedEnemy.Fire [7]).1 = saturatedEnemy ∧ (saturatedEnemy.Fire [7]).2 = [7] :=
  have h := Fire_saturated saturatedPlayer saturatedEnemy [7]
  ⟨⟨by decide, by decide⟩, (h.1 (by decide)).1, (h.2 (by decide)).2.2.2 (by decide),
    (h.2 (by decide)).2.2.1⟩

/-! ## C9: a spawn burst -/

theorem spawnLoop_all_dead (es : List Enemy) :
    ∀ (g : Game) (rs : List Nat), (∀ e ∈ es, e.Alive = false) →
      (∀ e ∈ (spawnLoop es g rs).1,
        e.Alive = true ∧ e.W = 64 ∧
        e.H = (if g.enemyWaves < 5 then 32 else 64) ∧
        e.Kind = (if g.enemyWaves < 5 then 0 else 1)) ∧
      (spawnLoop es g rs).1.length = es.length ∧
      (spawnLoop es g rs).2.1 = { g with totalEnemies := g.totalEnemies + es.length } := by
  induction es with
  | nil =>
    intro g rs _
    simp [spawnLoop]
  | cons a es ih =>
    intro g rs h
    have ha : a.Alive = false := h a (List.mem_cons_self _ _)
    obtain ⟨h1, h2, h3⟩ := ih { g with totalEnemies := g.totalEnemies + 1 }
      (draw (draw (draw rs).2).2).2 (fun b hb => h b (List.mem_cons_of_mem _ hb))
    refine ⟨?_, ?_, ?_⟩
    · intro e he
      simp only [spawnLoop, ha, Bool.not_false, if_true, List.mem_cons] at he
      rcases he with rfl | he
      · exact ⟨rfl, rfl, rfl, rfl⟩
      · exact h1 e he
    · simp only [spawnLoop, ha, Bool.not_false, if_true, List.length_cons, h2]
    · simp only [spawnLoop, ha, Bool.not_false, if_true, h3, List.length_cons]
      have : g.totalEnemies + 1 + (es.length : Int) = g.totalEnemies + ((es.length + 1 : Nat) : Int) := by
        push_cast; ring
      simp only [this]

/-- C9 fails as stated: in the session `waveThree` (no enemy alive, countdown
0, wave count 3) one `spawnEnemies` call activates the four slots, and leaves
the wave count at 3 and the countdown at 0. -/
theorem spawnEnemies_burst_keeps_counters :
    waveThree.totalEnemies = 0 ∧ waveThree.enemies.all (fun e => !e.Alive) = true ∧
    waveThree.enemySpawnTimer = 0 ∧ waveThree.enemyWaves = 3 ∧
    (spawnEnemies waveThree []).1.enemyWaves = 3 ∧
    (spawnEnemies waveThree []).1.enemySpawnTimer = 0 ∧
    (spawnEnemies waveThree []).1.totalEnemies = 4 := by
  decide

/-- C9 as amended. From a state with `totalEnemies = 0`, every enemy slot
dead, `enemySpawnTimer = 0` and `enemyWaves = 3`, one `spawnEnemies` call
(any random values) leaves every enemy slot alive with `Kind` weak, `W = 64`
and `H = 32`, and `totalEnemies` equal to the number of slots; `enemyWaves` is
still 3 and `enemySpawnTimer` still 0 after that call. When the pool is not
empty the next call sets `enemySpawnTimer` to 180, `enemyWaves` still 3. -/
theorem spawnEnemies_burst (g : Game) (rs : List Nat)
    (ht : g.totalEnemies = 0) (hdead : ∀ e ∈ g.enemies, e.Alive = false)
    (htimer : g.enemySpawnTimer = 0) (hw : g.enemyWaves = 3) :
    (∀ e ∈ (spawnEnemies g rs).1.enemies,
      e.Alive = true ∧ e.Kind = 0 ∧ e.W = 64 ∧ e.H = 32) ∧
    (spawnEnemies g rs).1.enemies.length = g.enemies.length ∧
    (spawnEnemies g rs).1.totalEnemies = g.enemies.length ∧
    (spawnEnemies g rs).1.enemyWaves = 3 ∧
    (spawnEnemies g rs).1.enemySpawnTimer = 0 ∧
    (g.enemies ≠ [] → ∀ rs2 : List Nat,
      (spawnEnemies (spawnEnemies g rs).1 rs2).1.enemySpawnTimer = 180 ∧
      (spawnEnemies (spawnEnemies g rs).1 rs2).1.enemyWaves = 3) := by
  obtain ⟨h1, h2, h3⟩ := spawnLoop_all_dead g.enemies g rs hdead
  have hS : (spawnEnemies g rs).1 =
      { g with enemies := (spawnLoop g.enemies g rs).1,
               totalEnemies := g.totalEnemies + g.enemies.length } := by
    simp [spawnEnemies, ht, htimer, h3]
  rw [hS]
  refine ⟨?_, h2, by simp [ht], hw, htimer, ?_⟩
  · intro e he
    have := h1 e he
    simp only [hw] at this
    exact ⟨this.1, this.2.2.2, this.2.1, this.2.2.1⟩
  · intro hne rs2
    have hlen : (0 : Int) < g.enemies.length := by
      cases hg : g.enemies with
      | nil => exact absurd hg hne
      | cons a t => simp
    have hne0 : g.totalEnemies + (g.enemies.length : Int) ≠ 0 := by omega
    simp [spawnEnemies, hne0, hw]

/-- C9 as amended, at the session `waveThree`. -/
theorem spawnEnemies_burst_witness :
    (waveThree.totalEnemies = 0 ∧ waveThree.enemies.all (fun e => !e.Alive) = true ∧
      waveThree.enemySpawnTimer = 0 ∧ waveThree.enemyWaves = 3) ∧
    (spawnEnemies waveThree [1, 2, 3]).1.totalEnemies = 4 ∧
    (spawnEnemies waveThree [1, 2, 3]).1.enemyWaves = 3 ∧
    (spawnEnemies waveThree [1, 2, 3]).1.enemySpawnTimer = 0 :=
  have h := spawnEnemies_burst waveThree [1, 2, 3] (by decide) (by decide) (by decide) (by decide)
  ⟨⟨by decide, by decide, by decide, by decide⟩, h.2.2.1.trans (by decide), h.2.2.2.1, h.2.2.2.2.1⟩

/-! ## C10: the player stays on the play field -/

/-- The position `Player.Move` computes, in terms of the velocity it
computes. -/
theorem Player.Move_X (p : Player) :
    p.Move.X =
      (if i32 ((if i32 (p.X + i32 p.Move.Vx) < 0 then 0 else i32 (p.X + i32 p.Move.Vx)) + p.W)
          > WIDTH
        then i32 (WIDTH - p.W)
        else (if i32 (p.X + i32 p.Move.Vx) < 0 then 0 else i32 (p.X + i32 p.Move.Vx))) :=
  rfl

theorem Player.Move_Y (p : Player) :
    p.Move.Y =
      (if i32 ((if i32 (p.Y + i32 p.Move.Vy) < 0 then 0 else i32 (p.Y + i32 p.Move.Vy)) + p.H)
          > BOTTOM
        then i32 (BOTTOM - p.H)
        else (if i32 (p.Y + i32 p.Move.Vy) < 0 then 0 else i32 (p.Y + i32 p.Move.Vy))) :=
  rfl

/-- The clamp of one axis: position `x`, velocity `v`, size `w` and field
width `m`. -/
theorem clamp_axis (x v w m : Int) (hw : 0 < w) (hm : w ≤ m) (hm2 : m ≤ 640) :
    (i32 (x + i32 v) + w ≤ 2147483647 →
      0 ≤ (if i32 ((if i32 (x + i32 v) < 0 then 0 else i32 (x + i32 v)) + w) > m
            then i32 (m - w) else (if i32 (x + i32 v) < 0 then 0 else i32 (x + i32 v))) ∧
      (if i32 ((if i32 (x + i32 v) < 0 then 0 else i32 (x + i32 v)) + w) > m
            then i32 (m - w) else (if i32 (x + i32 v) < 0 then 0 else i32 (x + i32 v)))
        ≤ m - w) ∧
    (0 ≤ x + v ∧ x + v ≤ m - w →
      (if i32 ((if i32 (x + i32 v) < 0 then 0 else i32 (x + i32 v)) + w) > m
            then i32 (m - w) else (if i32 (x + i32 v) < 0 then 0 else i32 (x + i32 v)))
        = x + v) := by
  unfold i32
  constructor
  · intro h
    split_ifs <;> omega
  · intro h
    split_ifs <;> omega

/-- C10 fails as stated: the 64x64 player `farRight` stands at
`X = 2147483647` with no velocity and no input; in `Move` the test
`p.X+p.W > WIDTH` overflows `int32`, nothing is clamped and `X` stays at
`2147483647`, beyond `WIDTH - W = 576`. -/
theorem Move_unclamped_on_overflow :
    (0 < farRight.W ∧ farRight.W ≤ WIDTH ∧ 0 < farRight.H ∧ farRight.H ≤ BOTTOM) ∧
    farRight.toRect.wf ∧
    farRight.Move.X = 2147483647 ∧ ¬ (farRight.Move.X ≤ WIDTH - farRight.W) := by
  decide

/-- C10 as amended. For every player with `0 < W <= WIDTH` and
`0 < H <= BOTTOM` and every action mask: when the new position
`X1 = X + Vx'` (an `int32` sum, `Vx'` the updated velocity) has
`X1 + W <= 2147483647`, so that the clamp test does not overflow, `Move`
leaves `0 <= X <= WIDTH - W`; likewise `0 <= Y <= BOTTOM - H` when
`Y1 + H <= 2147483647`; and when the exact sum `X + Vx'` lies in
`[0, WIDTH - W]` the new `X` is `X + Vx'`, likewise for `Y`. -/
theorem Move_clamps (p : Player)
    (hW : 0 < p.W ∧ p.W ≤ WIDTH) (hH : 0 < p.H ∧ p.H ≤ BOTTOM) :
    (i32 (p.X + i32 p.Move.Vx) + p.W ≤ 2147483647 →
      0 ≤ p.Move.X ∧ p.Move.X ≤ WIDTH - p.W) ∧
    (i32 (p.Y + i32 p.Move.Vy) + p.H ≤ 2147483647 →
      0 ≤ p.Move.Y ∧ p.Move.Y ≤ BOTTOM - p.H) ∧
    (0 ≤ p.X + p.Move.Vx ∧ p.X + p.Move.Vx ≤ WIDTH - p.W → p.Move.X = p.X + p.Move.Vx) ∧
    (0 ≤ p.Y + p.Move.Vy ∧ p.Y + p.Move.Vy ≤ BOTTOM - p.H → p.Move.Y = p.Y + p.Move.Vy) := by
  have hx := clamp_axis p.X p.Move.Vx p.W WIDTH hW.1 hW.2 (by decide)
  have hy := clamp_axis p.Y p.Move.Vy p.H BOTTOM hH.1 hH.2 (by decide)
  rw [Player.Move_X, Player.Move_Y]
  exact ⟨hx.1, hy.1, hx.2, hy.2⟩

/-- C10 as amended, at the fresh player holding left: `Vx` becomes `-1` and
the player moves from `(295, 384)` to `(294, 384)`. -/
theorem Move_clamps_witness :
    ((0 < newPlayer.W ∧ newPlayer.W ≤ WIDTH) ∧ (0 < newPlayer.H ∧ newPlayer.H ≤ BOTTOM)) ∧
    (0 ≤ ({ newPlayer with Action := KDL } : Player).Move.X ∧
      ({ newPlayer with Action := KDL } : Player).Move.X ≤ WIDTH - 64) ∧
    ({ newPlayer with Action := KDL } : Player).Move.X = 295 + -1 :=
  have h := Move_clamps { newPlayer with Action := KDL } (by decide) (by decide)
  ⟨⟨by decide, by decide⟩, h.1 (by decide), (h.2.2.1 (by decide)).trans (by decide)⟩

/-! ## The score through the operations of a frame -/

theorem Player.InvulnTick_Score (p : Player) : p.InvulnTick.Score = p.Score := by
  unfold Player.InvulnTick
  split_ifs <;> rfl

theorem Damage_Score (g : Game) (d : Int) :
    (Player.Damage g d).player.Score = g.player.Score := by
  simp only [Player.Damage]
  split_ifs <;> rfl

theorem enemyLaserScan_Score (ls : List Laser) (g : Game) :
    (enemyLaserScan ls g).2.player.Score = g.player.Score := by
  induction ls with
  | nil => rfl
  | cons l ls ih =>
    unfold enemyLaserScan
    split_ifs
    · exact ih
    · exact Damage_Score g 1
    · rfl

theorem enemyLaserPass_Score (es : List Enemy) :
    ∀ g : Game, (enemyLaserPass es g).2.player.Score = g.player.Score := by
  induction es with
  | nil => intro g; rfl
  | cons e es ih =>
    intro g
    unfold enemyLaserPass
    exact (ih _).trans (enemyLaserScan_Score e.Lasers g)

theorem bodyPass_Score (es : List Enemy) (g : Game) :
    (bodyPass es g).2.player.Score = g.player.Score := by
  induction es with
  | nil => rfl
  | cons e es ih =>
    unfold bodyPass
    split_ifs
    · exact ih
    · exact Damage_Score _ 2
    · rfl

theorem spawnLoop_frame (es : List Enemy) :
    ∀ (g : Game) (rs : List Nat),
      ∃ t : Int, (spawnLoop es g rs).2.1 = { g with totalEnemies := t } := by
  induction es with
  | nil => intro g rs; exact ⟨g.totalEnemies, rfl⟩
  | cons e es ih =>
    intro g rs
    cases ha : e.Alive with
    | false =>
      obtain ⟨t, ht⟩ := ih { g with totalEnemies := g.totalEnemies + 1 }
        (draw (draw (draw rs).2).2).2
      exact ⟨t, by simp [spawnLoop, ha, ht]⟩
    | true =>
      obtain ⟨t, ht⟩ := ih g rs
      exact ⟨t, by simp [spawnLoop, ha, ht]⟩

/-- Frame of `spawnEnemies`: it changes only the enemy pool, `totalEnemies`, the spawn
countdown, the wave count and the status line. -/
theorem spawnEnemies_frame (g : Game) (rs : List Nat) :
    (spawnEnemies g rs).1 =
      { g with
        enemies := (spawnEnemies g rs).1.enemies
        totalEnemies := (spawnEnemies g rs).1.totalEnemies
        enemySpawnTimer := (spawnEnemies g rs).1.enemySpawnTimer
        enemyWaves := (spawnEnemies g rs).1.enemyWaves
        status := (spawnEnemies g rs).1.status } := by
  obtain ⟨t, ht⟩ := spawnLoop_frame g.enemies g rs
  by_cases h1 : g.totalEnemies = 0 <;> by_cases h2 : g.enemySpawnTimer = 0
  all_goals simp [spawnEnemies, h1, h2, ht]
  all_goals split_ifs
  all_goals simp

theorem spawnEnemies_player (g : Game) (rs : List Nat) :
    (spawnEnemies g rs).1.player = g.player := by
  rw [spawnEnemies_frame]

theorem spawnEnemies_state (g : Game) (rs : List Nat) :
    (spawnEnemies g rs).1.state = g.state := by
  rw [spawnEnemies_frame]

theorem evPlay_Score (g : Game) (key action : Nat) :
    (evPlay g key action).player.Score = g.player.Score := by
  simp only [evPlay, reset]
  split_ifs <;> rfl

theorem evGameOver_Score (g : Game) (key : Nat) :
    (evGameOver g key).player.Score = g.player.Score := by
  unfold evGameOver reset
  split_ifs <;> rfl

/-! ## The enemy pool through the operations of a frame -/

theorem aliveCount_nil : aliveCount [] = 0 := rfl

theorem aliveCount_cons (e : Enemy) (es : List Enemy) :
    aliveCount (e :: es) = (if e.Alive = true then 1 else 0) + aliveCount es := by
  unfold aliveCount
  rw [List.countP_cons]
  split_ifs <;> push_cast <;> ring

theorem aliveCount_nonneg (es : List Enemy) : 0 ≤ aliveCount es := by
  unfold aliveCount; exact Int.ofNat_nonneg _

theorem aliveCount_le_length (es : List Enemy) : aliveCount es ≤ es.length := by
  unfold aliveCount
  exact Int.ofNat_le.2 (List.countP_le_length _)

/-- The counter of a pool of at most `MAX_ENEMIES` slots that agrees with the
pool is far from the ends of the 64 bit range. -/
theorem pool_counter_small {es : List Enemy} {t : Int} (h : t = aliveCount es)
    (hl : es.length ≤ MAX_ENEMIES) : aliveCount es ≤ t ∧ t ≤ 9223372036854775808 := by
  have h1 := aliveCount_le_length es
  have h2 : (es.length : Int) ≤ (MAX_ENEMIES : Nat) := Int.ofNat_le.2 hl
  have h3 : ((MAX_ENEMIES : Nat) : Int) = 4 := rfl
  omega

/-- The decrement `totalEnemies--` does not wrap around from a counter
between 1 and `2^63`. -/
theorem i64_pred {t : Int} (h1 : 1 ≤ t) (h2 : t ≤ 9223372036854775808) : i64 (t - 1) = t - 1 :=
  i64_of_isI64 (by unfold isI64; omega)

theorem randn_bounds (a b : Int) (r : Nat) (h : a ≤ b) :
    a ≤ randn a b r ∧ randn a b r ≤ b := by
  unfold randn
  have h1 : 0 ≤ Int.tmod (r : Int) (b - a + 1) := Int.tmod_nonneg _ (Int.ofNat_nonneg r)
  have h2 : Int.tmod (r : Int) (b - a + 1) < b - a + 1 := Int.tmod_lt_of_pos _ (by omega)
  constructor <;> omega

theorem laserScan_slots (l : Laser) (es : List Enemy) (g : Game) :
    (laserScan l es g).2.1.length = es.length ∧
    ((∀ e ∈ es, SlotOk e) → ∀ e ∈ (laserScan l es g).2.1, SlotOk e) := by
  induction es with
  | nil => exact ⟨rfl, fun h => h⟩
  | cons a es ih =>
    by_cases hc : (!(g.player.Alive && l.Alive && a.Alive && decide (i32 (a.Y + a.H) ≥ 0)
        && collide l.toRect a.toRect)) = true
    · simp only [laserScan, hc, if_true]
      refine ⟨by simp [ih.1], ?_⟩
      intro h e he
      rcases List.mem_cons.1 he with rfl | he
      · exact h _ (List.mem_cons_self _ _)
      · exact ih.2 (fun b hb => h b (List.mem_cons_of_mem _ hb)) e he
    · simp only [laserScan, hc, Bool.false_eq_true, ↓reduceIte]
      refine ⟨rfl, ?_⟩
      intro h e he
      rcases List.mem_cons.1 he with rfl | he
      · exact h a (List.mem_cons_self _ _)
      · exact h e (List.mem_cons_of_mem _ he)

/-- The counter and the pool through one laser scan, for a counter that
covers the alive slots still to scan and is at most `2^63`: the decrement of a
hit does not wrap around. -/
theorem laserScan_pool (l : Laser) (es : List Enemy) (g : Game)
    (hb : aliveCount es ≤ g.totalEnemies) (hM : g.totalEnemies ≤ 9223372036854775808) :
    (laserScan l es g).2.2.totalEnemies - aliveCount (laserScan l es g).2.1
        = g.totalEnemies - aliveCount es ∧
    (laserScan l es g).2.2.totalEnemies ≤ g.totalEnemies := by
  induction es with
  | nil => exact ⟨rfl, le_refl _⟩
  | cons a es ih =>
    have hnn := aliveCount_nonneg es
    rw [aliveCount_cons] at hb
    by_cases hc : (!(g.player.Alive && l.Alive && a.Alive && decide (i32 (a.Y + a.H) ≥ 0)
        && collide l.toRect a.toRect)) = true
    · simp only [laserScan, hc, if_true]
      have ih1 := ih (by split_ifs at hb <;> omega)
      refine ⟨?_, ih1.2⟩
      rw [aliveCount_cons, aliveCount_cons]
      have := ih1.1
      omega
    · have ha : a.Alive = true := by
        simp only [Bool.not_eq_true', Bool.not_eq_false, Bool.and_eq_true] at hc
        exact hc.1.1.2
      rw [if_pos ha] at hb
      have hw := i64_pred (t := g.totalEnemies) (by omega) hM
      simp only [laserScan, hc, Bool.false_eq_true, ↓reduceIte]
      refine ⟨?_, ?_⟩
      · rw [aliveCount_cons, aliveCount_cons]
        simp only [spawnExplosion, ha, if_true, hw]
        simp
        omega
      · simp only [spawnExplosion, hw]
        omega

theorem laserPass_slots (ls : List Laser) :
    ∀ (es : List Enemy) (g : Game),
      (laserPass ls es g).2.1.length = es.length ∧
      ((∀ e ∈ es, SlotOk e) → ∀ e ∈ (laserPass ls es g).2.1, SlotOk e) := by
  induction ls with
  | nil => intro es g; exact ⟨rfl, fun h => h⟩
  | cons l ls ih =>
    intro es g
    have h1 := laserScan_slots l es g
    have h2 := ih (laserScan l es g).2.1 (laserScan l es g).2.2
    simp only [laserPass]
    exact ⟨h2.1.trans h1.1, fun h => h2.2 (h1.2 h)⟩

theorem laserPass_pool (ls : List Laser) :
    ∀ (es : List Enemy) (g : Game),
      aliveCount es ≤ g.totalEnemies → g.totalEnemies ≤ 9223372036854775808 →
      (laserPass ls es g).2.2.totalEnemies - aliveCount (laserPass ls es g).2.1
          = g.totalEnemies - aliveCount es ∧
      (laserPass ls es g).2.2.totalEnemies ≤ g.totalEnemies := by
  induction ls with
  | nil => intro es g _ _; exact ⟨rfl, le_refl _⟩
  | cons l ls ih =>
    intro es g hb hM
    have h1 := laserScan_pool l es g hb hM
    have h2 := ih (laserScan l es g).2.1 (laserScan l es g).2.2 (by have := h1.1; omega)
      (le_trans h1.2 hM)
    simp only [laserPass]
    exact ⟨h2.1.trans h1.1, le_trans h2.2 h1.2⟩

theorem Damage_totalEnemies (g : Game) (d : Int) :
    (Player.Damage g d).totalEnemies = g.totalEnemies := by
  simp only [Player.Damage]
  split_ifs <;> rfl

theorem enemyLaserScan_totalEnemies (ls : List Laser) (g : Game) :
    (enemyLaserScan ls g).2.totalEnemies = g.totalEnemies := by
  induction ls with
  | nil => rfl
  | cons l ls ih =>
    simp only [enemyLaserScan]
    split_ifs
    · exact ih
    · exact Damage_totalEnemies g 1
    · rfl

theorem enemyLaserPass_pool (es : List Enemy) :
    ∀ g : Game,
      (enemyLaserPass es g).2.totalEnemies = g.totalEnemies ∧
      aliveCount (enemyLaserPass es g).1 = aliveCount es ∧
      ((∀ e ∈ es, SlotOk e) → ∀ e ∈ (enemyLaserPass es g).1, SlotOk e) ∧
      (enemyLaserPass es g).1.length = es.length := by
  induction es with
  | nil => intro g; exact ⟨rfl, rfl, fun h => h, rfl⟩
  | cons a es ih =>
    intro g
    have h1 := enemyLaserScan_totalEnemies a.Lasers g
    have h2 := ih (enemyLaserScan a.Lasers g).2
    simp only [enemyLaserPass]
    refine ⟨h2.1.trans h1, ?_, ?_, by simp [h2.2.2.2]⟩
    · rw [aliveCount_cons, aliveCount_cons, h2.2.1]
    · intro h e he
      rcases List.mem_cons.1 he with rfl | he
      · exact h a (List.mem_cons_self _ _)
      · exact h2.2.2.1 (fun b hb => h b (List.mem_cons_of_mem _ hb)) e he

theorem bodyPass_slots (es : List Enemy) (g : Game) :
    (bodyPass es g).1.length = es.length ∧
    ((∀ e ∈ es, SlotOk e) → ∀ e ∈ (bodyPass es g).1, SlotOk e) := by
  induction es with
  | nil => exact ⟨rfl, fun h => h⟩
  | cons a es ih =>
    by_cases hc : (!(a.Alive && g.player.Alive && collide a.toRect g.player.toRect)) = true
    · simp only [bodyPass, hc, if_true]
      refine ⟨by simp [ih.1], ?_⟩
      intro h e he
      rcases List.mem_cons.1 he with rfl | he
      · exact h _ (List.mem_cons_self _ _)
      · exact ih.2 (fun b hb => h b (List.mem_cons_of_mem _ hb)) e he
    · by_cases hi : (!g.player.Invuln) = true
      · simp only [bodyPass, hc, hi, Bool.false_eq_true, ↓reduceIte]
        refine ⟨rfl, ?_⟩
        intro h e he
        rcases List.mem_cons.1 he with rfl | he
        · exact h a (List.mem_cons_self _ _)
        · exact h e (List.mem_cons_of_mem _ he)
      · simp only [bodyPass, hc, hi, Bool.false_eq_true, ↓reduceIte]
        exact ⟨trivial, fun h => h⟩

theorem bodyPass_pool (es : List Enemy) (g : Game)
    (hb : aliveCount es ≤ g.totalEnemies) (hM : g.totalEnemies ≤ 9223372036854775808) :
    (bodyPass es g).2.totalEnemies - aliveCount (bodyPass es g).1
        = g.totalEnemies - aliveCount es := by
  induction es with
  | nil => rfl
  | cons a es ih =>
    have hnn := aliveCount_nonneg es
    rw [aliveCount_cons] at hb
    by_cases hc : (!(a.Alive && g.player.Alive && collide a.toRect g.player.toRect)) = true
    · simp only [bodyPass, hc, if_true]
      rw [aliveCount_cons, aliveCount_cons]
      have := ih (by split_ifs at hb <;> omega)
      omega
    · have ha : a.Alive = true := by
        simp only [Bool.not_eq_true', Bool.not_eq_false, Bool.and_eq_true] at hc
        exact hc.1.1
      rw [if_pos ha] at hb
      have hw := i64_pred (t := g.totalEnemies) (by omega) hM
      by_cases hi : (!g.player.Invuln) = true
      · simp only [bodyPass, hc, hi, Bool.false_eq_true, ↓reduceIte]
        rw [aliveCount_cons, aliveCount_cons, Damage_totalEnemies]
        simp only [ha, if_true, hw]
        simp
        omega
      · simp only [bodyPass, hc, hi, Bool.false_eq_true, ↓reduceIte]

theorem testCollisions_EnemyInv (g : Game) (h : EnemyInv g) : EnemyInv (testCollisions g) := by
  obtain ⟨hb, hM⟩ := pool_counter_small h.1 h.2.2
  have h1 := laserPass_pool g.player.Lasers g.enemies g hb hM
  have s1 := laserPass_slots g.player.Lasers g.enemies g
  have e1 : EnemyInv (testCollisions1 g) := by
    refine ⟨?_, s1.2 h.2.1, ?_⟩
    · have := h.1
      show (laserPass g.player.Lasers g.enemies g).2.2.totalEnemies
        = aliveCount (laserPass g.player.Lasers g.enemies g).2.1
      omega
    · show (laserPass g.player.Lasers g.enemies g).2.1.length ≤ MAX_ENEMIES
      rw [s1.1]; exact h.2.2
  have h2 := enemyLaserPass_pool (testCollisions1 g).enemies (testCollisions1 g)
  have e2 : EnemyInv (testCollisions2 (testCollisions1 g)) := by
    refine ⟨?_, h2.2.2.1 e1.2.1, ?_⟩
    · show (enemyLaserPass (testCollisions1 g).enemies (testCollisions1 g)).2.totalEnemies
        = aliveCount (enemyLaserPass (testCollisions1 g).enemies (testCollisions1 g)).1
      rw [h2.1, h2.2.1]
      exact e1.1
    · show (enemyLaserPass (testCollisions1 g).enemies (testCollisions1 g)).1.length ≤ MAX_ENEMIES
      rw [h2.2.2.2]; exact e1.2.2
  obtain ⟨hb2, hM2⟩ := pool_counter_small e2.1 e2.2.2
  have h3 := bodyPass_pool (testCollisions2 (testCollisions1 g)).enemies
    (testCollisions2 (testCollisions1 g)) hb2 hM2
  have s3 := bodyPass_slots (testCollisions2 (testCollisions1 g)).enemies
    (testCollisions2 (testCollisions1 g))
  refine ⟨?_, s3.2 e2.2.1, ?_⟩
  · have := e2.1
    show (bodyPass (testCollisions2 (testCollisions1 g)).enemies
        (testCollisions2 (testCollisions1 g))).2.totalEnemies
      = aliveCount (bodyPass (testCollisions2 (testCollisions1 g)).enemies
        (testCollisions2 (testCollisions1 g))).1
    omega
  · show (bodyPass (testCollisions2 (testCollisions1 g)).enemies
        (testCollisions2 (testCollisions1 g))).1.length ≤ MAX_ENEMIES
    rw [s3.1]; exact e2.2.2

theorem spawnLoop_pool (es : List Enemy) :
    ∀ (g : Game) (rs : List Nat),
      (spawnLoop es g rs).2.1.totalEnemies - aliveCount (spawnLoop es g rs).1
          = g.totalEnemies - aliveCount es ∧
      ((∀ e ∈ es, SlotOk e) → ∀ e ∈ (spawnLoop es g rs).1, SlotOk e) ∧
      (spawnLoop es g rs).1.length = es.length := by
  induction es with
  | nil => intro g rs; exact ⟨rfl, fun h => h, rfl⟩
  | cons a es ih =>
    intro g rs
    cases ha : a.Alive with
    | false =>
      have h1 := ih { g with totalEnemies := g.totalEnemies + 1 } (draw (draw (draw rs).2).2).2
      obtain ⟨t, ht⟩ := spawnLoop_frame es { g with totalEnemies := g.totalEnemies + 1 }
        (draw (draw (draw rs).2).2).2
      simp only [spawnLoop, ha, Bool.not_false, ↓reduceIte]
      refine ⟨?_, ?_, by simp [h1.2.2]⟩
      · rw [aliveCount_cons, aliveCount_cons]
        have := h1.1
        simp only [ha, Bool.false_eq_true, ↓reduceIte] at this ⊢
        omega
      · intro h e he
        rcases List.mem_cons.1 he with rfl | he
        · have hy := randn_bounds (-192) (-64) (draw (draw (draw rs).2).2).1 (by decide)
          have hi := i32_of_isI32 (x := randn (-192) (-64) (draw (draw (draw rs).2).2).1)
            (by unfold isI32; omega)
          show _ ∧ _ ∧ -192 ≤ i32 (randn (-192) (-64) (draw (draw (draw rs).2).2).1) ∧
            i32 (randn (-192) (-64) (draw (draw (draw rs).2).2).1) ≤ BOTTOM + _
          rw [hi]
          simp only [BOTTOM, HEIGHT]
          split_ifs <;> omega
        · exact h1.2.1 (fun b hb => h b (List.mem_cons_of_mem _ hb)) e he
    | true =>
      have h1 := ih g rs
      simp only [spawnLoop, ha, Bool.not_true, Bool.false_eq_true, ↓reduceIte]
      refine ⟨?_, ?_, by simp [h1.2.2]⟩
      · rw [aliveCount_cons, aliveCount_cons]
        have := h1.1
        omega
      · intro h e he
        rcases List.mem_cons.1 he with rfl | he
        · exact h _ (List.mem_cons_self _ _)
        · exact h1.2.1 (fun b hb => h b (List.mem_cons_of_mem _ hb)) e he

/-- The pool and the counter after `spawnEnemies`: untouched, or those the
burst loop returns. -/
theorem spawnEnemies_pool (g : Game) (rs : List Nat) :
    ((spawnEnemies g rs).1.enemies = g.enemies ∧
      (spawnEnemies g rs).1.totalEnemies = g.totalEnemies) ∨
    ((spawnEnemies g rs).1.enemies = (spawnLoop g.enemies g rs).1 ∧
      (spawnEnemies g rs).1.totalEnemies = (spawnLoop g.enemies g rs).2.1.totalEnemies) := by
  obtain ⟨t, ht⟩ := spawnLoop_frame g.enemies g rs
  by_cases h1 : g.totalEnemies = 0 <;> by_cases h2 : g.enemySpawnTimer = 0
  all_goals simp [spawnEnemies, h1, h2, ht]
  all_goals split_ifs
  all_goals simp [h1]

theorem spawnEnemies_EnemyInv (g : Game) (rs : List Nat) (h : EnemyInv g) :
    EnemyInv (spawnEnemies g rs).1 := by
  rcases spawnEnemies_pool g rs with ⟨h1, h2⟩ | ⟨h1, h2⟩
  · exact ⟨by rw [h1, h2]; exact h.1, by rw [h1]; exact h.2.1, by rw [h1]; exact h.2.2⟩
  · have hp := spawnLoop_pool g.enemies g rs
    refine ⟨?_, by rw [h1]; exact hp.2.1 h.2.1, by rw [h1, hp.2.2]; exact h.2.2⟩
    rw [h1, h2]
    have := h.1
    have := hp.1
    omega

theorem Enemy.advance_fields (e : Enemy) (rs : List Nat) :
    (e.advance rs).1.Y = (if e.Alive = true then i32 (e.Y + 1) else e.Y) ∧
    (e.advance rs).1.H = e.H ∧ (e.advance rs).1.Kind = e.Kind ∧
    (e.advance rs).1.Alive = e.Alive := by
  unfold Enemy.advance
  split_ifs <;> exact ⟨rfl, rfl, rfl, rfl⟩

/-- The two outcomes of `Enemy.Move`, in terms of the enemy after the first
block (`Enemy.advance`); the decrement of `totalEnemies` and the penalty are
Go `int` and `int64` differences. -/
theorem Enemy.Move_cases (e : Enemy) (g : Game) (rs : List Nat) :
    ((e.advance rs).1.Y > i32 (BOTTOM + e.H) →
      (e.Move g rs).2.1 = { (e.advance rs).1 with Alive := false, X := 0, Y := 0 } ∧
      (e.Move g rs).2.2.1.totalEnemies = i64 (g.totalEnemies - 1) ∧
      (g.state ≠ GAMEOVER →
        (e.Move g rs).1 = true ∧
        (e.Move g rs).2.2.1.player.Score =
          max 0 (if e.Kind = 0 then i64 (g.player.Score - 100)
            else if e.Kind = 1 then i64 (g.player.Score - 200) else g.player.Score)) ∧
      (g.state = GAMEOVER →
        (e.Move g rs).1 = false ∧ (e.Move g rs).2.2.1.player = g.player)) ∧
    (¬ (e.advance rs).1.Y > i32 (BOTTOM + e.H) →
      (e.Move g rs).1 = false ∧ (e.Move g rs).2.1 = (e.advance rs).1 ∧
      (e.Move g rs).2.2.1 = g) := by
  obtain ⟨_, hh, hk, _⟩ := Enemy.advance_fields e rs
  simp only [Enemy.Move, hh, hk]
  generalize e.advance rs = m
  constructor
  · intro h
    simp only [h, if_true]
    refine ⟨?_, ?_, ?_, ?_⟩
    · split_ifs <;> rfl
    · split_ifs <;> rfl
    · intro hs
      simp only [hs, ne_eq, not_false_eq_true, if_true, true_and]
      by_cases h0 : e.Kind = 0
      · simp only [h0, if_true]
        generalize i64 (g.player.Score - 100) = x
        split_ifs <;> simp <;> omega
      · by_cases h1 : e.Kind = 1
        · simp only [h0, h1, if_true, if_false]
          generalize i64 (g.player.Score - 200) = x
          split_ifs <;> simp <;> omega
        · simp only [h0, h1, if_false]
          split_ifs <;> simp <;> omega
    · intro hs
      simp only [hs, ne_eq, not_true_eq_false, if_false, and_self]
  · intro h
    simp only [h, if_false, and_self]

theorem Enemy.advance_slot (e : Enemy) (rs : List Nat) (h : SlotOk e) :
    (e.advance rs).1.Alive = e.Alive ∧ (e.advance rs).1.H = e.H ∧
    (e.advance rs).1.Y = (if e.Alive = true then e.Y + 1 else e.Y) := by
  obtain ⟨h1, h2, h3, h4⟩ := h
  simp only [BOTTOM, HEIGHT] at h4
  unfold Enemy.advance
  split_ifs
  · refine ⟨rfl, rfl, ?_⟩
    show i32 (e.Y + 1) = e.Y + 1
    exact i32_of_isI32 (by unfold isI32; omega)
  · exact ⟨rfl, rfl, rfl⟩

/-- The slot through `Enemy.Move`: it stays `SlotOk`, only an alive enemy
escapes, and an escape leaves the slot dead. -/
theorem Enemy.Move_slot (e : Enemy) (g : Game) (rs : List Nat) (h : SlotOk e) :
    SlotOk (e.Move g rs).2.1 ∧
    ((e.advance rs).1.Y > i32 (BOTTOM + e.H) → e.Alive = true ∧ (e.Move g rs).2.1.Alive = false) ∧
    (¬ (e.advance rs).1.Y > i32 (BOTTOM + e.H) → (e.Move g rs).2.1.Alive = e.Alive) := by
  obtain ⟨ha, hh, hy⟩ := Enemy.advance_slot e rs h
  obtain ⟨c1, c2⟩ := Enemy.Move_cases e g rs
  obtain ⟨h1, h2, h3, h4⟩ := h
  simp only [BOTTOM, HEIGHT] at h4
  have hb : i32 (BOTTOM + e.H) = 448 + e.H :=
    i32_of_isI32 (by simp only [BOTTOM, HEIGHT]; unfold isI32; omega)
  rw [hb] at c1 c2 ⊢
  by_cases hc : (e.advance rs).1.Y > 448 + e.H
  · have hal : e.Alive = true := by
      by_contra hd
      rw [hy, if_neg hd] at hc
      omega
    obtain ⟨m1, _⟩ := c1 hc
    refine ⟨?_, fun _ => ⟨hal, by rw [m1]⟩, fun hn => absurd hc hn⟩
    rw [m1]
    unfold SlotOk
    simp only [BOTTOM, HEIGHT]
    refine ⟨?_, ?_, ?_, ?_⟩
    · show 0 ≤ (e.advance rs).1.H
      rw [hh]; exact h1
    · show (e.advance rs).1.H ≤ 64
      rw [hh]; exact h2
    · show (-192 : Int) ≤ 0
      decide
    · show (0 : Int) ≤ 480 - 32 + (e.advance rs).1.H
      rw [hh]; omega
  · obtain ⟨_, m2, _⟩ := c2 hc
    refine ⟨?_, fun hn => absurd hn hc, fun _ => by rw [m2, ha]⟩
    rw [m2]
    unfold SlotOk
    simp only [BOTTOM, HEIGHT]
    rw [hh, hy]
    rw [hy] at hc
    split_ifs at hc ⊢ <;> exact ⟨h1, h2, by omega, by omega⟩

/-- The counter through `Enemy.Move`, for a counter that covers the enemy
when it is alive and is at most `2^63`: the decrement of an escape does not
wrap around. -/
theorem Enemy.Move_pool (e : Enemy) (g : Game) (rs : List Nat) (h : SlotOk e)
    (hb : (if e.Alive = true then 1 else 0) ≤ g.totalEnemies)
    (hM : g.totalEnemies ≤ 9223372036854775808) :
    (e.Move g rs).2.2.1.totalEnemies - (if (e.Move g rs).2.1.Alive = true then 1 else 0)
        = g.totalEnemies - (if e.Alive = true then 1 else 0) ∧
    SlotOk (e.Move g rs).2.1 ∧
    (e.Move g rs).2.2.1.totalEnemies ≤ g.totalEnemies := by
  obtain ⟨s1, s2, s3⟩ := Enemy.Move_slot e g rs h
  obtain ⟨c1, c2⟩ := Enemy.Move_cases e g rs
  refine ⟨?_, s1, ?_⟩
  · by_cases hc : (e.advance rs).1.Y > i32 (BOTTOM + e.H)
    · obtain ⟨hal, hd⟩ := s2 hc
      rw [if_pos hal] at hb
      rw [(c1 hc).2.1, i64_pred hb hM, hd, hal]
      simp
    · rw [(c2 hc).2.2, s3 hc]
  · by_cases hc : (e.advance rs).1.Y > i32 (BOTTOM + e.H)
    · obtain ⟨hal, _⟩ := s2 hc
      rw [if_pos hal] at hb
      rw [(c1 hc).2.1, i64_pred hb hM]
      omega
    · rw [(c2 hc).2.2]

theorem moveEnemiesLoop_pool (es : List Enemy) :
    ∀ (g : Game) (rs : List Nat), (∀ e ∈ es, SlotOk e) →
      aliveCount es ≤ g.totalEnemies → g.totalEnemies ≤ 9223372036854775808 →
      (moveEnemiesLoop es g rs).2.1.totalEnemies - aliveCount (moveEnemiesLoop es g rs).1
          = g.totalEnemies - aliveCount es ∧
      (∀ e ∈ (moveEnemiesLoop es g rs).1, SlotOk e) ∧
      (moveEnemiesLoop es g rs).1.length = es.length ∧
      (moveEnemiesLoop es g rs).2.1.totalEnemies ≤ g.totalEnemies := by
  induction es with
  | nil => intro g rs h _ _; exact ⟨rfl, h, rfl, le_refl _⟩
  | cons a es ih =>
    intro g rs h hb hM
    have hnn := aliveCount_nonneg es
    rw [aliveCount_cons] at hb
    have hm := Enemy.Move_pool a g rs (h a (List.mem_cons_self _ _))
      (by split_ifs at hb ⊢ <;> omega) hM
    have hes : ∀ e ∈ es, SlotOk e := fun b hb => h b (List.mem_cons_of_mem _ hb)
    have h1 := ih (a.Move g rs).2.2.1 (a.Move g rs).2.2.2 hes
      (by have := hm.1; split_ifs at hb this <;> omega) (le_trans hm.2.2 hM)
    simp only [moveEnemiesLoop]
    split_ifs <;> dsimp only
    · refine ⟨?_, ?_, rfl, hm.2.2⟩
      · rw [aliveCount_cons, aliveCount_cons]
        have := hm.1
        omega
      · intro e he
        rcases List.mem_cons.1 he with rfl | he
        · exact hm.2.1
        · exact hes e he
    · refine ⟨?_, ?_, by simp [h1.2.2.1], le_trans h1.2.2.2 hm.2.2⟩
      · rw [aliveCount_cons, aliveCount_cons]
        have := hm.1
        have := h1.1
        omega
      · intro e he
        rcases List.mem_cons.1 he with rfl | he
        · exact hm.2.1
        · exact h1.2.1 e he

theorem moveEnemies_EnemyInv (g : Game) (rs : List Nat) (h : EnemyInv g) :
    EnemyInv (moveEnemies g rs).1 := by
  obtain ⟨hb, hM⟩ := pool_counter_small h.1 h.2.2
  have hp := moveEnemiesLoop_pool g.enemies g rs h.2.1 hb hM
  refine ⟨?_, hp.2.1, ?_⟩
  · have := h.1
    show (moveEnemiesLoop g.enemies g rs).2.1.totalEnemies
      = aliveCount (moveEnemiesLoop g.enemies g rs).1
    omega
  · show (moveEnemiesLoop g.enemies g rs).1.length ≤ MAX_ENEMIES
    rw [hp.2.2.1]; exact h.2.2

theorem enemiesFireLoop_pool (es : List Enemy) :
    ∀ rs : List Nat,
      aliveCount (enemiesFireLoop es rs).1 = aliveCount es ∧
      ((∀ e ∈ es, SlotOk e) → ∀ e ∈ (enemiesFireLoop es rs).1, SlotOk e) ∧
      (enemiesFireLoop es rs).1.length = es.length := by
  induction es with
  | nil => intro rs; exact ⟨rfl, fun h => h, rfl⟩
  | cons a es ih =>
    intro rs
    have h1 := ih (a.Fire rs).2
    simp only [enemiesFireLoop]
    refine ⟨?_, ?_, by simp [h1.2.2]⟩
    · rw [aliveCount_cons, aliveCount_cons, h1.1]
      rfl
    · intro h e he
      rcases List.mem_cons.1 he with rfl | he
      · exact h a (List.mem_cons_self _ _)
      · exact h1.2.1 (fun b hb => h b (List.mem_cons_of_mem _ hb)) e he

theorem enemiesFire_EnemyInv (g : Game) (rs : List Nat) (h : EnemyInv g) :
    EnemyInv (enemiesFire g rs).1 := by
  have hp := enemiesFireLoop_pool g.enemies rs
  exact ⟨h.1.trans hp.1.symm, hp.2.1 h.2.1, by
    show (enemiesFireLoop g.enemies rs).1.length ≤ MAX_ENEMIES
    rw [hp.2.2]; exact h.2.2⟩

theorem moveLasers_EnemyInv (g : Game) (h : EnemyInv g) : EnemyInv (moveLasers g) := by
  have hc : ∀ es : List Enemy,
      aliveCount (es.map fun e => { e with Lasers := e.Lasers.map moveEnemyLaser }) = aliveCount es := by
    intro es
    induction es with
    | nil => rfl
    | cons a es ih => rw [List.map_cons, aliveCount_cons, aliveCount_cons, ih]
  refine ⟨h.1.trans (hc g.enemies).symm, ?_, ?_⟩
  · intro e he
    obtain ⟨a, ha, rfl⟩ := List.mem_map.1 he
    exact h.2.1 a ha
  · show (g.enemies.map _).length ≤ MAX_ENEMIES
    rw [List.length_map]; exact h.2.2

theorem evPlay_pool (g : Game) (key action : Nat) :
    (evPlay g key action).enemies = g.enemies ∧
    (evPlay g key action).totalEnemies = g.totalEnemies := by
  simp only [evPlay, reset]
  split_ifs <;> exact ⟨rfl, rfl⟩

theorem evGameOver_pool (g : Game) (key : Nat) :
    (evGameOver g key).enemies = g.enemies ∧
    (evGameOver g key).totalEnemies = g.totalEnemies := by
  simp only [evGameOver, reset]
  split_ifs <;> exact ⟨rfl, rfl⟩

theorem newGame_EnemyInv (g : Game) : EnemyInv (newGame g) := by
  refine ⟨?_, ?_, ?_⟩
  · show (0 : Int) = aliveCount (List.replicate MAX_ENEMIES newEnemy)
    decide
  · intro e he
    have : e = newEnemy := List.eq_of_mem_replicate he
    subst this
    unfold SlotOk
    decide
  · show (List.replicate MAX_ENEMIES newEnemy).length ≤ MAX_ENEMIES
    simp

theorem Step_EnemyInv {g g1 : Game} (hs : Step g g1) (h : EnemyInv g) : EnemyInv g1 := by
  cases hs with
  | invulnTick => exact h
  | playerMove => exact h
  | playerFire => exact h
  | testCollisions => exact testCollisions_EnemyInv g h
  | spawnEnemies rs => exact spawnEnemies_EnemyInv g rs h
  | moveEnemies rs => exact moveEnemies_EnemyInv g rs h
  | enemiesFire rs => exact enemiesFire_EnemyInv g rs h
  | moveLasers => exact moveLasers_EnemyInv g h
  | frameEnd => exact h
  | evPlay key action =>
    have hp := evPlay_pool g key action
    exact ⟨by rw [hp.1, hp.2]; exact h.1, by rw [hp.1]; exact h.2.1, by rw [hp.1]; exact h.2.2⟩
  | evGameOver key =>
    have hp := evGameOver_pool g key
    exact ⟨by rw [hp.1, hp.2]; exact h.1, by rw [hp.1]; exact h.2.1, by rw [hp.1]; exact h.2.2⟩
  | newGame => exact newGame_EnemyInv g

theorem Reachable_EnemyInv {g : Game} (h : Reachable g) : EnemyInv g := by
  induction h with
  | init g0 => exact newGame_EnemyInv g0
  | step _ hs ih => exact Step_EnemyInv hs ih

/-! ## Scripted sessions are runs of steps -/

theorem Op.run_step (o : Op) (g : Game) : Step g (o.run g) := by
  cases o with
  | invulnTick => exact .invulnTick g
  | playerMove => exact .playerMove g
  | playerFire => exact .playerFire g
  | testCollisions => exact .testCollisions g
  | spawnEnemies rs => exact .spawnEnemies g rs
  | moveEnemies rs => exact .moveEnemies g rs
  | enemiesFire rs => exact .enemiesFire g rs
  | moveLasers => exact .moveLasers g
  | frameEnd => exact .frameEnd g
  | evPlay k a => exact .evPlay g k a
  | evGameOver k => exact .evGameOver g k
  | newGame => exact .newGame g

theorem script_append (a b : List Op) : ∀ g : Game, script (a ++ b) g = script b (script a g) := by
  induction a with
  | nil => intro g; rfl
  | cons o t ih => intro g; exact ih (o.run g)

theorem script_reachable (os : List Op) :
    ∀ {g : Game}, Reachable g → Reachable (script os g) := by
  induction os with
  | nil => intro g h; exact h
  | cons o t ih => intro g h; exact ih (.step h (o.run_step g))

/-! ## Steps that are blind to the score -/

theorem Player.fireLoop_withScore (p : Player) (s : Int) (ls : List Laser) :
    Player.fireLoop { p with Score := s } ls = Player.fireLoop p ls := by
  induction ls with
  | nil => rfl
  | cons l ls ih =>
    simp only [Player.fireLoop, ih]

theorem Player.Fire_withScore (p : Player) (s : Int) :
    Player.Fire { p with Score := s } = { p.Fire with Score := s } := by
  simp only [Player.Fire, Player.fireLoop_withScore]

theorem spawnLoop_withScore (s : Int) (es : List Enemy) :
    ∀ (g : Game) (rs : List Nat),
      spawnLoop es (withScore s g) rs =
        ((spawnLoop es g rs).1, withScore s (spawnLoop es g rs).2.1, (spawnLoop es g rs).2.2) := by
  induction es with
  | nil => intro g rs; rfl
  | cons e es ih =>
    intro g rs
    cases ha : e.Alive with
    | false =>
      have h1 := ih { g with totalEnemies := g.totalEnemies + 1 } (draw (draw (draw rs).2).2).2
      simp only [spawnLoop, ha, Bool.not_false, ↓reduceIte]
      show (_ :: (spawnLoop es (withScore s { g with totalEnemies := g.totalEnemies + 1 }) _).1,
        (spawnLoop es (withScore s { g with totalEnemies := g.totalEnemies + 1 }) _).2) = _
      rw [h1]
      rfl
    | true =>
      have h2 := ih g rs
      simp only [spawnLoop, ha, Bool.not_true, Bool.false_eq_true, ↓reduceIte]
      rw [h2]

theorem spawnEnemies_withScore (s : Int) (g : Game) (rs : List Nat) :
    spawnEnemies (withScore s g) rs = (withScore s (spawnEnemies g rs).1, (spawnEnemies g rs).2) := by
  simp only [spawnEnemies, spawnLoop_withScore]
  simp only [withScore]
  split_ifs <;> rfl

theorem Enemy.Move_stays (e : Enemy) (g : Game) (rs : List Nat) (h : e.stays = true) :
    e.Move g rs = (false, (e.advance rs).1, g, (e.advance rs).2) := by
  obtain ⟨hy, hh, _, _⟩ := Enemy.advance_fields e rs
  have hn : ¬ (e.advance rs).1.Y > i32 (BOTTOM + (e.advance rs).1.H) := by
    rw [hy, hh]
    simp only [Enemy.stays, decide_eq_true_eq] at h
    omega
  simp only [Enemy.Move, hn, if_false]

theorem moveEnemiesLoop_stays (es : List Enemy) :
    ∀ (g g1 : Game) (rs : List Nat), es.all Enemy.stays = true →
      (moveEnemiesLoop es g rs).2.1 = g ∧
      (moveEnemiesLoop es g rs).1 = (moveEnemiesLoop es g1 rs).1 ∧
      (moveEnemiesLoop es g rs).2.2 = (moveEnemiesLoop es g1 rs).2.2 := by
  induction es with
  | nil => intro g g1 rs _; exact ⟨rfl, rfl, rfl⟩
  | cons e es ih =>
    intro g g1 rs h
    simp only [List.all_cons, Bool.and_eq_true] at h
    obtain ⟨h1, h2, h3⟩ := ih g g1 (e.advance rs).2 h.2
    simp only [moveEnemiesLoop, Enemy.Move_stays e _ rs h.1, Bool.false_eq_true, if_false]
    exact ⟨h1, by rw [h2], h3⟩

theorem moveEnemies_withScore (s : Int) (g : Game) (rs : List Nat)
    (h : g.enemies.all Enemy.stays = true) :
    moveEnemies (withScore s g) rs = (withScore s (moveEnemies g rs).1, (moveEnemies g rs).2) := by
  obtain ⟨a1, a2, a3⟩ := moveEnemiesLoop_stays g.enemies (withScore s g) g rs h
  obtain ⟨b1, _, _⟩ := moveEnemiesLoop_stays g.enemies g g rs h
  have e1 : (withScore s g).enemies = g.enemies := rfl
  simp only [moveEnemies, e1, a1, a2, a3, b1]
  rfl

theorem Op.run_withScore (o : Op) (g : Game) (s : Int) (h : o.blind g = true) :
    o.run (withScore s g) = withScore s (o.run g) := by
  cases o with
  | playerFire =>
    show ({ withScore s g with player := Player.Fire { g.player with Score := s } } : Game) = _
    rw [Player.Fire_withScore]
    rfl
  | moveLasers => rfl
  | spawnEnemies rs => simp only [Op.run, spawnEnemies_withScore]
  | moveEnemies rs => simp only [Op.run, moveEnemies_withScore s g rs h]
  | invulnTick => simp [Op.blind] at h
  | playerMove => simp [Op.blind] at h
  | testCollisions => simp [Op.blind] at h
  | enemiesFire rs => simp [Op.blind] at h
  | frameEnd => simp [Op.blind] at h
  | evPlay k a => simp [Op.blind] at h
  | evGameOver k => simp [Op.blind] at h
  | newGame => simp [Op.blind] at h

theorem script_withScore (os : List Op) :
    ∀ (g : Game) (s : Int), blind os g = true →
      script os (withScore s g) = withScore s (script os g) := by
  induction os with
  | nil => intro g s _; rfl
  | cons o t ih =>
    intro g s h
    simp only [blind, Bool.and_eq_true] at h
    simp only [script, o.run_withScore g s h.1]
    exact ih _ s h.2

theorem ReachableUnwrapped.reachable {g : Game} (h : ReachableUnwrapped g) : Reachable g := by
  induction h with
  | init g0 => exact .init g0
  | step _ _ hs ih => exact .step ih hs

theorem script_unwrapped (os : List Op) :
    ∀ {g : Game}, ReachableUnwrapped g → capped os g = true →
      ReachableUnwrapped (script os g) := by
  induction os with
  | nil => intro g h _; exact h
  | cons o t ih =>
    intro g h hc
    simp only [capped, Bool.and_eq_true, decide_eq_true_eq] at hc
    exact ih (.step h hc.1 (o.run_step g)) hc.2

/-! ## One session: a burst, two enemies shot, one escape -/

set_option maxRecDepth 100000 in
theorem warmup_ready : script warmup fresh = ready ∧ capped warmup fresh = true := by
  constructor <;> decide

set_option maxRecDepth 100000 in
theorem shots_twoShots : script shots ready = twoShots ∧ capped shots ready = true := by
  constructor <;> decide

theorem testCollisions_twoShots : testCollisions twoShots = remnant 302 (-23) 9 0 := by decide

set_option maxRecDepth 100000 in
theorem sink_remnant :
    (script (sink 126) (remnant 302 (-23) 9 0) = remnant 314 103 3 0 ∧
      capped (sink 126) (remnant 302 (-23) 9 0) = true) ∧
    (script (sink 126) (remnant 314 103 3 0) = remnant 314 229 7 1 ∧
      capped (sink 126) (remnant 314 103 3 0) = true) ∧
    (script (sink 126) (remnant 314 229 7 1) = remnant 302 355 1 1 ∧
      capped (sink 126) (remnant 314 229 7 1) = true) ∧
    (script (sink 125) (remnant 302 355 1 1) = remnant 308 480 6 0 ∧
      capped (sink 125) (remnant 302 355 1 1) = true) := by
  refine ⟨⟨?_, ?_⟩, ⟨?_, ?_⟩, ⟨?_, ?_⟩, ⟨?_, ?_⟩⟩ <;> decide

theorem ready_unwrapped : ReachableUnwrapped ready := by
  have h : ReachableUnwrapped (script warmup fresh) :=
    script_unwrapped warmup (.init blank) warmup_ready.2
  rw [warmup_ready.1] at h
  exact h

theorem twoShots_unwrapped : ReachableUnwrapped twoShots := by
  have h := script_unwrapped shots ready_unwrapped shots_twoShots.2
  rw [shots_twoShots.1] at h
  exact h

theorem remnant_unwrapped : ReachableUnwrapped (remnant 308 480 6 0) := by
  have h0 : ReachableUnwrapped (testCollisions twoShots) :=
    .step twoShots_unwrapped (by decide) (.testCollisions _)
  rw [testCollisions_twoShots] at h0
  have h1 := script_unwrapped _ h0 sink_remnant.1.2
  rw [sink_remnant.1.1] at h1
  have h2 := script_unwrapped _ h1 sink_remnant.2.1.2
  rw [sink_remnant.2.1.1] at h2
  have h3 := script_unwrapped _ h2 sink_remnant.2.2.1.2
  rw [sink_remnant.2.2.1.1] at h3
  have h4 := script_unwrapped _ h3 sink_remnant.2.2.2.2
  rw [sink_remnant.2.2.2.1] at h4
  exact h4

/-! ## C1: the live-enemy counter -/

/-- C1. In every state reachable from `newGame` by any sequence of steps
(`testCollisions`, `spawnEnemies`, `moveEnemies`, `enemiesFire`,
`moveLasers`, the player's operations and the event handlers, with any
inputs and random values), `totalEnemies` is the number of slots of the
enemy pool whose `Alive` flag is set; in particular it still is after a
`testCollisions` call (enemies destroyed by a collision), after a
`moveEnemies` call (an enemy escaping past the bottom), after a
`spawnEnemies` call and after a whole `update`. -/
theorem totalEnemies_eq_aliveCount (g : Game) (h : Reachable g) :
    g.totalEnemies = aliveCount g.enemies ∧
    (testCollisions g).totalEnemies = aliveCount (testCollisions g).enemies ∧
    (∀ rs : List Nat,
      (moveEnemies g rs).1.totalEnemies = aliveCount (moveEnemies g rs).1.enemies ∧
      (spawnEnemies g rs).1.totalEnemies = aliveCount (spawnEnemies g rs).1.enemies ∧
      (update g rs).1.totalEnemies = aliveCount (update g rs).1.enemies) :=
  ⟨(Reachable_EnemyInv h).1,
    (Reachable_EnemyInv (.step h (.testCollisions g))).1,
    fun rs => ⟨(Reachable_EnemyInv (.step h (.moveEnemies g rs))).1,
      (Reachable_EnemyInv (.step h (.spawnEnemies g rs))).1,
      (Reachable_EnemyInv (h.update rs)).1⟩⟩

/-- C1 along one session: the burst spawned when the first countdown has run
out (the counter goes from 0 to 4), the collision pass in which two lasers
of the player destroy two enemies of the burst (from 4 to 2), and the
`moveEnemies` call in which one of the other two escapes past the bottom
(from 2 to 1). -/
theorem totalEnemies_eq_aliveCount_witness :
    (Reachable ready ∧ ready.totalEnemies = 0 ∧
      (spawnEnemies ready burstDraws).1.totalEnemies = 4 ∧
      (spawnEnemies ready burstDraws).1.totalEnemies
        = aliveCount (spawnEnemies ready burstDraws).1.enemies) ∧
    (Reachable twoShots ∧ twoShots.totalEnemies = 4 ∧
      (testCollisions twoShots).totalEnemies = 2 ∧
      (testCollisions twoShots).totalEnemies = aliveCount (testCollisions twoShots).enemies) ∧
    (Reachable (remnant 308 480 6 0) ∧ (remnant 308 480 6 0).totalEnemies = 2 ∧
      (moveEnemies (remnant 308 480 6 0) []).1.totalEnemies = 1 ∧
      (moveEnemies (remnant 308 480 6 0) []).1.totalEnemies
        = aliveCount (moveEnemies (remnant 308 480 6 0) []).1.enemies) :=
  ⟨⟨ready_unwrapped.reachable, by decide, by decide,
      ((totalEnemies_eq_aliveCount ready ready_unwrapped.reachable).2.2 burstDraws).2.1⟩,
    ⟨twoShots_unwrapped.reachable, by decide, by decide,
      (totalEnemies_eq_aliveCount twoShots twoShots_unwrapped.reachable).2.1⟩,
    ⟨remnant_unwrapped.reachable, by decide, by decide,
      ((totalEnemies_eq_aliveCount _ remnant_unwrapped.reachable).2.2 []).1⟩⟩

/-! ## The collision pass and the score -/

theorem i64_add_i64 (x y : Int) : i64 (i64 x + y) = i64 (x + y) := by
  unfold i64
  omega

theorem spawnExplosion_withScore (s : Int) (g : Game) (x y : Int) :
    spawnExplosion (withScore s g) x y = withScore s (spawnExplosion g x y) := rfl

theorem Damage_withScore (s : Int) (g : Game) (d : Int) :
    Player.Damage (withScore s g) d = withScore s (Player.Damage g d) := by
  have h1 : (withScore s g).invincible = g.invincible := rfl
  have h2 : (withScore s g).player.Health = g.player.Health := rfl
  simp only [Player.Damage, h1, h2]
  split_ifs <;> rfl

/-- The first pass of `testCollisions` never reads the score: run from the
same state with another score `s`, a laser scan does the same to the pools
and adds the same award `k` to `s` (a Go `int64` sum), and `k` is at most
100 for each enemy it destroys. -/
theorem laserScan_withScore (l : Laser) (es : List Enemy) (g : Game) :
    ∃ k : Int, 0 ≤ k ∧ k + 100 * aliveCount (laserScan l es g).2.1 ≤ 100 * aliveCount es ∧
      ∀ s : Int, isI64 s →
        laserScan l es (withScore s g) =
          ((laserScan l es g).1, (laserScan l es g).2.1,
            withScore (i64 (s + k)) (laserScan l es g).2.2) := by
  induction es with
  | nil =>
    refine ⟨0, le_refl _, le_refl _, fun s hs => ?_⟩
    rw [add_zero, i64_of_isI64 hs]
    rfl
  | cons e es ih =>
    obtain ⟨k, hk0, hk1, hk⟩ := ih
    have hp : (withScore 0 g).player.Alive = g.player.Alive := rfl
    by_cases hc : (g.player.Alive && l.Alive && e.Alive && decide (i32 (e.Y + e.H) ≥ 0)
          && collide l.toRect e.toRect) = true
    · have ha : e.Alive = true := by
        simp only [Bool.and_eq_true] at hc
        exact hc.1.1.2
      have hcs : ∀ s : Int, ((withScore s g).player.Alive && l.Alive && e.Alive
          && decide (i32 (e.Y + e.H) ≥ 0) && collide l.toRect e.toRect) = true := fun s => hc
      by_cases h0 : e.Kind = 0
      · refine ⟨50, by omega, ?_, fun s hs => ?_⟩
        · simp only [laserScan, hc, Bool.not_true, Bool.false_eq_true, if_false]
          rw [aliveCount_cons, aliveCount_cons]
          simp only [ha, if_true, Bool.false_eq_true, if_false]
          omega
        · simp only [laserScan, hc, hcs s, Bool.not_true, Bool.false_eq_true, if_false, h0, if_true]
          rfl
      · by_cases h1 : e.Kind = 1
        · refine ⟨100, by omega, ?_, fun s hs => ?_⟩
          · simp only [laserScan, hc, Bool.not_true, Bool.false_eq_true, if_false]
            rw [aliveCount_cons, aliveCount_cons]
            simp only [ha, if_true, Bool.false_eq_true, if_false]
            omega
          · simp only [laserScan, hc, hcs s, Bool.not_true, Bool.false_eq_true, if_false, h0, h1,
              if_true]
            rfl
        · refine ⟨0, le_refl _, ?_, fun s hs => ?_⟩
          · simp only [laserScan, hc, Bool.not_true, Bool.false_eq_true, if_false]
            rw [aliveCount_cons, aliveCount_cons]
            simp only [ha, if_true, Bool.false_eq_true, if_false]
            omega
          · simp only [laserScan, hc, hcs s, Bool.not_true, Bool.false_eq_true, if_false, h0, h1]
            rw [add_zero, i64_of_isI64 hs]
            rfl
    · have hcs : ∀ s : Int, ¬ ((withScore s g).player.Alive && l.Alive && e.Alive
          && decide (i32 (e.Y + e.H) ≥ 0) && collide l.toRect e.toRect) = true := fun s => hc
      refine ⟨k, hk0, ?_, fun s hs => ?_⟩
      · simp only [laserScan, hc, Bool.not_false, if_true]
        rw [aliveCount_cons, aliveCount_cons]
        omega
      · simp only [laserScan, hc, hcs s, Bool.not_false, if_true, hk s hs]

theorem laserPass_withScore (ls : List Laser) :
    ∀ (es : List Enemy) (g : Game),
      ∃ k : Int, 0 ≤ k ∧ k + 100 * aliveCount (laserPass ls es g).2.1 ≤ 100 * aliveCount es ∧
        ∀ s : Int, isI64 s →
          laserPass ls es (withScore s g) =
            ((laserPass ls es g).1, (laserPass ls es g).2.1,
              withScore (i64 (s + k)) (laserPass ls es g).2.2) := by
  induction ls with
  | nil =>
    intro es g
    refine ⟨0, le_refl _, by simp only [laserPass]; omega, fun s hs => ?_⟩
    rw [add_zero, i64_of_isI64 hs]
    rfl
  | cons l ls ih =>
    intro es g
    obtain ⟨k1, a1, b1, c1⟩ := laserScan_withScore l es g
    obtain ⟨k2, a2, b2, c2⟩ := ih (laserScan l es g).2.1 (laserScan l es g).2.2
    refine ⟨k1 + k2, by omega, ?_, fun s hs => ?_⟩
    · simp only [laserPass]
      omega
    · simp only [laserPass, c1 s hs, c2 (i64 (s + k1)) (isI64_i64 _), i64_add_i64, add_assoc]

theorem enemyLaserScan_withScore (s : Int) (ls : List Laser) (g : Game) :
    enemyLaserScan ls (withScore s g) =
      ((enemyLaserScan ls g).1, withScore s (enemyLaserScan ls g).2) := by
  induction ls with
  | nil => rfl
  | cons l ls ih =>
    have h1 : (withScore s g).player.Alive = g.player.Alive := rfl
    have h2 : (withScore s g).player.toRect = g.player.toRect := rfl
    have h3 : (withScore s g).player.Invuln = g.player.Invuln := rfl
    simp only [enemyLaserScan, h1, h2, h3, ih, Damage_withScore]
    split_ifs <;> rfl

theorem enemyLaserPass_withScore (s : Int) (es : List Enemy) :
    ∀ g : Game, enemyLaserPass es (withScore s g) =
      ((enemyLaserPass es g).1, withScore s (enemyLaserPass es g).2) := by
  induction es with
  | nil => intro g; rfl
  | cons e es ih =>
    intro g
    simp only [enemyLaserPass, enemyLaserScan_withScore, ih]

theorem bodyPass_withScore (s : Int) (es : List Enemy) (g : Game) :
    bodyPass es (withScore s g) = ((bodyPass es g).1, withScore s (bodyPass es g).2) := by
  induction es with
  | nil => rfl
  | cons e es ih =>
    have h1 : (withScore s g).player.Alive = g.player.Alive := rfl
    have h2 : (withScore s g).player.toRect = g.player.toRect := rfl
    have h3 : (withScore s g).player.Invuln = g.player.Invuln := rfl
    have h4 : ({ withScore s g with totalEnemies := i64 ((withScore s g).totalEnemies - 1) } : Game)
        = withScore s { g with totalEnemies := i64 (g.totalEnemies - 1) } := rfl
    unfold bodyPass
    rw [h1, h2, h3, h4, ih, Damage_withScore]
    split_ifs <;> rfl

/-- The collision pass never reads the score: run from the same state with
another score `s`, `testCollisions` does the same to everything else and adds
the same award `k` to `s` (a Go `int64` sum); `k` is at most 100 for each
alive enemy. -/
theorem testCollisions_withScore (g : Game) :
    ∃ k : Int, 0 ≤ k ∧ k ≤ 100 * aliveCount g.enemies ∧
      ∀ s : Int, isI64 s →
        testCollisions (withScore s g) = withScore (i64 (s + k)) (testCollisions g) := by
  obtain ⟨k, k0, k1, hk⟩ := laserPass_withScore g.player.Lasers g.enemies g
  have hn := aliveCount_nonneg (laserPass g.player.Lasers g.enemies g).2.1
  refine ⟨k, k0, by omega, fun s hs => ?_⟩
  have e1 : testCollisions1 (withScore s g) = withScore (i64 (s + k)) (testCollisions1 g) := by
    have h1 : (withScore s g).player.Lasers = g.player.Lasers := rfl
    have h2 : (withScore s g).enemies = g.enemies := rfl
    simp only [testCollisions1, h1, h2, hk s hs]
    rfl
  have e2 : ∀ (t : Int) (a : Game),
      testCollisions2 (withScore t a) = withScore t (testCollisions2 a) := by
    intro t a
    have h2 : (withScore t a).enemies = a.enemies := rfl
    simp only [testCollisions2, h2, enemyLaserPass_withScore]
    rfl
  have e3 : ∀ (t : Int) (a : Game),
      testCollisions3 (withScore t a) = withScore t (testCollisions3 a) := by
    intro t a
    have h2 : (withScore t a).enemies = a.enemies := rfl
    simp only [testCollisions3, h2, bodyPass_withScore]
    rfl
  simp only [testCollisions, e1, e2, e3]

/-! ## A session that shoots every burst -/

set_option maxRecDepth 100000 in
theorem volley_ready : script volley ready = puffs 4 200 := by decide

set_option maxRecDepth 100000 in
theorem volley_puffs :
    script volley (puffs 4 200) = puffs 8 400 ∧ script volley (puffs 8 400) = puffs 12 600 ∧
    script volley (puffs 12 600) = scoring 800 := by
  refine ⟨?_, ?_, ?_⟩ <;> decide

set_option maxRecDepth 100000 in
theorem approach_blind : blind approach (scoring 0) = true := by decide

set_option maxRecDepth 100000 in
theorem approach_armed : script approach (scoring 0) = armed 0 := by decide

theorem testCollisions_armed_zero : testCollisions (armed 0) = scoring 200 := by decide

/-- One burst shot down adds 200 to the score, as a Go `int64` sum, whatever
the score is. -/
theorem volley_scoring (s : Int) (hs : isI64 s) :
    script volley (scoring s) = scoring (i64 (s + 200)) := by
  obtain ⟨k, k0, k1, hk⟩ := testCollisions_withScore (armed 0)
  have ha : aliveCount (armed 0).enemies = 4 := by decide
  have hz := hk 0 (by decide)
  have h0 : withScore 0 (armed 0) = armed 0 := by decide
  rw [h0, testCollisions_armed_zero] at hz
  have hz2 := congrArg (fun g : Game => g.player.Score) hz
  have hk200 : k = 200 := by
    have : (200 : Int) = i64 (0 + k) := hz2
    unfold i64 at this
    omega
  have e1 : scoring s = withScore s (scoring 0) := rfl
  have e2 : script approach (scoring s) = withScore s (armed 0) := by
    rw [e1, script_withScore approach (scoring 0) s approach_blind, approach_armed]
  have e3 : script volley (scoring s) = testCollisions (script approach (scoring s)) :=
    script_append approach [Op.testCollisions] (scoring s)
  rw [e3, e2, hk s hs, testCollisions_armed_zero, hk200]
  rfl

theorem scoring_reachable (n : Nat) (h : 800 + 200 * (n : Int) ≤ 9223372036854775800) :
    Reachable (scoring (800 + 200 * (n : Int))) := by
  induction n with
  | zero =>
    have h0 : Reachable (script volley (script volley (script volley (script volley ready)))) :=
      script_reachable volley (script_reachable volley (script_reachable volley
        (script_reachable volley ready_unwrapped.reachable)))
    rw [volley_ready, volley_puffs.1, volley_puffs.2.1, volley_puffs.2.2] at h0
    exact h0
  | succ n ih =>
    have hn : 800 + 200 * (n : Int) ≤ 9223372036854775800 := by push_cast at h; omega
    have hr := script_reachable volley (ih hn)
    rw [volley_scoring _ (by unfold isI64; omega)] at hr
    have e : i64 (800 + 200 * (n : Int) + 200) = 800 + 200 * ((n + 1 : Nat) : Int) := by
      rw [i64_of_isI64 (by unfold isI64; push_cast at h; omega)]
      push_cast
      ring
    rw [e] at hr
    exact hr

theorem armed_reachable : Reachable (armed 9223372036854775800) := by
  have h := script_reachable approach (scoring_reachable 46116860184273875 (by norm_num))
  have e : (800 : Int) + 200 * ((46116860184273875 : Nat) : Int) = 9223372036854775800 := by
    norm_num
  rw [e] at h
  have e1 : scoring 9223372036854775800 = withScore 9223372036854775800 (scoring 0) := rfl
  rw [e1, script_withScore approach (scoring 0) _ approach_blind, approach_armed] at h
  exact h

/-! ## The score through the steps -/

theorem testCollisions_Score (g : Game) (h : EnemyInv g) (hs : isI64 g.player.Score) :
    ∃ k : Int, 0 ≤ k ∧ k ≤ 400 ∧
      (testCollisions g).player.Score = i64 (g.player.Score + k) := by
  obtain ⟨k, k0, k1, hk⟩ := testCollisions_withScore g
  have hl := aliveCount_le_length g.enemies
  have hm : (g.enemies.length : Int) ≤ 4 := by
    have := h.2.2
    simp only [MAX_ENEMIES] at this
    omega
  refine ⟨k, k0, by omega, ?_⟩
  have e : withScore g.player.Score g = g := rfl
  have := hk g.player.Score hs
  rw [e] at this
  rw [this]
  rfl

/-- The score after `Enemy.Move` from a score that is not negative: the
penalty, floored at 0, when the call returns true, and no change when it
returns false. -/
theorem Enemy.Move_Score (e : Enemy) (g : Game) (rs : List Nat)
    (h0 : 0 ≤ g.player.Score) (hs : isI64 g.player.Score) :
    ((e.Move g rs).1 = true →
      (e.Move g rs).2.2.1.player.Score = max 0 (g.player.Score - penalty e.Kind)) ∧
    ((e.Move g rs).1 = false → (e.Move g rs).2.2.1.player.Score = g.player.Score) := by
  have hk : (e.advance rs).1.Kind = e.Kind := (Enemy.advance_fields e rs).2.2.1
  have h1 : i64 (g.player.Score - 100) = g.player.Score - 100 :=
    i64_of_isI64 (by unfold isI64 at *; omega)
  have h2 : i64 (g.player.Score - 200) = g.player.Score - 200 :=
    i64_of_isI64 (by unfold isI64 at *; omega)
  simp only [Enemy.Move, penalty, hk, h1, h2]
  generalize e.advance rs = m
  split_ifs <;> simp <;> omega

theorem Enemy.Move_Score_nonneg (e : Enemy) (g : Game) (rs : List Nat)
    (h : 0 ≤ g.player.Score) : 0 ≤ (e.Move g rs).2.2.1.player.Score := by
  obtain ⟨c1, c2⟩ := Enemy.Move_cases e g rs
  by_cases hy : (e.advance rs).1.Y > i32 (BOTTOM + e.H)
  · obtain ⟨_, _, c3, c4⟩ := c1 hy
    by_cases hg : g.state = GAMEOVER
    · rw [(c4 hg).2]; exact h
    · rw [(c3 hg).2]; exact le_max_left _ _
  · rw [(c2 hy).2.2]; exact h

theorem Enemy.Move_Score_isI64 (e : Enemy) (g : Game) (rs : List Nat)
    (h : isI64 g.player.Score) : isI64 (e.Move g rs).2.2.1.player.Score := by
  obtain ⟨c1, c2⟩ := Enemy.Move_cases e g rs
  by_cases hy : (e.advance rs).1.Y > i32 (BOTTOM + e.H)
  · obtain ⟨_, _, c3, c4⟩ := c1 hy
    by_cases hg : g.state = GAMEOVER
    · rw [(c4 hg).2]; exact h
    · rw [(c3 hg).2]
      have a1 := isI64_i64 (g.player.Score - 100)
      have a2 := isI64_i64 (g.player.Score - 200)
      unfold isI64 at *
      split_ifs <;> constructor <;> simp <;> omega
  · rw [(c2 hy).2.2]; exact h

theorem moveEnemiesLoop_Score (es : List Enemy) :
    ∀ (g : Game) (rs : List Nat),
      (0 ≤ g.player.Score → 0 ≤ (moveEnemiesLoop es g rs).2.1.player.Score) ∧
      (isI64 g.player.Score → isI64 (moveEnemiesLoop es g rs).2.1.player.Score) := by
  induction es with
  | nil => intro g rs; exact ⟨fun h => h, fun h => h⟩
  | cons e es ih =>
    intro g rs
    have hm := Enemy.Move_Score_nonneg e g rs
    have hi := Enemy.Move_Score_isI64 e g rs
    simp only [moveEnemiesLoop]
    split_ifs
    · exact ⟨hm, hi⟩
    · exact ⟨fun h => (ih _ _).1 (hm h), fun h => (ih _ _).2 (hi h)⟩

/-- The score is a Go `int64` in every reachable state. -/
theorem Reachable_Score_isI64 {g : Game} (h : Reachable g) : isI64 g.player.Score := by
  induction h with
  | init g0 => exact (by decide : isI64 0)
  | @step g g1 hr hs ih =>
    cases hs with
    | invulnTick => exact (Player.InvulnTick_Score g.player).symm ▸ ih
    | playerMove => exact ih
    | playerFire => exact ih
    | testCollisions =>
      obtain ⟨k, _, _, hk⟩ := testCollisions_Score g (Reachable_EnemyInv hr) ih
      rw [hk]
      exact isI64_i64 _
    | spawnEnemies rs => rw [spawnEnemies_player]; exact ih
    | moveEnemies rs => exact (moveEnemiesLoop_Score _ _ _).2 ih
    | enemiesFire rs => exact ih
    | moveLasers => exact ih
    | frameEnd => exact ih
    | evPlay key action => rw [evPlay_Score]; exact ih
    | evGameOver key => rw [evGameOver_Score]; exact ih
    | newGame => exact (by decide : isI64 0)

theorem Step_Score_nonneg {g g1 : Game} (hs : Step g g1) (hr : Reachable g)
    (hc : g.player.Score + 100 * MAX_ENEMIES ≤ 9223372036854775807)
    (h : 0 ≤ g.player.Score) : 0 ≤ g1.player.Score := by
  cases hs with
  | invulnTick => exact (Player.InvulnTick_Score g.player).symm ▸ h
  | playerMove => exact h
  | playerFire => exact h
  | testCollisions =>
    obtain ⟨k, k0, k1, hk⟩ := testCollisions_Score g (Reachable_EnemyInv hr)
      (Reachable_Score_isI64 hr)
    simp only [MAX_ENEMIES] at hc
    rw [hk, i64_of_isI64 (by unfold isI64; omega)]
    omega
  | spawnEnemies rs => rw [spawnEnemies_player]; exact h
  | moveEnemies rs => exact (moveEnemiesLoop_Score _ _ _).1 h
  | enemiesFire rs => exact h
  | moveLasers => exact h
  | frameEnd => exact h
  | evPlay key action => rw [evPlay_Score]; exact h
  | evGameOver key => rw [evGameOver_Score]; exact h
  | newGame => exact le_refl _

theorem escapeRun_Score (run : List (Enemy × List Nat)) :
    ∀ g : Game, allEscape g run = true → 0 ≤ g.player.Score → isI64 g.player.Score →
      g.player.Score ≤ (run.map fun x => penalty x.1.Kind).sum →
      (escapeRun g run).player.Score = 0 := by
  induction run with
  | nil =>
    intro g _ h0 _ h1
    simp at h1
    simp only [escapeRun]
    omega
  | cons x t ih =>
    intro g ha h0 hi h1
    simp only [allEscape, Bool.and_eq_true] at ha
    have hs := (Enemy.Move_Score x.1 g x.2 h0 hi).1 ha.1
    have hp : ∀ l : List (Enemy × List Nat), 0 ≤ (l.map fun x => penalty x.1.Kind).sum := by
      intro l
      induction l with
      | nil => simp
      | cons y l ihl =>
        simp only [List.map_cons, List.sum_cons]
        have : 0 ≤ penalty y.1.Kind := by unfold penalty; split_ifs <;> omega
        omega
    have hq : 0 ≤ penalty x.1.Kind := by unfold penalty; split_ifs <;> omega
    simp only [List.map_cons, List.sum_cons] at h1
    have ht := hp t
    simp only [escapeRun]
    apply ih _ ha.2
    · rw [hs]; exact le_max_left _ _
    · rw [hs]
      unfold isI64 at *
      constructor
      · exact le_trans (by omega) (le_max_left _ _)
      · apply max_le <;> omega
    · rw [hs]
      apply max_le <;> omega

/-! ## C6: the score is never negative -/

/-- C6, refuted for a score that has come close to the largest `int64`: the
session in which the player has shot 46116860184273879 bursts of four weak
enemies, and whose four lasers overlap the four enemies of one more burst, is
reachable from `newGame` and has score 9223372036854775800; the collision
pass adds four awards of 50 as `int64` sums and leaves the score at
-9223372036854775616. -/
theorem Score_negative_after_wrap :
    Reachable (armed 9223372036854775800) ∧
    (armed 9223372036854775800).player.Score = 9223372036854775800 ∧
    Reachable (testCollisions (armed 9223372036854775800)) ∧
    (testCollisions (armed 9223372036854775800)).player.Score = -9223372036854775616 :=
  ⟨armed_reachable, by decide, .step armed_reachable (.testCollisions _), by decide⟩

/-- C6, amended. In every state reachable from `newGame` by steps each taken
from a state whose score is at most `2^63 - 1 - 400` the score is at least 0.
From a reachable state the collision pass adds to the score an award `k`
with `0 <= k <= 400` (at most 100 for each of the four enemy slots) as a Go
`int64` sum, which is the exact sum `Score + k` when the score is at most
`2^63 - 1 - 400`. For every score that is at least 0 (and a Go `int64`) an
`Enemy.Move` call that applies the escape penalty (100 for a weak enemy, 200
for a strong one) leaves `Score = max(0, Score - penalty)`, and a call that
applies none leaves the score unchanged; so a run of escape penalties whose
sum is at least the current score ends with the score at exactly 0. -/
theorem Score_never_negative :
    (∀ g : Game, ReachableUnwrapped g → 0 ≤ g.player.Score) ∧
    (∀ g : Game, Reachable g →
      ∃ k : Int, 0 ≤ k ∧ k ≤ 400 ∧
        (testCollisions g).player.Score = i64 (g.player.Score + k) ∧
        (g.player.Score + 100 * MAX_ENEMIES ≤ 9223372036854775807 →
          (testCollisions g).player.Score = g.player.Score + k)) ∧
    (∀ (e : Enemy) (g : Game) (rs : List Nat),
      0 ≤ g.player.Score → isI64 g.player.Score →
      ((e.Move g rs).1 = true →
        (e.Move g rs).2.2.1.player.Score = max 0 (g.player.Score - penalty e.Kind)) ∧
      ((e.Move g rs).1 = false → (e.Move g rs).2.2.1.player.Score = g.player.Score)) ∧
    (∀ (g : Game) (run : List (Enemy × List Nat)),
      allEscape g run = true → 0 ≤ g.player.Score → isI64 g.player.Score →
      g.player.Score ≤ (run.map fun x => penalty x.1.Kind).sum →
      (escapeRun g run).player.Score = 0) := by
  refine ⟨?_, ?_, Enemy.Move_Score, fun g run => escapeRun_Score run g⟩
  · intro g hr
    induction hr with
    | init g0 => exact le_refl _
    | step hr hc hs ih => exact Step_Score_nonneg hs hr.reachable hc ih
  · intro g hr
    obtain ⟨k, k0, k1, hk⟩ := testCollisions_Score g (Reachable_EnemyInv hr)
      (Reachable_Score_isI64 hr)
    refine ⟨k, k0, k1, hk, fun hc => ?_⟩
    have hi := Reachable_Score_isI64 hr
    simp only [MAX_ENEMIES] at hc
    rw [hk, i64_of_isI64 (by unfold isI64 at *; omega)]

/-- C6 on the session in which two enemies of the first burst are shot
(score 100) and a third one reaches the bottom: the score is at least 0
before its escape and 0 after it; and on a session with a score of 150 in
which two weak enemies escape one after the other: the score goes to 50 and
then to 0. -/
theorem Score_never_negative_witness :
    (ReachableUnwrapped (remnant 308 480 6 0) ∧
      (0 : Int) ≤ (remnant 308 480 6 0).player.Score ∧
      (moveEnemies (remnant 308 480 6 0) []).1.player.Score = 0) ∧
    (Reachable twoShots ∧ (testCollisions twoShots).player.Score = 100 ∧
      ∃ k : Int, 0 ≤ k ∧ k ≤ 400 ∧
        (testCollisions twoShots).player.Score = i64 (twoShots.player.Score + k) ∧
        (twoShots.player.Score + 100 * MAX_ENEMIES ≤ 9223372036854775807 →
          (testCollisions twoShots).player.Score = twoShots.player.Score + k)) ∧
    (allEscape score150 [(leavingEnemy, []), (leavingEnemy, [])] = true ∧
      (0 : Int) ≤ score150.player.Score ∧ isI64 score150.player.Score ∧
      score150.player.Score ≤
        ([(leavingEnemy, ([] : List Nat)), (leavingEnemy, [])].map fun x => penalty x.1.Kind).sum) ∧
    (leavingEnemy.Move score150 []).2.2.1.player.Score = 50 ∧
    (escapeRun score150 [(leavingEnemy, []), (leavingEnemy, [])]).player.Score = 0 :=
  ⟨⟨remnant_unwrapped, Score_never_negative.1 _ remnant_unwrapped, by decide⟩,
    ⟨twoShots_unwrapped.reachable, by decide,
      Score_never_negative.2.1 twoShots twoShots_unwrapped.reachable⟩,
    ⟨by decide, by decide, by decide, by decide⟩,
    ((Score_never_negative.2.2.1 leavingEnemy score150 [] (by decide) (by decide)).1
      (by decide)).trans (by decide),
    Score_never_negative.2.2.2 score150 [(leavingEnemy, []), (leavingEnemy, [])]
      (by decide) (by decide) (by decide) (by decide)⟩

/-! ## C8: one laser, one enemy -/

theorem laserScan_dead_laser (l : Laser) (es : List Enemy) (g : Game) (hl : l.Alive = false) :
    laserScan l es g = (l, es, g) := by
  induction es with
  | nil => rfl
  | cons a es ih => simp [laserScan, hl, ih]

theorem laserScan_dead_enemies (l : Laser) (es : List Enemy) (g : Game)
    (h : ∀ a ∈ es, a.Alive = false) : laserScan l es g = (l, es, g) := by
  induction es with
  | nil => rfl
  | cons a es ih =>
    have ha : a.Alive = false := h a (List.mem_cons_self _ _)
    simp [laserScan, ha, ih (fun b hb => h b (List.mem_cons_of_mem _ hb))]

theorem laserPass_dead_lasers (ls : List Laser) (es : List Enemy) (g : Game)
    (h : ∀ a ∈ ls, a.Alive = false) : laserPass ls es g = (ls, es, g) := by
  induction ls with
  | nil => rfl
  | cons a ls ih =>
    have ha : a.Alive = false := h a (List.mem_cons_self _ _)
    simp [laserPass, laserScan_dead_laser a es g ha,
      ih (fun b hb => h b (List.mem_cons_of_mem _ hb))]

theorem laserPass_append_dead (ls1 ls : List Laser) (es : List Enemy) (g : Game)
    (h : ∀ a ∈ ls1, a.Alive = false) :
    laserPass (ls1 ++ ls) es g = (ls1 ++ (laserPass ls es g).1, (laserPass ls es g).2) := by
  induction ls1 with
  | nil => rfl
  | cons a ls1 ih =>
    have ha : a.Alive = false := h a (List.mem_cons_self _ _)
    simp [laserPass, laserScan_dead_laser a es g ha,
      ih (fun b hb => h b (List.mem_cons_of_mem _ hb))]

/-- The scan of an alive laser that meets its first alive enemy `e` after the
dead slots `es1`, where `e` is on the field and overlaps the laser. -/
theorem laserScan_hit (l : Laser) (es1 : List Enemy) (e : Enemy) (es2 : List Enemy) (g : Game)
    (hp : g.player.Alive = true) (hl : l.Alive = true) (he : e.Alive = true)
    (hes1 : ∀ a ∈ es1, a.Alive = false)
    (hy : i32 (e.Y + e.H) ≥ 0) (hc : collide l.toRect e.toRect = true) :
    laserScan l (es1 ++ e :: es2) g =
      ({ l with Alive := false }, es1 ++ { e with Alive := false } :: es2,
        spawnExplosion
          { g with
            totalEnemies := i64 (g.totalEnemies - 1)
            player := { g.player with Score :=
              (if e.Kind = 0 then i64 (g.player.Score + 50)
              else if e.Kind = 1 then i64 (g.player.Score + 100)
              else g.player.Score) } }
          e.X e.Y) := by
  induction es1 with
  | nil => simp [laserScan, hp, hl, he, hy, hc]
  | cons a es1 ih =>
    have ha : a.Alive = false := hes1 a (List.mem_cons_self _ _)
    simp [laserScan, ha, ih (fun b hb => hes1 b (List.mem_cons_of_mem _ hb))]

theorem enemyLaserScan_dead (ls : List Laser) (g : Game) (h : ∀ b ∈ ls, b.Alive = false) :
    enemyLaserScan ls g = (ls, g) := by
  induction ls with
  | nil => rfl
  | cons a ls ih =>
    have ha : a.Alive = false := h a (List.mem_cons_self _ _)
    simp [enemyLaserScan, ha, ih (fun b hb => h b (List.mem_cons_of_mem _ hb))]

theorem enemyLaserPass_dead (es : List Enemy) (g : Game)
    (h : ∀ a ∈ es, ∀ b ∈ a.Lasers, b.Alive = false) : enemyLaserPass es g = (es, g) := by
  induction es with
  | nil => rfl
  | cons a es ih =>
    simp [enemyLaserPass, enemyLaserScan_dead a.Lasers g (h a (List.mem_cons_self _ _)),
      ih (fun b hb => h b (List.mem_cons_of_mem _ hb))]

theorem bodyPass_dead (es : List Enemy) (g : Game) (h : ∀ a ∈ es, a.Alive = false) :
    bodyPass es g = (es, g) := by
  induction es with
  | nil => rfl
  | cons a es ih =>
    have ha : a.Alive = false := h a (List.mem_cons_self _ _)
    simp [bodyPass, ha, ih (fun b hb => h b (List.mem_cons_of_mem _ hb))]

/-- The whole state after `testCollisions` in the one-laser, one-enemy
situation of C8. -/
theorem single_hit_state (g : Game)
    (ls1 : List Laser) (l : Laser) (ls2 : List Laser)
    (es1 : List Enemy) (e : Enemy) (es2 : List Enemy)
    (hp : g.player.Alive = true)
    (hL : g.player.Lasers = ls1 ++ l :: ls2) (hl : l.Alive = true)
    (hls1 : ∀ a ∈ ls1, a.Alive = false) (hls2 : ∀ a ∈ ls2, a.Alive = false)
    (hE : g.enemies = es1 ++ e :: es2) (he : e.Alive = true)
    (hes1 : ∀ a ∈ es1, a.Alive = false) (hes2 : ∀ a ∈ es2, a.Alive = false)
    (hy : i32 (e.Y + e.H) ≥ 0) (hc : collide l.toRect e.toRect = true)
    (hnl : ∀ a ∈ g.enemies, ∀ b ∈ a.Lasers, b.Alive = false) :
    testCollisions g =
      { g with
        enemies := es1 ++ { e with Alive := false } :: es2
        totalEnemies := i64 (g.totalEnemies - 1)
        explosions := spawnExplosionLoop e.X e.Y g.explosions
        player := { g.player with
          Lasers := ls1 ++ { l with Alive := false } :: ls2
          Score :=
            if e.Kind = 0 then i64 (g.player.Score + 50)
            else if e.Kind = 1 then i64 (g.player.Score + 100)
            else g.player.Score } } := by
  have hdead : ∀ a ∈ es1 ++ { e with Alive := false } :: es2, a.Alive = false := by
    intro a ha
    rcases List.mem_append.1 ha with h1 | h1
    · exact hes1 a h1
    · rcases List.mem_cons.1 h1 with rfl | h2
      · rfl
      · exact hes2 a h2
  have hlas : ∀ a ∈ es1 ++ { e with Alive := false } :: es2, ∀ b ∈ a.Lasers, b.Alive = false := by
    intro a ha
    rcases List.mem_append.1 ha with h1 | h1
    · exact hnl a (by rw [hE]; exact List.mem_append_left _ h1)
    · rcases List.mem_cons.1 h1 with rfl | h2
      · exact hnl e (by rw [hE]; exact List.mem_append_right _ (List.mem_cons_self _ _))
      · exact hnl a (by rw [hE]; exact List.mem_append_right _ (List.mem_cons_of_mem _ h2))
  have h1 : testCollisions1 g =
      { g with
        enemies := es1 ++ { e with Alive := false } :: es2
        totalEnemies := i64 (g.totalEnemies - 1)
        explosions := spawnExplosionLoop e.X e.Y g.explosions
        player := { g.player with
          Lasers := ls1 ++ { l with Alive := false } :: ls2
          Score :=
            if e.Kind = 0 then i64 (g.player.Score + 50)
            else if e.Kind = 1 then i64 (g.player.Score + 100)
            else g.player.Score } } := by
    simp only [testCollisions1, hL, hE]
    rw [laserPass_append_dead ls1 _ _ _ hls1]
    simp only [laserPass]
    rw [laserScan_hit l es1 e es2 g hp hl he hes1 hy hc]
    simp only [laserPass_dead_lasers ls2 _ _ hls2, spawnExplosion]
  have h2 : testCollisions2 (testCollisions1 g) = testCollisions1 g := by
    rw [h1]
    simp only [testCollisions2]
    rw [enemyLaserPass_dead _ _ hlas]
  have h3 : testCollisions3 (testCollisions1 g) = testCollisions1 g := by
    rw [h1]
    simp only [testCollisions3]
    rw [bodyPass_dead _ _ hdead]
  rw [testCollisions, h2, h3, h1]

/-- C8. In a state with the player alive, exactly one player laser `l` alive,
exactly one enemy `e` alive, `e.Y + e.H >= 0`, `l` overlapping `e`, no enemy
laser alive and a dead explosion slot (whether or not the enemy overlaps the
player): after `testCollisions` the enemy is
dead, `totalEnemies` is one less, the laser is dead, `Score` has grown by 50
if the enemy is weak and by 100 if it is strong (Go `int` and `int64`
arithmetic; the exact `totalEnemies - 1`, `Score + 50` and `Score + 100` when
they fit in 64 bits), and the first dead explosion slot is an alive 64x64
explosion at the enemy's `(X, Y)` with frame 0, all other slots unchanged. -/
theorem testCollisions_single_hit (g : Game)
    (ls1 : List Laser) (l : Laser) (ls2 : List Laser)
    (es1 : List Enemy) (e : Enemy) (es2 : List Enemy)
    (xs1 : List Explosion) (x : Explosion) (xs2 : List Explosion)
    (hp : g.player.Alive = true)
    (hL : g.player.Lasers = ls1 ++ l :: ls2) (hl : l.Alive = true)
    (hls1 : ∀ a ∈ ls1, a.Alive = false) (hls2 : ∀ a ∈ ls2, a.Alive = false)
    (hE : g.enemies = es1 ++ e :: es2) (he : e.Alive = true)
    (hes1 : ∀ a ∈ es1, a.Alive = false) (hes2 : ∀ a ∈ es2, a.Alive = false)
    (hxy : isI32 e.X ∧ isI32 e.Y)
    (hy : i32 (e.Y + e.H) ≥ 0) (hc : collide l.toRect e.toRect = true)
    (hnl : ∀ a ∈ g.enemies, ∀ b ∈ a.Lasers, b.Alive = false)
    (hX : g.explosions = xs1 ++ x :: xs2)
    (hxs1 : ∀ a ∈ xs1, a.Alive = true) (hx : x.Alive = false) :
    (testCollisions g).enemies = es1 ++ { e with Alive := false } :: es2 ∧
    ((testCollisions g).totalEnemies = i64 (g.totalEnemies - 1) ∧
      (isI64 (g.totalEnemies - 1) → (testCollisions g).totalEnemies = g.totalEnemies - 1)) ∧
    (testCollisions g).player.Lasers = ls1 ++ { l with Alive := false } :: ls2 ∧
    (e.Kind = 0 → (testCollisions g).player.Score = i64 (g.player.Score + 50) ∧
      (isI64 (g.player.Score + 50) → (testCollisions g).player.Score = g.player.Score + 50)) ∧
    (e.Kind = 1 → (testCollisions g).player.Score = i64 (g.player.Score + 100) ∧
      (isI64 (g.player.Score + 100) →
        (testCollisions g).player.Score = g.player.Score + 100)) ∧
    (testCollisions g).explosions =
      xs1 ++ { X := e.X, Y := e.Y, W := 64, H := 64, Frame := 0, Alive := true } :: xs2 := by
  rw [single_hit_state g ls1 l ls2 es1 e es2 hp hL hl hls1 hls2 hE he hes1 hes2
    hy hc hnl]
  refine ⟨rfl, ⟨rfl, fun hw => i64_of_isI64 hw⟩, rfl, ?_, ?_, ?_⟩
  · intro hk
    have h50 : (if e.Kind = 0 then i64 (g.player.Score + 50)
        else if e.Kind = 1 then i64 (g.player.Score + 100) else g.player.Score)
        = i64 (g.player.Score + 50) := by rw [if_pos hk]
    exact ⟨h50, fun hw => h50.trans (i64_of_isI64 hw)⟩
  · intro hk
    have h100 : (if e.Kind = 0 then i64 (g.player.Score + 50)
        else if e.Kind = 1 then i64 (g.player.Score + 100) else g.player.Score)
        = i64 (g.player.Score + 100) := by
      rw [if_neg (by rw [hk]; decide), if_pos hk]
    exact ⟨h100, fun hw => h100.trans (i64_of_isI64 hw)⟩
  · show spawnExplosionLoop e.X e.Y g.explosions = _
    rw [hX, spawnExplosionLoop_first_dead _ _ xs1 x xs2 hxs1 hx, i32_of_isI32 hxy.1,
      i32_of_isI32 hxy.2]

/-- C8 at the scenario of the specification (`duel`): a weak enemy and a
player laser both at `(100, 50)`. -/
theorem testCollisions_single_hit_witness :
    (duel.player.Alive = true ∧ duelLaser.Alive = true ∧ duelEnemy.Alive = true ∧
      collide duelLaser.toRect duelEnemy.toRect = true) ∧
    (testCollisions duel).enemies =
      { duelEnemy with Alive := false } :: List.replicate 3 newEnemy ∧
    (testCollisions duel).totalEnemies = 0 ∧
    (testCollisions duel).player.Lasers =
      { duelLaser with Alive := false } :: List.replicate 4 newLaser ∧
    (testCollisions duel).player.Score = 50 ∧
    (testCollisions duel).explosions =
      { X := 100, Y := 50, W := 64, H := 64, Frame := 0, Alive := true }
        :: List.replicate 15 newExplosion :=
  have h := testCollisions_single_hit duel [] duelLaser (List.replicate 4 newLaser)
    [] duelEnemy (List.replicate 3 newEnemy) [] newExplosion (List.replicate 15 newExplosion)
    (by decide) (by decide) (by decide) (by decide) (by decide) (by decide) (by decide)
    (by decide) (by decide) (by decide) (by decide) (by decide) (by decide) (by decide)
    (by decide) (by decide)
  ⟨⟨by decide, by decide, by decide, by decide⟩,
    h.1, (h.2.1.2 (by decide)).trans (by decide), h.2.2.1,
    ((h.2.2.2.1 (by decide)).2 (by decide)).trans (by decide), h.2.2.2.2.2⟩

/-! ## The player's velocity -/

/-- The velocity `Player.Move` computes, horizontal component. -/
theorem Player.Move_Vx (p : Player) :
    p.Move.Vx =
      (let v1 :=
        if p.Action &&& KDL ≠ 0 then (if p.Vx > -8 then p.Vx - 1 else p.Vx)
        else if p.Action &&& KDR ≠ 0 then (if p.Vx < 8 then p.Vx + 1 else p.Vx)
        else p.Vx
      let v2 := if p.Action &&& KDL = 0 then (if v1 < 0 then v1 + 1 else v1) else v1
      if p.Action &&& KDR = 0 then (if v2 > 0 then v2 - 1 else v2) else v2) :=
  rfl

/-- The velocity `Player.Move` computes, vertical component. -/
theorem Player.Move_Vy (p : Player) :
    p.Move.Vy =
      (let v1 :=
        if p.Action &&& KDU ≠ 0 then (if p.Vy > -4 then p.Vy - 1 else p.Vy)
        else if p.Action &&& KDD ≠ 0 then (if p.Vy < 4 then p.Vy + 1 else p.Vy)
        else p.Vy
      let v2 := if p.Action &&& KDU = 0 then (if v1 < 0 then v1 + 1 else v1) else v1
      if p.Action &&& KDD = 0 then (if v2 > 0 then v2 - 1 else v2) else v2) :=
  rfl

theorem Player.Move_velocity_le (p : Player)
    (hx : -8 ≤ p.Vx ∧ p.Vx ≤ 8) (hy : -4 ≤ p.Vy ∧ p.Vy ≤ 4) :
    (-8 ≤ p.Move.Vx ∧ p.Move.Vx ≤ 8) ∧ (-4 ≤ p.Move.Vy ∧ p.Move.Vy ≤ 4) := by
  rw [Player.Move_Vx, Player.Move_Vy]
  constructor
  · by_cases hl : p.Action &&& KDL = 0 <;> by_cases hr : p.Action &&& KDR = 0 <;>
      simp only [hl, hr, ne_eq, not_true_eq_false, not_false_eq_true, if_true, if_false] <;>
      split_ifs <;> omega
  · by_cases hu : p.Action &&& KDU = 0 <;> by_cases hd : p.Action &&& KDD = 0 <;>
      simp only [hu, hd, ne_eq, not_true_eq_false, not_false_eq_true, if_true, if_false] <;>
      split_ifs <;> omega

theorem Damage_velocity (g : Game) (d : Int) :
    (Player.Damage g d).player.Vx = g.player.Vx ∧ (Player.Damage g d).player.Vy = g.player.Vy := by
  simp only [Player.Damage]
  split_ifs <;> exact ⟨rfl, rfl⟩

theorem enemyLaserScan_velocity (ls : List Laser) (g : Game) :
    (enemyLaserScan ls g).2.player.Vx = g.player.Vx ∧
    (enemyLaserScan ls g).2.player.Vy = g.player.Vy := by
  induction ls with
  | nil => exact ⟨rfl, rfl⟩
  | cons l ls ih =>
    simp only [enemyLaserScan]
    split_ifs
    · exact ih
    · exact Damage_velocity g 1
    · exact ⟨rfl, rfl⟩

theorem enemyLaserPass_velocity (es : List Enemy) :
    ∀ g : Game, (enemyLaserPass es g).2.player.Vx = g.player.Vx ∧
      (enemyLaserPass es g).2.player.Vy = g.player.Vy := by
  induction es with
  | nil => intro g; exact ⟨rfl, rfl⟩
  | cons e es ih =>
    intro g
    have h1 := enemyLaserScan_velocity e.Lasers g
    have h2 := ih (enemyLaserScan e.Lasers g).2
    simp only [enemyLaserPass]
    exact ⟨h2.1.trans h1.1, h2.2.trans h1.2⟩

theorem bodyPass_velocity (es : List Enemy) (g : Game) :
    (bodyPass es g).2.player.Vx = g.player.Vx ∧ (bodyPass es g).2.player.Vy = g.player.Vy := by
  induction es with
  | nil => exact ⟨rfl, rfl⟩
  | cons e es ih =>
    simp only [bodyPass]
    split_ifs
    · exact ih
    · exact Damage_velocity _ 2
    · exact ⟨rfl, rfl⟩

theorem testCollisions_velocity (g : Game) :
    (testCollisions g).player.Vx = g.player.Vx ∧ (testCollisions g).player.Vy = g.player.Vy := by
  obtain ⟨s, hs⟩ := testCollisions1_player g
  have h1 : (testCollisions1 g).player.Vx = g.player.Vx ∧
      (testCollisions1 g).player.Vy = g.player.Vy := by rw [hs]; exact ⟨rfl, rfl⟩
  have h2 : (testCollisions2 (testCollisions1 g)).player.Vx = (testCollisions1 g).player.Vx ∧
      (testCollisions2 (testCollisions1 g)).player.Vy = (testCollisions1 g).player.Vy :=
    enemyLaserPass_velocity _ _
  have h3 : (testCollisions g).player.Vx = (testCollisions2 (testCollisions1 g)).player.Vx ∧
      (testCollisions g).player.Vy = (testCollisions2 (testCollisions1 g)).player.Vy :=
    bodyPass_velocity _ _
  exact ⟨h3.1.trans (h2.1.trans h1.1), h3.2.trans (h2.2.trans h1.2)⟩

/-- What `Enemy.Move` changes of the globals: `totalEnemies` and
`player.Score`. -/
theorem Enemy.Move_frame (e : Enemy) (g : Game) (rs : List Nat) :
    (e.Move g rs).2.2.1 =
      { g with
        totalEnemies := (e.Move g rs).2.2.1.totalEnemies
        player := { g.player with Score := (e.Move g rs).2.2.1.player.Score } } := by
  simp only [Enemy.Move]
  split_ifs <;> rfl

theorem moveEnemiesLoop_frame (es : List Enemy) :
    ∀ (g : Game) (rs : List Nat),
      (moveEnemiesLoop es g rs).2.1 =
        { g with
          totalEnemies := (moveEnemiesLoop es g rs).2.1.totalEnemies
          player := { g.player with Score := (moveEnemiesLoop es g rs).2.1.player.Score } } := by
  induction es with
  | nil => intro g rs; rfl
  | cons e es ih =>
    intro g rs
    have h1 := Enemy.Move_frame e g rs
    have h2 := ih (e.Move g rs).2.2.1 (e.Move g rs).2.2.2
    simp only [moveEnemiesLoop]
    split_ifs
    · exact h1
    · dsimp only
      rw [h2, h1]

theorem evPlay_velocity (g : Game) (key action : Nat) :
    (evPlay g key action).player.Vx = g.player.Vx ∧
    (evPlay g key action).player.Vy = g.player.Vy := by
  simp only [evPlay, reset]
  split_ifs <;> exact ⟨rfl, rfl⟩

theorem evGameOver_player (g : Game) (key : Nat) : (evGameOver g key).player = g.player := by
  simp only [evGameOver, reset]
  split_ifs <;> rfl

theorem Step_velocity_le {g g1 : Game} (hs : Step g g1)
    (h : (-8 ≤ g.player.Vx ∧ g.player.Vx ≤ 8) ∧ (-4 ≤ g.player.Vy ∧ g.player.Vy ≤ 4)) :
    (-8 ≤ g1.player.Vx ∧ g1.player.Vx ≤ 8) ∧ (-4 ≤ g1.player.Vy ∧ g1.player.Vy ≤ 4) := by
  cases hs with
  | invulnTick =>
    have e : g.player.InvulnTick.Vx = g.player.Vx ∧ g.player.InvulnTick.Vy = g.player.Vy := by
      unfold Player.InvulnTick
      split_ifs <;> exact ⟨rfl, rfl⟩
    show (-8 ≤ g.player.InvulnTick.Vx ∧ _) ∧ (-4 ≤ g.player.InvulnTick.Vy ∧ _)
    rw [e.1, e.2]; exact h
  | playerMove => exact Player.Move_velocity_le g.player h.1 h.2
  | playerFire => exact h
  | testCollisions =>
    have e := testCollisions_velocity g
    rw [e.1, e.2]; exact h
  | spawnEnemies rs => rw [spawnEnemies_player]; exact h
  | moveEnemies rs =>
    have e := moveEnemiesLoop_frame g.enemies g rs
    have ex : (moveEnemies g rs).1.player.Vx = g.player.Vx := by
      show (moveEnemiesLoop g.enemies g rs).2.1.player.Vx = _
      rw [e]
    have ey : (moveEnemies g rs).1.player.Vy = g.player.Vy := by
      show (moveEnemiesLoop g.enemies g rs).2.1.player.Vy = _
      rw [e]
    rw [ex, ey]; exact h
  | enemiesFire rs => exact h
  | moveLasers => exact h
  | frameEnd => exact h
  | evPlay key action =>
    have e := evPlay_velocity g key action
    rw [e.1, e.2]; exact h
  | evGameOver key => rw [evGameOver_player]; exact h
  | newGame =>
    show (-8 ≤ newPlayer.Vx ∧ newPlayer.Vx ≤ 8) ∧ (-4 ≤ newPlayer.Vy ∧ newPlayer.Vy ≤ 4)
    decide

/-! ## C11: the velocity is bounded -/

/-- C11. For every player with `|Vx| <= 8` and `|Vy| <= 4` and every action
mask, after `Player.Move` still `|Vx| <= 8` and `|Vy| <= 4`; and these bounds
hold for the player of every state reachable from `newGame` (whose player is
`newPlayer`, at rest). -/
theorem Move_velocity_bounded :
    (∀ p : Player, (-8 ≤ p.Vx ∧ p.Vx ≤ 8) → (-4 ≤ p.Vy ∧ p.Vy ≤ 4) →
      (-8 ≤ p.Move.Vx ∧ p.Move.Vx ≤ 8) ∧ (-4 ≤ p.Move.Vy ∧ p.Move.Vy ≤ 4)) ∧
    (∀ g : Game, Reachable g →
      (-8 ≤ g.player.Vx ∧ g.player.Vx ≤ 8) ∧ (-4 ≤ g.player.Vy ∧ g.player.Vy ≤ 4)) := by
  refine ⟨Player.Move_velocity_le, ?_⟩
  intro g hr
  induction hr with
  | init g0 =>
    show (-8 ≤ newPlayer.Vx ∧ newPlayer.Vx ≤ 8) ∧ (-4 ≤ newPlayer.Vy ∧ newPlayer.Vy ≤ 4)
    decide
  | step _ hs ih => exact Step_velocity_le hs ih

/-- C11 at a player already at full speed to the left and up who holds left
and right, up and down together: the velocity stays `(-8, -4)`. -/
theorem Move_velocity_bounded_witness :
    ((-8 ≤ ({ newPlayer with Vx := -8, Vy := -4, Action := 15 } : Player).Vx ∧
        ({ newPlayer with Vx := -8, Vy := -4, Action := 15 } : Player).Vx ≤ 8) ∧
      (-4 ≤ ({ newPlayer with Vx := -8, Vy := -4, Action := 15 } : Player).Vy ∧
        ({ newPlayer with Vx := -8, Vy := -4, Action := 15 } : Player).Vy ≤ 4)) ∧
    ({ newPlayer with Vx := -8, Vy := -4, Action := 15 } : Player).Move.Vx = -8 ∧
    ({ newPlayer with Vx := -8, Vy := -4, Action := 15 } : Player).Move.Vy = -4 ∧
    (-8 ≤ (update fresh []).1.player.Vx ∧ (update fresh []).1.player.Vx ≤ 8) :=
  ⟨⟨⟨by decide, by decide⟩, ⟨by decide, by decide⟩⟩, by decide, by decide,
    (Move_velocity_bounded.2 _ ((Reachable.init blank).update [])).1⟩

/-! ## C12: decay without input -/

theorem Player.Move_eq (p : Player) :
    p.Move = { p with Vx := p.Move.Vx, Vy := p.Move.Vy, X := p.Move.X, Y := p.Move.Y } :=
  rfl

theorem Player.Move_decay (p : Player)
    (hl : p.Action &&& KDL = 0) (hr : p.Action &&& KDR = 0)
    (hu : p.Action &&& KDU = 0) (hd : p.Action &&& KDD = 0) :
    p.Move.Vx = (if p.Vx < 0 then p.Vx + 1 else if p.Vx > 0 then p.Vx - 1 else p.Vx) ∧
    p.Move.Vy = (if p.Vy < 0 then p.Vy + 1 else if p.Vy > 0 then p.Vy - 1 else p.Vy) := by
  rw [Player.Move_Vx, Player.Move_Vy]
  constructor
  · simp only [hl, hr, ne_eq, not_true_eq_false, not_false_eq_true, if_true, if_false]
    split_ifs <;> omega
  · simp only [hu, hd, ne_eq, not_true_eq_false, not_false_eq_true, if_true, if_false]
    split_ifs <;> omega

/-- The fresh player with any action mask without a directional bit is left
as it is by `Player.Move`. -/
theorem Player.Move_newPlayer_rest (a : Nat)
    (hl : a &&& KDL = 0) (hr : a &&& KDR = 0) (hu : a &&& KDU = 0) (hd : a &&& KDD = 0) :
    ({ newPlayer with Action := a } : Player).Move = { newPlayer with Action := a } := by
  have hv := Player.Move_decay { newPlayer with Action := a } hl hr hu hd
  have hvx : ({ newPlayer with Action := a } : Player).Move.Vx = 0 := hv.1.trans (by rfl)
  have hvy : ({ newPlayer with Action := a } : Player).Move.Vy = 0 := hv.2.trans (by rfl)
  have hx : ({ newPlayer with Action := a } : Player).Move.X = 295 := by
    rw [Player.Move_X, hvx]; rfl
  have hy : ({ newPlayer with Action := a } : Player).Move.Y = 384 := by
    rw [Player.Move_Y, hvy]; rfl
  rw [Player.Move_eq, hvx, hvy, hx, hy]
  rfl

theorem moveCalls_fixed (p : Player) (h : p.Move = p) (n : Nat) : moveCalls n p = p := by
  induction n with
  | zero => rfl
  | succ n ih => rw [moveCalls, h, ih]

/-- C12. With no directional bit set in the action mask, `Player.Move` moves
each of `Vx` and `Vy` exactly one unit toward 0 and leaves a component that
is 0 at 0; so the fresh player of `newPlayer`, at `(295, BOTTOM - 64)` with
velocity `(0, 0)`, has velocity `(0, 0)` and position `(295, BOTTOM - 64)`
after any number of consecutive `Move` calls without directional input, in
particular after each of the first 10. -/
theorem Move_decays_without_input :
    (∀ p : Player,
      p.Action &&& KDL = 0 → p.Action &&& KDR = 0 →
      p.Action &&& KDU = 0 → p.Action &&& KDD = 0 →
      p.Move.Vx = (if p.Vx < 0 then p.Vx + 1 else if p.Vx > 0 then p.Vx - 1 else 0) ∧
      p.Move.Vy = (if p.Vy < 0 then p.Vy + 1 else if p.Vy > 0 then p.Vy - 1 else 0)) ∧
    (∀ (a n : Nat),
      a &&& KDL = 0 → a &&& KDR = 0 → a &&& KDU = 0 → a &&& KDD = 0 →
      (moveCalls n { newPlayer with Action := a }).Vx = 0 ∧
      (moveCalls n { newPlayer with Action := a }).Vy = 0 ∧
      (moveCalls n { newPlayer with Action := a }).X = 295 ∧
      (moveCalls n { newPlayer with Action := a }).Y = BOTTOM - 64) := by
  constructor
  · intro p hl hr hu hd
    obtain ⟨h1, h2⟩ := Player.Move_decay p hl hr hu hd
    rw [h1, h2]
    constructor <;> split_ifs <;> omega
  · intro a n hl hr hu hd
    rw [moveCalls_fixed _ (Player.Move_newPlayer_rest a hl hr hu hd) n]
    exact ⟨rfl, rfl, rfl, rfl⟩

/-- C12 at the drifting player (velocity `(8, -4)`, no key held), whose
velocity becomes `(7, -3)`, and at the fresh player after 10 calls. -/
theorem Move_decays_without_input_witness :
    (drifting.Action &&& KDL = 0 ∧ drifting.Action &&& KDR = 0 ∧
      drifting.Action &&& KDU = 0 ∧ drifting.Action &&& KDD = 0) ∧
    (drifting.Move.Vx = 7 ∧ drifting.Move.Vy = -3) ∧
    ((moveCalls 10 { newPlayer with Action := 0 }).Vx = 0 ∧
      (moveCalls 10 { newPlayer with Action := 0 }).Vy = 0 ∧
      (moveCalls 10 { newPlayer with Action := 0 }).X = 295 ∧
      (moveCalls 10 { newPlayer with Action := 0 }).Y = BOTTOM - 64) :=
  ⟨⟨by decide, by decide, by decide, by decide⟩,
    ⟨(Move_decays_without_input.1 drifting (by decide) (by decide) (by decide) (by decide)).1.trans
        (by decide),
      (Move_decays_without_input.1 drifting (by decide) (by decide) (by decide) (by decide)).2.trans
        (by decide)⟩,
    Move_decays_without_input.2 0 10 (by decide) (by decide) (by decide) (by decide)⟩

/-! ## C13 and C14: the descent of an enemy and its escape -/

theorem Enemy.patrol_X (e : Enemy) (rs : List Nat) :
    (e.patrol rs).1 = e.X ∨ (e.patrol rs).1 = i32 (e.X + patrolSpeed e) ∨
    (e.patrol rs).1 = i32 (e.X - patrolSpeed e) := by
  simp only [Enemy.patrol, patrolSpeed]
  split_ifs <;> simp

/-- C13 fails as stated: the alive weak enemy `duelEnemy` and the alive
strong enemy `strongEnemy`, both at `Y = 50`, are at `Y = 51` after one
`Enemy.Move` call (and after its first block), not at 52 and 53. -/
theorem Move_descends_one_pixel_only :
    (duelEnemy.Alive = true ∧ duelEnemy.Kind = 0 ∧ duelEnemy.Y = 50 ∧
      (duelEnemy.advance []).1.Y = 51 ∧ (duelEnemy.Move fresh []).2.1.Y = 51) ∧
    (strongEnemy.Alive = true ∧ strongEnemy.Kind = 1 ∧ strongEnemy.Y = 50 ∧
      (strongEnemy.advance []).1.Y = 51 ∧ (strongEnemy.Move fresh []).2.1.Y = 51) := by
  decide

/-- C13 as amended. For every alive enemy, one `Enemy.Move` call descends it
by exactly 1 px whatever its kind: before any escape reset `Y` is the `int32`
sum `Y + 1`, which is `Y + 1` itself when that fits in an `int32`, and it is
the `Y` of the enemy `Move` leaves when the enemy does not escape. The rate of
the kind, 2 px for a weak enemy and 3 px for a strong one, is the step of the
horizontal patrol: `X` is unchanged or changed by that step. -/
theorem Move_descends_one_pixel (e : Enemy) (g : Game) (rs : List Nat)
    (ha : e.Alive = true) :
    (e.advance rs).1.Y = i32 (e.Y + 1) ∧
    (isI32 (e.Y + 1) → (e.advance rs).1.Y = e.Y + 1) ∧
    (¬ i32 (e.Y + 1) > i32 (BOTTOM + e.H) → (e.Move g rs).2.1.Y = i32 (e.Y + 1)) ∧
    ((e.advance rs).1.X = e.X ∨
      (e.advance rs).1.X = i32 (e.X + (if e.Kind = 1 then 3 else 2)) ∨
      (e.advance rs).1.X = i32 (e.X - (if e.Kind = 1 then 3 else 2))) := by
  have hy : (e.advance rs).1.Y = i32 (e.Y + 1) := by
    rw [(Enemy.advance_fields e rs).1, if_pos ha]
  refine ⟨hy, ?_, ?_, ?_⟩
  · intro h
    rw [hy, i32_of_isI32 h]
  · intro h
    have hc := (Enemy.Move_cases e g rs).2 (by rw [hy]; exact h)
    rw [hc.2.1, hy]
  · have hx : (e.advance rs).1.X = (e.patrol rs).1 := by
      unfold Enemy.advance
      rw [if_pos ha]
    rw [hx]
    exact Enemy.patrol_X e rs

/-- C13 as amended, at `strongEnemy`: it goes from `Y = 50` to `Y = 51` and
from `X = 100` to `X = 103`. -/
theorem Move_descends_one_pixel_witness :
    strongEnemy.Alive = true ∧
    (strongEnemy.advance []).1.Y = 50 + 1 ∧
    (strongEnemy.Move fresh []).2.1.Y = 51 ∧ (strongEnemy.Move fresh []).2.1.X = 103 :=
  have h := Move_descends_one_pixel strongEnemy fresh [] (by decide)
  ⟨by decide, h.2.1 (by decide), (h.2.2.1 (by decide)).trans (by decide), by decide⟩

/-- C14. For every alive enemy whose `Y` after the descent step (the `int32`
sum `Y + 1`) exceeds `BOTTOM + H` (an `int32` sum as well): `Move` leaves it
dead and `totalEnemies` one less; if the scene is not GAMEOVER `Move` returns
true and leaves `Score = max(0, Score - 100)` for a weak enemy and
`max(0, Score - 200)` for a strong one; if the scene is GAMEOVER it returns
false and the score is unchanged. The differences are Go `int` and `int64`
differences: the exact `totalEnemies - 1`, `Score - 100` and `Score - 200`
when they fit in 64 bits. For every enemy whose `Y` after the first block of
`Move` does not exceed `BOTTOM + H`, `Move` returns false and changes neither
`totalEnemies` nor `Score`. -/
theorem Move_escape (e : Enemy) (g : Game) (rs : List Nat) :
    (e.Alive = true → i32 (e.Y + 1) > i32 (BOTTOM + e.H) →
      (e.Move g rs).2.1.Alive = false ∧
      ((e.Move g rs).2.2.1.totalEnemies = i64 (g.totalEnemies - 1) ∧
        (isI64 (g.totalEnemies - 1) →
          (e.Move g rs).2.2.1.totalEnemies = g.totalEnemies - 1)) ∧
      (g.state ≠ GAMEOVER →
        (e.Move g rs).1 = true ∧
        (e.Kind = 0 →
          (e.Move g rs).2.2.1.player.Score = max 0 (i64 (g.player.Score - 100)) ∧
          (isI64 (g.player.Score - 100) →
            (e.Move g rs).2.2.1.player.Score = max 0 (g.player.Score - 100))) ∧
        (e.Kind = 1 →
          (e.Move g rs).2.2.1.player.Score = max 0 (i64 (g.player.Score - 200)) ∧
          (isI64 (g.player.Score - 200) →
            (e.Move g rs).2.2.1.player.Score = max 0 (g.player.Score - 200)))) ∧
      (g.state = GAMEOVER →
        (e.Move g rs).1 = false ∧ (e.Move g rs).2.2.1.player.Score = g.player.Score)) ∧
    (¬ (e.advance rs).1.Y > i32 (BOTTOM + e.H) →
      (e.Move g rs).1 = false ∧
      (e.Move g rs).2.2.1.totalEnemies = g.totalEnemies ∧
      (e.Move g rs).2.2.1.player.Score = g.player.Score) := by
  constructor
  · intro ha hy
    have hadv : (e.advance rs).1.Y > i32 (BOTTOM + e.H) := by
      rw [(Enemy.advance_fields e rs).1, if_pos ha]; exact hy
    obtain ⟨h1, h2, h3, h4⟩ := (Enemy.Move_cases e g rs).1 hadv
    refine ⟨by rw [h1], ⟨h2, fun hw => h2.trans (i64_of_isI64 hw)⟩, ?_, ?_⟩
    · intro hs
      refine ⟨(h3 hs).1, ?_, ?_⟩
      · intro hk
        have hv : (e.Move g rs).2.2.1.player.Score = max 0 (i64 (g.player.Score - 100)) := by
          rw [(h3 hs).2, if_pos hk]
        exact ⟨hv, fun hw => by rw [hv, i64_of_isI64 hw]⟩
      · intro hk
        have hv : (e.Move g rs).2.2.1.player.Score = max 0 (i64 (g.player.Score - 200)) := by
          rw [(h3 hs).2, if_neg (by rw [hk]; decide), if_pos hk]
        exact ⟨hv, fun hw => by rw [hv, i64_of_isI64 hw]⟩
    · intro hs
      exact ⟨(h4 hs).1, by rw [(h4 hs).2]⟩
  · intro h
    obtain ⟨h1, _, h3⟩ := (Enemy.Move_cases e g rs).2 h
    exact ⟨h1, by rw [h3], by rw [h3]⟩

/-- C14 at the weak enemy `leavingEnemy` (at `Y = 480 = BOTTOM + H`) in a
session with a score of 150: it is dead after `Move`, `totalEnemies` is one
less, the score is 50 and `Move` returns true. -/
theorem Move_escape_witness :
    (leavingEnemy.Alive = true ∧ i32 (leavingEnemy.Y + 1) > i32 (BOTTOM + leavingEnemy.H) ∧
      score150.state ≠ GAMEOVER ∧ leavingEnemy.Kind = 0) ∧
    (leavingEnemy.Move score150 []).2.1.Alive = false ∧
    (leavingEnemy.Move score150 []).2.2.1.totalEnemies = score150.totalEnemies - 1 ∧
    (leavingEnemy.Move score150 []).1 = true ∧
    (leavingEnemy.Move score150 []).2.2.1.player.Score = 50 :=
  have h := (Move_escape leavingEnemy score150 []).1 (by decide) (by decide)
  ⟨⟨by decide, by decide, by decide, by decide⟩, h.1, h.2.1.2 (by decide),
    (h.2.2.1 (by decide)).1,
    (((h.2.2.1 (by decide)).2.1 (by decide)).2 (by decide)).trans (by decide)⟩

/-! ## C15: laser movement -/

theorem movePlayerLaser_spec (l : Laser) :
    (movePlayerLaser l).X = l.X ∧ (movePlayerLaser l).W = l.W ∧ (movePlayerLaser l).H = l.H ∧
    (l.Alive = true → (movePlayerLaser l).Y = i32 (l.Y - 10)) ∧
    (l.Alive = false → (movePlayerLaser l).Y = l.Y ∧ (movePlayerLaser l).Alive = false) ∧
    ((movePlayerLaser l).Alive = true → 0 ≤ (movePlayerLaser l).Y) ∧
    (l.Alive = true → 0 ≤ (movePlayerLaser l).Y → (movePlayerLaser l).Alive = true) := by
  cases ha : l.Alive <;> simp only [movePlayerLaser, ha] <;> split_ifs <;> simp_all

theorem moveEnemyLaser_spec (l : Laser) :
    (moveEnemyLaser l).X = l.X ∧ (moveEnemyLaser l).W = l.W ∧ (moveEnemyLaser l).H = l.H ∧
    (l.Alive = true → (moveEnemyLaser l).Y = i32 (l.Y + 5)) ∧
    (l.Alive = false → (moveEnemyLaser l).Y = l.Y ∧ (moveEnemyLaser l).Alive = false) ∧
    ((moveEnemyLaser l).Alive = true → (moveEnemyLaser l).Y ≤ HEIGHT) ∧
    (l.Alive = true → (moveEnemyLaser l).Y ≤ HEIGHT → (moveEnemyLaser l).Alive = true) := by
  cases ha : l.Alive <;> simp only [moveEnemyLaser, ha] <;> split_ifs <;> simp_all

/-- C15. The call `moveLasers` applies `movePlayerLaser` to every laser slot
of the player and `moveEnemyLaser` to every laser slot of every enemy, slot by
slot. An alive player laser goes up by exactly 10 px and an alive enemy laser
down by exactly 5 px (`int32` arithmetic; the exact `Y - 10` and `Y + 5` when
they fit in an `int32`), `X`, `W` and `H` are unchanged, a dead laser keeps
its position and stays dead; afterwards no alive player laser has `Y < 0` and
no alive enemy laser has `Y > HEIGHT`, and a laser that was alive and ends
with `Y >= 0` (player) or `Y <= HEIGHT` (enemy) is still alive. -/
theorem moveLasers_moves_and_retires (g : Game) :
    ((moveLasers g).player.Lasers = g.player.Lasers.map movePlayerLaser ∧
      (moveLasers g).enemies.map (fun e => e.Lasers) =
        g.enemies.map (fun e => e.Lasers.map moveEnemyLaser)) ∧
    (∀ l : Laser,
      (movePlayerLaser l).X = l.X ∧ (movePlayerLaser l).W = l.W ∧ (movePlayerLaser l).H = l.H ∧
      (l.Alive = true → (movePlayerLaser l).Y = i32 (l.Y - 10)) ∧
      (l.Alive = true → isI32 (l.Y - 10) → (movePlayerLaser l).Y = l.Y - 10) ∧
      (l.Alive = false → (movePlayerLaser l).Y = l.Y ∧ (movePlayerLaser l).Alive = false) ∧
      (l.Alive = true → 0 ≤ (movePlayerLaser l).Y → (movePlayerLaser l).Alive = true)) ∧
    (∀ l : Laser,
      (moveEnemyLaser l).X = l.X ∧ (moveEnemyLaser l).W = l.W ∧ (moveEnemyLaser l).H = l.H ∧
      (l.Alive = true → (moveEnemyLaser l).Y = i32 (l.Y + 5)) ∧
      (l.Alive = true → isI32 (l.Y + 5) → (moveEnemyLaser l).Y = l.Y + 5) ∧
      (l.Alive = false → (moveEnemyLaser l).Y = l.Y ∧ (moveEnemyLaser l).Alive = false) ∧
      (l.Alive = true → (moveEnemyLaser l).Y ≤ HEIGHT → (moveEnemyLaser l).Alive = true)) ∧
    (∀ l ∈ (moveLasers g).player.Lasers, l.Alive = true → 0 ≤ l.Y) ∧
    (∀ e ∈ (moveLasers g).enemies, ∀ l ∈ e.Lasers, l.Alive = true → l.Y ≤ HEIGHT) := by
  refine ⟨⟨rfl, ?_⟩, ?_, ?_, ?_, ?_⟩
  · simp only [moveLasers, List.map_map]
    rfl
  · intro l
    obtain ⟨h1, h2, h3, h4, h5, _, h7⟩ := movePlayerLaser_spec l
    exact ⟨h1, h2, h3, h4, fun ha hi => by rw [h4 ha, i32_of_isI32 hi], h5, h7⟩
  · intro l
    obtain ⟨h1, h2, h3, h4, h5, _, h7⟩ := moveEnemyLaser_spec l
    exact ⟨h1, h2, h3, h4, fun ha hi => by rw [h4 ha, i32_of_isI32 hi], h5, h7⟩
  · intro l hl
    obtain ⟨a, _, rfl⟩ := List.mem_map.1 (show l ∈ g.player.Lasers.map movePlayerLaser from hl)
    exact (movePlayerLaser_spec a).2.2.2.2.2.1
  · intro e he l hl
    obtain ⟨a, _, rfl⟩ := List.mem_map.1
      (show e ∈ g.enemies.map (fun e => { e with Lasers := e.Lasers.map moveEnemyLaser }) from he)
    obtain ⟨b, _, rfl⟩ := List.mem_map.1 (show l ∈ a.Lasers.map moveEnemyLaser from hl)
    exact (moveEnemyLaser_spec b).2.2.2.2.2.1

/-- C15 at the session `crossfire`: the player laser at `Y = 50` goes to
`Y = 40` and stays alive; the enemy laser at `Y = 478` goes to `Y = 483`,
beyond `HEIGHT = 480`, and is dead. -/
theorem moveLasers_moves_and_retires_witness :
    (duelLaser.Alive = true ∧ isI32 (duelLaser.Y - 10)) ∧
    (movePlayerLaser duelLaser).Y = 50 - 10 ∧
    (moveLasers crossfire).player.Lasers =
      { duelLaser with Y := 40 } :: List.replicate 4 newLaser ∧
    (moveLasers crossfire).enemies.map (fun e => e.Lasers.map (fun l => (l.Y, l.Alive))) =
      [[(483, false)],
        List.replicate 5 (0, false), List.replicate 5 (0, false), List.replicate 5 (0, false)] :=
  ⟨⟨by decide, by decide⟩,
    ((moveLasers_moves_and_retires crossfire).2.1 duelLaser).2.2.2.2.1 (by decide) (by decide),
    (moveLasers_moves_and_retires crossfire).1.1.trans (by decide), by decide⟩

/-! ## C16: damage to a dead player -/

theorem laserScan_dead_player (l : Laser) (es : List Enemy) (g : Game)
    (h : g.player.Alive = false) : laserScan l es g = (l, es, g) := by
  induction es with
  | nil => rfl
  | cons a es ih => simp [laserScan, h, ih]

theorem laserPass_dead_player (ls : List Laser) (es : List Enemy) (g : Game)
    (h : g.player.Alive = false) : laserPass ls es g = (ls, es, g) := by
  induction ls with
  | nil => rfl
  | cons a ls ih => simp [laserPass, laserScan_dead_player a es g h, ih]

theorem enemyLaserScan_dead_player (ls : List Laser) (g : Game)
    (h : g.player.Alive = false) : enemyLaserScan ls g = (ls, g) := by
  induction ls with
  | nil => rfl
  | cons a ls ih => simp [enemyLaserScan, h, ih]

theorem enemyLaserPass_dead_player (es : List Enemy) (g : Game)
    (h : g.player.Alive = false) : enemyLaserPass es g = (es, g) := by
  induction es with
  | nil => rfl
  | cons a es ih => simp [enemyLaserPass, enemyLaserScan_dead_player a.Lasers g h, ih]

theorem bodyPass_dead_player (es : List Enemy) (g : Game)
    (h : g.player.Alive = false) : bodyPass es g = (es, g) := by
  induction es with
  | nil => rfl
  | cons a es ih => simp [bodyPass, h, ih]

/-- With the player dead `testCollisions` changes nothing. -/
theorem testCollisions_dead_player (g : Game) (h : g.player.Alive = false) :
    testCollisions g = g := by
  have h1 : testCollisions1 g = g := by
    simp only [testCollisions1, laserPass_dead_player _ _ g h]
  have h2 : testCollisions2 g = g := by
    simp only [testCollisions2, enemyLaserPass_dead_player _ g h]
  have h3 : testCollisions3 g = g := by
    simp only [testCollisions3, bodyPass_dead_player _ g h]
  rw [testCollisions, h1, h2, h3]

/-- C16 fails as stated: in the session `afterDeath` the player is dead, and
`Player.Damage(1)` sets `Invuln` and `InvulnTimer` and activates an explosion
slot. -/
theorem Damage_on_dead_player_changes_state :
    afterDeath.player.Alive = false ∧
    (afterDeath.player.Invuln = false ∧ (Player.Damage afterDeath 1).player.Invuln = true) ∧
    (afterDeath.player.InvulnTimer = 0 ∧ (Player.Damage afterDeath 1).player.InvulnTimer = 100) ∧
    (afterDeath.explosions.map (fun x => x.Alive) = List.replicate 16 false ∧
      (Player.Damage afterDeath 1).explosions.map (fun x => x.Alive)
        = true :: List.replicate 15 false) := by
  decide

/-- C16 as amended. `Player.Damage(d)` does not test `player.Alive`: on a
dead player, with invincibility off, it still opens the invulnerability
window (`Invuln = true`, `InvulnTimer = 100`); with invincibility on it
changes nothing. The defensive test is in the caller: for every state with
`player.Alive = false`, `testCollisions`, the only caller of `Damage`, leaves
the whole session state unchanged. -/
theorem Damage_dead_player_guarded_by_testCollisions (g : Game) (d : Int)
    (hdead : g.player.Alive = false) :
    testCollisions g = g ∧
    (g.invincible = true → Player.Damage g d = g) ∧
    (g.invincible = false →
      (Player.Damage g d).player.Invuln = true ∧
      (Player.Damage g d).player.InvulnTimer = 100) := by
  refine ⟨testCollisions_dead_player g hdead, Damage_invincible g d, ?_⟩
  intro hi
  simp only [Player.Damage, hi, Bool.false_eq_true, ↓reduceIte]
  split_ifs <;> exact ⟨rfl, rfl⟩

/-- C16 as amended, at the session `afterDeath`, in which an enemy and an
enemy laser lie on the dead player's rectangle. -/
theorem Damage_dead_player_guarded_by_testCollisions_witness :
    (afterDeath.player.Alive = false ∧ afterDeath.invincible = false) ∧
    testCollisions afterDeath = afterDeath ∧
    (Player.Damage afterDeath 2).player.Invuln = true :=
  have h := Damage_dead_player_guarded_by_testCollisions afterDeath 2 (by decide)
  ⟨⟨by decide, by decide⟩, h.1, (h.2.2 (by decide)).1⟩

/-! ## C18: the rate of fire -/

theorem playerFireLoop_flag (p : Player) (ls : List Laser) :
    ((p.fireLoop ls).2 = true ↔ ∃ l ∈ ls, l.Alive = false) ∧
    ((p.fireLoop ls).2 = false → (p.fireLoop ls).1 = ls) ∧
    ((p.fireLoop ls).2 = true → (p.fireLoop ls).1 ≠ ls) := by
  induction ls with
  | nil => simp [Player.fireLoop]
  | cons a ls ih =>
    cases ha : a.Alive with
    | false =>
      simp only [Player.fireLoop, ha, Bool.not_false, if_true]
      refine ⟨⟨fun _ => ⟨a, List.mem_cons_self _ _, ha⟩, fun _ => trivial⟩, fun h => by simp at h, ?_⟩
      intro _ h
      have h1 := (List.cons.inj h).1
      have h2 := congrArg Laser.Alive h1
      rw [ha] at h2
      simp at h2
    | true =>
      simp only [Player.fireLoop, ha, Bool.not_true, Bool.false_eq_true, if_false]
      refine ⟨?_, ?_, ?_⟩
      · rw [ih.1]
        constructor
        · rintro ⟨l, hl, hd⟩
          exact ⟨l, List.mem_cons_of_mem _ hl, hd⟩
        · rintro ⟨l, hl, hd⟩
          rcases List.mem_cons.1 hl with rfl | hl
          · rw [ha] at hd; simp at hd
          · exact ⟨l, hl, hd⟩
      · intro h
        rw [ih.2.1 h]
      · intro h h2
        exact ih.2.2 h (List.cons.inj h2).2

theorem Player.Fire_LaserTimer (p : Player) :
    (p.firing = true → p.Fire.LaserTimer = 14) ∧
    (p.firing = false →
      p.Fire.LaserTimer = (if p.LaserTimer > 0 then p.LaserTimer - 1 else p.LaserTimer)) := by
  simp only [Player.firing, Player.Fire, Bool.and_eq_true, decide_eq_true_eq, Bool.and_eq_false_imp]
  constructor
  · rintro ⟨hc, hf⟩
    simp [hc, hf]
  · intro h
    by_cases hc : p.Action &&& KDZ ≠ 0 ∧ p.LaserTimer = 0
    · have hf := h hc
      simp [hc, hf]
    · simp only [hc, if_false]

theorem Player.Fire_Lasers (p : Player) :
    p.Fire.Lasers =
      (if p.Action &&& KDZ ≠ 0 ∧ p.LaserTimer = 0 then (p.fireLoop p.Lasers).1 else p.Lasers) := by
  simp only [Player.Fire]
  split_ifs <;> rfl

theorem Player.firing_iff_pool_changes (p : Player) :
    p.firing = true ↔ p.Fire.Lasers ≠ p.Lasers := by
  obtain ⟨_, h2, h3⟩ := playerFireLoop_flag p p.Lasers
  rw [Player.Fire_Lasers]
  unfold Player.firing
  by_cases hc : p.Action &&& KDZ ≠ 0 ∧ p.LaserTimer = 0
  · rw [if_pos hc, decide_eq_true hc, Bool.true_and]
    cases hf : (p.fireLoop p.Lasers).2 with
    | true => exact ⟨fun _ => h3 hf, fun _ => rfl⟩
    | false => exact ⟨fun h => by simp at h, fun h => absurd (h2 hf) h⟩
  · rw [if_neg hc, decide_eq_false hc, Bool.false_and]
    exact ⟨fun h => by simp at h, fun h => absurd rfl h⟩

theorem Player.firing_cooling (p : Player) (h : p.LaserTimer ≠ 0) : p.firing = false := by
  simp [Player.firing, h]

theorem fireCalls_cooling (ins : List (Nat × List Laser)) :
    ∀ p : Player, (ins.length : Int) ≤ p.LaserTimer →
      (fireCalls p ins).LaserTimer = p.LaserTimer - ins.length := by
  induction ins with
  | nil => intro p _; simp [fireCalls]
  | cons c t ih =>
    intro p hp
    simp only [List.length_cons, Nat.cast_add, Nat.cast_one] at hp
    have hpos : p.LaserTimer ≠ 0 := by omega
    have hnf := Player.firing_cooling ({ p with Action := c.1, Lasers := c.2 } : Player) hpos
    have ht := (Player.Fire_LaserTimer ({ p with Action := c.1, Lasers := c.2 } : Player)).2 hnf
    have ht2 : ({ p with Action := c.1, Lasers := c.2 } : Player).Fire.LaserTimer
        = p.LaserTimer - 1 := by
      rw [ht]
      show (if p.LaserTimer > 0 then p.LaserTimer - 1 else p.LaserTimer) = _
      rw [if_pos (by omega)]
    simp only [fireCalls, List.length_cons, Nat.cast_add, Nat.cast_one]
    rw [ih _ (by rw [ht2]; omega), ht2]
    ring

/-- C18. After a `Player.Fire` call that activates a laser slot, none of the
next 14 `Player.Fire` calls activates a slot, whatever the action mask and the
laser pool are at each of them, and the 15th call activates one whenever the
fire action is set and a slot is dead. A call activates a slot exactly when it
changes the laser pool. -/
theorem Fire_once_per_15_calls (p : Player) (hfire : p.firing = true) :
    (∀ (ins : List (Nat × List Laser)) (a : Nat) (ls : List Laser), ins.length < 14 →
      ({ fireCalls p.Fire ins with Action := a, Lasers := ls } : Player).firing = false) ∧
    (∀ (ins : List (Nat × List Laser)) (a : Nat) (ls : List Laser), ins.length = 14 →
      a &&& KDZ ≠ 0 → (∃ l ∈ ls, l.Alive = false) →
      ({ fireCalls p.Fire ins with Action := a, Lasers := ls } : Player).firing = true) ∧
    (∀ q : Player, q.firing = true ↔ q.Fire.Lasers ≠ q.Lasers) := by
  have h14 := (Player.Fire_LaserTimer p).1 hfire
  refine ⟨?_, ?_, Player.firing_iff_pool_changes⟩
  · intro ins a ls hlen
    have ht := fireCalls_cooling ins p.Fire (by rw [h14]; omega)
    apply Player.firing_cooling
    show (fireCalls p.Fire ins).LaserTimer ≠ 0
    rw [ht, h14]
    omega
  · intro ins a ls hlen ha hdead
    have ht := fireCalls_cooling ins p.Fire (by rw [h14]; omega)
    have h0 : (fireCalls p.Fire ins).LaserTimer = 0 := by
      rw [ht, h14, hlen]; rfl
    have hf := (playerFireLoop_flag
      ({ fireCalls p.Fire ins with Action := a, Lasers := ls } : Player) ls).1.2 hdead
    simp only [Player.firing, Bool.and_eq_true, decide_eq_true_eq]
    exact ⟨⟨ha, h0⟩, hf⟩

/-- C18 at the fresh player holding the fire key: the first call fires, the
call right after does not, and after 14 calls the next one fires again. -/
theorem Fire_once_per_15_calls_witness :
    trigger.firing = true ∧
    ({ fireCalls trigger.Fire [] with Action := KDZ, Lasers := trigger.Fire.Lasers }
      : Player).firing = false ∧
    ({ fireCalls trigger.Fire (List.replicate 14 (KDZ, trigger.Fire.Lasers))
        with Action := KDZ, Lasers := trigger.Fire.Lasers } : Player).firing = true :=
  have h := Fire_once_per_15_calls trigger (by decide)
  ⟨by decide, h.1 [] KDZ trigger.Fire.Lasers (by decide),
    h.2.1 (List.replicate 14 (KDZ, trigger.Fire.Lasers)) KDZ trigger.Fire.Lasers
      (by decide) (by decide) (by decide)⟩

/-! ## C19: the transition timer -/

theorem bitClear_KDZ (a : Nat) :
    bitClear a KDZ &&& KDZ = 0 ∧ (bitClear a KDZ).testBit 4 = false ∧
    ∀ i : Nat, i ≠ 4 → (bitClear a KDZ).testBit i = a.testBit i := by
  have h4 : Nat.testBit 16 4 = true := by decide
  refine ⟨?_, ?_, ?_⟩
  · show (a ^^^ (a &&& 16)) &&& 16 = 0
    apply Nat.eq_of_testBit_eq
    intro i
    simp only [Nat.testBit_and, Nat.testBit_xor, Nat.zero_testBit]
    cases a.testBit i <;> cases Nat.testBit 16 i <;> rfl
  · show (a ^^^ (a &&& 16)).testBit 4 = false
    simp [Nat.testBit_xor, Nat.testBit_and, h4]
  · intro i hi
    have h16 : Nat.testBit 16 i = false := by
      have : (16 : Nat) = 2 ^ 4 := rfl
      rw [this, Nat.testBit_two_pow]
      simp; omega
    show (a ^^^ (a &&& 16)).testBit i = a.testBit i
    simp [Nat.testBit_xor, Nat.testBit_and, h16]

/-- One `evPlay` call that does not quit: the timer and the stored action. -/
theorem evPlay_no_quit (g : Game) (key action : Nat) (hq : key &&& KDQ = 0) :
    (evPlay g key action).transitionTimer =
      (if g.transitionTimer > 0 then g.transitionTimer - 1 else g.transitionTimer) ∧
    (evPlay g key action).player.Action =
      (if (if g.transitionTimer > 0 then g.transitionTimer - 1 else g.transitionTimer) > 0
        then bitClear action KDZ else action) := by
  constructor <;> simp [evPlay, hq]

theorem evPlayCalls_transitionTimer (ins : List (Nat × Nat)) :
    ∀ g : Game, (∀ c ∈ ins, c.1 &&& KDQ = 0) → 0 ≤ g.transitionTimer →
      (evPlayCalls g ins).transitionTimer =
        (if (ins.length : Int) ≤ g.transitionTimer then g.transitionTimer - ins.length else 0) := by
  induction ins with
  | nil => intro g _ h; simp [evPlayCalls, h]
  | cons c t ih =>
    intro g hq h0
    have h1 := (evPlay_no_quit g c.1 c.2 (hq c (List.mem_cons_self _ _))).1
    have h2 := ih (evPlay g c.1 c.2) (fun b hb => hq b (List.mem_cons_of_mem _ hb))
      (by rw [h1]; split_ifs <;> omega)
    simp only [evPlayCalls, List.length_cons, Nat.cast_add, Nat.cast_one]
    rw [h2, h1]
    split_ifs <;> omega

/-- C19 fails as stated: after `newGame` and nine `evPlay` calls (no key, the
fire action held) the tenth `evPlay` call stores the action with the fire bit
`KDZ` still set. -/
theorem evPlay_tenth_call_fires :
    fresh.transitionTimer = 10 ∧
    (evPlay (evPlayCalls fresh (List.replicate 8 (0, KDZ))) 0 KDZ).player.Action &&& KDZ = 0 ∧
    (evPlay (evPlayCalls fresh (List.replicate 9 (0, KDZ))) 0 KDZ).player.Action = KDZ ∧
    (evPlay (evPlayCalls fresh (List.replicate 9 (0, KDZ))) 0 KDZ).player.Action &&& KDZ ≠ 0 := by
  decide

/-- C19 as amended. After `newGame` sets the transition timer to 10, each of
the first 9 `evPlay` calls (none of them quitting) stores `player.Action` with
the fire bit `KDZ` cleared and every other bit as supplied, and from the 10th
call on the supplied action is stored unchanged: the timer is decremented
before it is tested. -/
theorem evPlay_suppresses_fire_for_9_calls (g0 : Game) (ins : List (Nat × Nat))
    (key action : Nat) (hq : ∀ c ∈ ins, c.1 &&& KDQ = 0) (hk : key &&& KDQ = 0) :
    (ins.length < 9 →
      (evPlay (evPlayCalls (newGame g0) ins) key action).player.Action = bitClear action KDZ) ∧
    (9 ≤ ins.length →
      (evPlay (evPlayCalls (newGame g0) ins) key action).player.Action = action) ∧
    (bitClear action KDZ &&& KDZ = 0 ∧
      ∀ i : Nat, i ≠ 4 → (bitClear action KDZ).testBit i = action.testBit i) := by
  have ht := evPlayCalls_transitionTimer ins (newGame g0) hq (show (0 : Int) ≤ 10 by decide)
  have ht10 : (newGame g0).transitionTimer = 10 := rfl
  rw [ht10] at ht
  have ha := (evPlay_no_quit (evPlayCalls (newGame g0) ins) key action hk).2
  rw [ht] at ha
  refine ⟨?_, ?_, (bitClear_KDZ action).1, (bitClear_KDZ action).2.2⟩
  · intro h
    rw [ha]
    split_ifs <;> first | rfl | (exfalso; omega)
  · intro h
    rw [ha]
    split_ifs <;> first | rfl | (exfalso; omega)

/-- C19 as amended, at a fresh session with the fire action held and no key
pressed: the 9th call clears the fire bit, the 10th stores it. -/
theorem evPlay_suppresses_fire_for_9_calls_witness :
    ((∀ c ∈ List.replicate 8 ((0 : Nat), KDZ), c.1 &&& KDQ = 0) ∧ 0 &&& KDQ = 0) ∧
    (evPlay (evPlayCalls (newGame blank) (List.replicate 8 (0, KDZ))) 0 KDZ).player.Action
      = bitClear KDZ KDZ ∧
    (evPlay (evPlayCalls (newGame blank) (List.replicate 9 (0, KDZ))) 0 KDZ).player.Action
      = KDZ :=
  ⟨⟨by decide, by decide⟩,
    (evPlay_suppresses_fire_for_9_calls blank (List.replicate 8 (0, KDZ)) 0 KDZ
      (by decide) (by decide)).1 (by decide),
    (evPlay_suppresses_fire_for_9_calls blank (List.replicate 9 (0, KDZ)) 0 KDZ
      (by decide) (by decide)).2.1 (by decide)⟩

/-! ## C20: GAMEOVER freezes the player -/

theorem Enemy.Move_GAMEOVER (e : Enemy) (g : Game) (rs : List Nat) (h : g.state = GAMEOVER) :
    (e.Move g rs).1 = false ∧ (e.Move g rs).2.2.1.player = g.player ∧
    (e.Move g rs).2.2.1.state = GAMEOVER := by
  have hf := Enemy.Move_frame e g rs
  by_cases hy : (e.advance rs).1.Y > i32 (BOTTOM + e.H)
  · obtain ⟨_, _, _, h4⟩ := (Enemy.Move_cases e g rs).1 hy
    exact ⟨(h4 h).1, (h4 h).2, by rw [hf]; exact h⟩
  · obtain ⟨h1, _, h3⟩ := (Enemy.Move_cases e g rs).2 hy
    exact ⟨h1, by rw [h3], by rw [h3]; exact h⟩

theorem moveEnemiesLoop_GAMEOVER (es : List Enemy) :
    ∀ (g : Game) (rs : List Nat), g.state = GAMEOVER →
      (moveEnemiesLoop es g rs).2.1.player = g.player ∧
      (moveEnemiesLoop es g rs).2.1.state = GAMEOVER := by
  induction es with
  | nil => intro g rs h; exact ⟨rfl, h⟩
  | cons e es ih =>
    intro g rs h
    obtain ⟨h1, h2, h3⟩ := Enemy.Move_GAMEOVER e g rs h
    have h4 := ih (e.Move g rs).2.2.1 (e.Move g rs).2.2.2 h3
    simp only [moveEnemiesLoop, h1, Bool.false_eq_true, if_false]
    exact ⟨h4.1.trans h2, h4.2⟩

/-- The state after `update` in a GAMEOVER scene that is not paused. -/
theorem update_GAMEOVER (g : Game) (rs : List Nat)
    (hp : g.paused = false) (hs : g.state = GAMEOVER) :
    (update g rs).1.player = { g.player with Lasers := g.player.Lasers.map movePlayerLaser } ∧
    (update g rs).1.state = GAMEOVER := by
  have h1 := spawnEnemies_player g rs
  have h2 := spawnEnemies_state g rs
  have h3 := moveEnemiesLoop_GAMEOVER (spawnEnemies g rs).1.enemies (spawnEnemies g rs).1
    (spawnEnemies g rs).2 (by rw [h2]; exact hs)
  have hne : ¬ (g.paused = true ∨ g.state = TITLE) := by
    rw [hp, hs]; decide
  have hgo : ¬ g.state ≠ GAMEOVER := by rw [hs]; decide
  have hpl : (enemiesFire (moveEnemies (spawnEnemies g rs).1 (spawnEnemies g rs).2).1
      (moveEnemies (spawnEnemies g rs).1 (spawnEnemies g rs).2).2).1.player = g.player :=
    h3.1.trans h1
  simp only [update, hne, hgo, if_false]
  constructor
  · show ({ (enemiesFire (moveEnemies (spawnEnemies g rs).1 (spawnEnemies g rs).2).1
        (moveEnemies (spawnEnemies g rs).1 (spawnEnemies g rs).2).2).1.player with
      Lasers := (enemiesFire (moveEnemies (spawnEnemies g rs).1 (spawnEnemies g rs).2).1
        (moveEnemies (spawnEnemies g rs).1 (spawnEnemies g rs).2).2).1.player.Lasers.map
          movePlayerLaser } : Player) = _
    rw [hpl]
  · exact h3.2

/-- C20. For every unpaused state whose scene is GAMEOVER, one `update` call
leaves the player's position and size, `Vx`, `Vy`, `Health`, `Score`, `Alive`,
`Invuln`, `InvulnTimer` and `LaserTimer` unchanged and the scene in GAMEOVER,
whatever the enemies do during the call; of the player only the laser slots
change, moved by `moveLasers`. -/
theorem update_GAMEOVER_freezes_player (g : Game) (rs : List Nat)
    (hp : g.paused = false) (hs : g.state = GAMEOVER) :
    (update g rs).1.player.toRect = g.player.toRect ∧
    (update g rs).1.player.Vx = g.player.Vx ∧
    (update g rs).1.player.Vy = g.player.Vy ∧
    (update g rs).1.player.Health = g.player.Health ∧
    (update g rs).1.player.Score = g.player.Score ∧
    (update g rs).1.player.Alive = g.player.Alive ∧
    (update g rs).1.player.Invuln = g.player.Invuln ∧
    (update g rs).1.player.InvulnTimer = g.player.InvulnTimer ∧
    (update g rs).1.player.LaserTimer = g.player.LaserTimer ∧
    (update g rs).1.state = GAMEOVER ∧
    (update g rs).1.player = { g.player with Lasers := g.player.Lasers.map movePlayerLaser } := by
  obtain ⟨h1, h2⟩ := update_GAMEOVER g rs hp hs
  rw [h1]
  exact ⟨rfl, rfl, rfl, rfl, rfl, rfl, rfl, rfl, rfl, h2, rfl⟩

/-- C20 at the session `gameOverScene`: during the call one enemy escapes
past the bottom (`totalEnemies` goes from 2 to 1) and another lies on the
player's rectangle; the score stays 150 and the scene GAMEOVER. -/
theorem update_GAMEOVER_freezes_player_witness :
    (gameOverScene.paused = false ∧ gameOverScene.state = GAMEOVER) ∧
    (update gameOverScene []).1.totalEnemies = 1 ∧
    (update gameOverScene []).1.player.Score = 150 ∧
    (update gameOverScene []).1.player.Health = 0 ∧
    (update gameOverScene []).1.state = GAMEOVER :=
  have h := update_GAMEOVER_freezes_player gameOverScene [] (by decide) (by decide)
  ⟨⟨by decide, by decide⟩, by decide, h.2.2.2.2.1.trans (by decide),
    h.2.2.2.1.trans (by decide), h.2.2.2.2.2.2.2.2.2.1⟩

/-! ## The spawn bursts of a run -/

theorem update_eq (g : Game) (rs : List Nat) (h : ¬ (g.paused = true ∨ g.state = TITLE)) :
    (update g rs).1 =
      frameEnd (moveLasers (enemiesFire (moveEnemies (spawnEnemies (playerBlock g) rs).1
        (spawnEnemies (playerBlock g) rs).2).1
        (moveEnemies (spawnEnemies (playerBlock g) rs).1
          (spawnEnemies (playerBlock g) rs).2).2).1) := by
  simp only [update, h, if_false, playerBlock]

theorem Damage_clock (g : Game) (d : Int) : clock (Player.Damage g d) = clock g := by
  simp only [Player.Damage]
  split_ifs <;> rfl

theorem Damage_state (g : Game) (d : Int) :
    (Player.Damage g d).state = g.state ∨ (Player.Damage g d).state = GAMEOVER := by
  simp only [Player.Damage]
  split_ifs
  · exact Or.inl rfl
  · exact Or.inr rfl
  · exact Or.inl rfl

theorem enemyLaserScan_clock (ls : List Laser) (g : Game) :
    clock (enemyLaserScan ls g).2 = clock g ∧
    ((enemyLaserScan ls g).2.state = g.state ∨ (enemyLaserScan ls g).2.state = GAMEOVER) := by
  induction ls with
  | nil => exact ⟨rfl, Or.inl rfl⟩
  | cons l ls ih =>
    simp only [enemyLaserScan]
    split_ifs
    · exact ih
    · exact ⟨Damage_clock g 1, Damage_state g 1⟩
    · exact ⟨rfl, Or.inl rfl⟩

theorem enemyLaserPass_clock (es : List Enemy) :
    ∀ g : Game, clock (enemyLaserPass es g).2 = clock g ∧
      ((enemyLaserPass es g).2.state = g.state ∨ (enemyLaserPass es g).2.state = GAMEOVER) := by
  induction es with
  | nil => intro g; exact ⟨rfl, Or.inl rfl⟩
  | cons e es ih =>
    intro g
    have h1 := enemyLaserScan_clock e.Lasers g
    have h2 := ih (enemyLaserScan e.Lasers g).2
    simp only [enemyLaserPass]
    refine ⟨h2.1.trans h1.1, ?_⟩
    rcases h2.2 with h | h
    · rw [h]; exact h1.2
    · exact Or.inr h

theorem bodyPass_clock (es : List Enemy) (g : Game) :
    clock (bodyPass es g).2 = clock g ∧
    ((bodyPass es g).2.state = g.state ∨ (bodyPass es g).2.state = GAMEOVER) := by
  induction es with
  | nil => exact ⟨rfl, Or.inl rfl⟩
  | cons e es ih =>
    simp only [bodyPass]
    split_ifs
    · exact ih
    · exact ⟨Damage_clock _ 2, Damage_state _ 2⟩
    · exact ⟨rfl, Or.inl rfl⟩

theorem testCollisions_clock (g : Game) :
    clock (testCollisions g) = clock g ∧
    ((testCollisions g).state = g.state ∨ (testCollisions g).state = GAMEOVER) := by
  have h1 : clock (testCollisions1 g) = clock g ∧ (testCollisions1 g).state = g.state := by
    obtain ⟨t, s, ex, h⟩ := laserPass_frame g.player.Lasers g.enemies g
    have hc : clock (laserPass g.player.Lasers g.enemies g).2.2 = clock g := by rw [h]; rfl
    have hs : (laserPass g.player.Lasers g.enemies g).2.2.state = g.state := by rw [h]
    exact ⟨hc, hs⟩
  have h2 := enemyLaserPass_clock (testCollisions1 g).enemies (testCollisions1 g)
  have h3 := bodyPass_clock (testCollisions2 (testCollisions1 g)).enemies
    (testCollisions2 (testCollisions1 g))
  have e2 : clock (testCollisions2 (testCollisions1 g)) = clock (testCollisions1 g) := h2.1
  have s2 : (testCollisions2 (testCollisions1 g)).state = (testCollisions1 g).state ∨
      (testCollisions2 (testCollisions1 g)).state = GAMEOVER := h2.2
  have e3 : clock (testCollisions g) = clock (testCollisions2 (testCollisions1 g)) := h3.1
  have s3 : (testCollisions g).state = (testCollisions2 (testCollisions1 g)).state ∨
      (testCollisions g).state = GAMEOVER := h3.2
  refine ⟨e3.trans (e2.trans h1.1), ?_⟩
  rcases s3 with h | h
  · rw [h]
    rcases s2 with h' | h'
    · rw [h', h1.2]; exact Or.inl rfl
    · exact Or.inr h'
  · exact Or.inr h

theorem fades_slot_refl (a : Enemy) : Fades a a := ⟨rfl, rfl, fun h => h⟩

theorem fades_slot_trans {a b c : Enemy} (h1 : Fades a b) (h2 : Fades b c) : Fades a c :=
  ⟨h2.1.trans h1.1, h2.2.1.trans h1.2.1, fun h => h1.2.2 (h2.2.2 h)⟩

theorem fades_refl (es : List Enemy) : List.Forall₂ Fades es es := by
  induction es with
  | nil => exact List.Forall₂.nil
  | cons a es ih => exact List.Forall₂.cons (fades_slot_refl a) ih

theorem fades_trans {as bs cs : List Enemy} (h1 : List.Forall₂ Fades as bs)
    (h2 : List.Forall₂ Fades bs cs) : List.Forall₂ Fades as cs := by
  induction h1 generalizing cs with
  | nil => cases h2; exact List.Forall₂.nil
  | cons hab _ ih =>
    cases h2 with
    | cons hbc h2 => exact List.Forall₂.cons (fades_slot_trans hab hbc) (ih h2)

theorem laserScan_fades (l : Laser) (es : List Enemy) (g : Game) :
    List.Forall₂ Fades es (laserScan l es g).2.1 := by
  induction es with
  | nil => exact List.Forall₂.nil
  | cons a es ih =>
    simp only [laserScan]
    split_ifs
    · exact List.Forall₂.cons (fades_slot_refl a) ih
    all_goals exact List.Forall₂.cons ⟨rfl, rfl, fun h => by simp at h⟩ (fades_refl es)

theorem laserPass_fades (ls : List Laser) :
    ∀ (es : List Enemy) (g : Game), List.Forall₂ Fades es (laserPass ls es g).2.1 := by
  induction ls with
  | nil => intro es g; exact fades_refl es
  | cons l ls ih =>
    intro es g
    simp only [laserPass]
    exact fades_trans (laserScan_fades l es g) (ih _ _)

theorem enemyLaserPass_fades (es : List Enemy) :
    ∀ g : Game, List.Forall₂ Fades es (enemyLaserPass es g).1 := by
  induction es with
  | nil => intro g; exact List.Forall₂.nil
  | cons a es ih =>
    intro g
    simp only [enemyLaserPass]
    exact List.Forall₂.cons ⟨rfl, rfl, fun h => h⟩ (ih _)

theorem bodyPass_fades (es : List Enemy) (g : Game) :
    List.Forall₂ Fades es (bodyPass es g).1 := by
  induction es with
  | nil => exact List.Forall₂.nil
  | cons a es ih =>
    simp only [bodyPass]
    split_ifs
    · exact List.Forall₂.cons (fades_slot_refl a) ih
    · exact List.Forall₂.cons ⟨rfl, rfl, fun h => by simp at h⟩ (fades_refl es)
    · exact fades_refl _

theorem testCollisions_fades (g : Game) :
    List.Forall₂ Fades g.enemies (testCollisions g).enemies :=
  fades_trans (fades_trans (laserPass_fades g.player.Lasers g.enemies g)
    (enemyLaserPass_fades (testCollisions1 g).enemies (testCollisions1 g)))
    (bodyPass_fades (testCollisions2 (testCollisions1 g)).enemies
      (testCollisions2 (testCollisions1 g)))

theorem fades_descent {es es1 : List Enemy} (h : List.Forall₂ Fades es es1)
    (hs : ∀ e ∈ es, SlotOk e) : descent es1 ≤ descent es ∧ es1.length = es.length := by
  induction h with
  | nil => exact ⟨le_refl _, rfl⟩
  | @cons a b as bs hab _ ih =>
    have ha := hs a (List.mem_cons_self _ _)
    have ih1 := ih (fun e he => hs e (List.mem_cons_of_mem _ he))
    obtain ⟨h1, h2, h3, h4⟩ := ha
    obtain ⟨r1, _, r3⟩ := hab
    have hH : b.H = a.H := congrArg Rect.H r1
    have hY : b.Y = a.Y := congrArg Rect.Y r1
    simp only [descent, List.map_cons, List.sum_cons, List.length_cons] at ih1 ⊢
    refine ⟨?_, by omega⟩
    cases hb : b.Alive with
    | false =>
      cases haa : a.Alive <;> simp <;> omega
    | true =>
      have := r3 hb
      simp [this, hH, hY]
      omega

theorem fades_above {es es1 : List Enemy} (h : List.Forall₂ Fades es es1) (ha : Above es) :
    Above es1 := by
  induction h with
  | nil => intro e he; simp at he
  | @cons a b as bs hab _ ih =>
    intro e he hal
    rcases List.mem_cons.1 he with rfl | he
    · have := ha a (List.mem_cons_self _ _) (hab.2.2 hal)
      have hH : e.H = a.H := congrArg Rect.H hab.1
      have hY : e.Y = a.Y := congrArg Rect.Y hab.1
      rw [hH, hY]; exact this
    · exact ih (fun x hx => ha x (List.mem_cons_of_mem _ hx)) e he hal

theorem laserScan_above (l : Laser) (es : List Enemy) (g : Game) (h : Above es) :
    laserScan l es g = (l, es, g) := by
  induction es with
  | nil => rfl
  | cons a es ih =>
    have ih1 := ih (fun x hx => h x (List.mem_cons_of_mem _ hx))
    have ha := h a (List.mem_cons_self _ _)
    cases hal : a.Alive with
    | false => simp [laserScan, hal, ih1]
    | true =>
      have hlt : ¬ (i32 (a.Y + a.H) ≥ 0) := by have := ha hal; omega
      simp [laserScan, hal, hlt, ih1]

theorem laserPass_above (ls : List Laser) (es : List Enemy) (g : Game) (h : Above es) :
    laserPass ls es g = (ls, es, g) := by
  induction ls with
  | nil => rfl
  | cons l ls ih => simp [laserPass, laserScan_above l es g h, ih]

theorem bodyPass_above (es : List Enemy) (g : Game) (h : Above es) (hy : 0 ≤ g.player.Y) :
    bodyPass es g = (es, g) := by
  induction es with
  | nil => rfl
  | cons a es ih =>
    have ih1 := ih (fun x hx => h x (List.mem_cons_of_mem _ hx))
    have ha := h a (List.mem_cons_self _ _)
    cases hal : a.Alive with
    | false => simp [bodyPass, hal, ih1]
    | true =>
      have hc : collide a.toRect g.player.toRect = false := by
        have := ha hal
        unfold collide
        rw [if_pos (by omega)]
      simp [bodyPass, hal, hc, ih1]

theorem testCollisions_above (g : Game) (h : Above g.enemies) (hy : 0 ≤ g.player.Y) :
    (testCollisions g).totalEnemies = g.totalEnemies := by
  have h1 : testCollisions1 g = g := by
    simp only [testCollisions1, laserPass_above _ _ g h]
  have h2 := enemyLaserPass_pool g.enemies g
  have hc := (enemyLaserPass_clock g.enemies g).1
  have hab : Above (testCollisions2 g).enemies :=
    fades_above (enemyLaserPass_fades g.enemies g) h
  have hy2 : 0 ≤ (testCollisions2 g).player.Y := by
    have : (testCollisions2 g).player.toRect = g.player.toRect := congrArg (fun c => c.2.2.2) hc
    show 0 ≤ (testCollisions2 g).player.toRect.Y
    rw [this]; exact hy
  have h3 : testCollisions3 (testCollisions2 g) = testCollisions2 g := by
    simp only [testCollisions3, bodyPass_above _ _ hab hy2]
  rw [testCollisions, h1, h3]
  exact h2.1

theorem spawnEnemies_alive (g : Game) (rs : List Nat) (h : g.totalEnemies ≠ 0) :
    (spawnEnemies g rs).1 = { g with enemySpawnTimer := 180 } := by
  simp [spawnEnemies, h]

theorem spawnEnemies_countdown (g : Game) (rs : List Nat)
    (h0 : g.totalEnemies = 0) (ht : 0 < g.enemySpawnTimer) :
    (spawnEnemies g rs).1.enemies = g.enemies ∧
    (spawnEnemies g rs).1.totalEnemies = 0 ∧
    (spawnEnemies g rs).1.enemySpawnTimer = g.enemySpawnTimer - 1 ∧
    (spawnEnemies g rs).1.enemyWaves =
      (if g.enemySpawnTimer - 1 = 179 then
        (if g.enemyWaves < 1000000000 then g.enemyWaves + 1 else g.enemyWaves)
       else g.enemyWaves) := by
  have hne : g.enemySpawnTimer ≠ 0 := by omega
  simp only [spawnEnemies, h0, hne, ht, if_true, if_false, true_and, and_true]
  split_ifs <;> simp [h0]

theorem spawnEnemies_bursting (g : Game) (rs : List Nat)
    (h0 : g.totalEnemies = 0) (ht : g.enemySpawnTimer = 0) :
    (spawnEnemies g rs).1.enemies = (spawnLoop g.enemies g rs).1 ∧
    (spawnEnemies g rs).1.totalEnemies = (spawnLoop g.enemies g rs).2.1.totalEnemies ∧
    (spawnEnemies g rs).1.enemySpawnTimer = 0 ∧
    (spawnEnemies g rs).1.enemyWaves = g.enemyWaves := by
  obtain ⟨t, hl⟩ := spawnLoop_frame g.enemies g rs
  simp [spawnEnemies, h0, ht, hl]

theorem spawnLoop_fresh (es : List Enemy) :
    ∀ (g : Game) (rs : List Nat), (∀ e ∈ es, e.Alive = false) →
      Fresh (if g.enemyWaves < 5 then 32 else 64) 0 (spawnLoop es g rs).1 := by
  induction es with
  | nil => intro g rs _ e he; simp [spawnLoop] at he
  | cons a es ih =>
    intro g rs h
    have ha : a.Alive = false := h a (List.mem_cons_self _ _)
    have h1 := ih { g with totalEnemies := g.totalEnemies + 1 }
      (draw (draw (draw rs).2).2).2 (fun b hb => h b (List.mem_cons_of_mem _ hb))
    intro e he
    simp only [spawnLoop, ha, Bool.not_false, if_true, List.mem_cons] at he
    rcases he with rfl | he
    · have hy := randn_bounds (-192) (-64) (draw (draw (draw rs).2).2).1 (by decide)
      have hi := i32_of_isI32 (x := randn (-192) (-64) (draw (draw (draw rs).2).2).1)
        (by unfold isI32; omega)
      refine ⟨rfl, rfl, ?_, ?_⟩
      · show -192 ≤ i32 (randn (-192) (-64) (draw (draw (draw rs).2).2).1)
        rw [hi]; exact hy.1
      · show i32 (randn (-192) (-64) (draw (draw (draw rs).2).2).1) ≤ -64 + 0
        rw [hi]; have := hy.2; omega
    · exact h1 e he

theorem spawned_self (es : List Enemy) : spawned es es = [] := by
  induction es with
  | nil => rfl
  | cons a es ih =>
    simp only [spawned, List.zip_cons_cons, List.filter_cons] at ih ⊢
    cases ha : a.Alive <;> simp [ih]

theorem spawned_mem {a b : List Enemy} {e : Enemy} (h : e ∈ spawned a b) : e ∈ b := by
  simp only [spawned, List.mem_map, List.mem_filter] at h
  obtain ⟨p, ⟨hp, _⟩, rfl⟩ := h
  exact (List.of_mem_zip hp).2

theorem spawned_all (a b : List Enemy) (hlen : a.length = b.length)
    (ha : ∀ e ∈ a, e.Alive = false) (hb : ∀ e ∈ b, e.Alive = true) : spawned a b = b := by
  induction a generalizing b with
  | nil =>
    cases b with
    | nil => rfl
    | cons x t => simp at hlen
  | cons x a ih =>
    cases b with
    | nil => simp at hlen
    | cons y b =>
      have hx := ha x (List.mem_cons_self _ _)
      have hy := hb y (List.mem_cons_self _ _)
      have := ih b (by simpa using hlen) (fun e he => ha e (List.mem_cons_of_mem _ he))
        (fun e he => hb e (List.mem_cons_of_mem _ he))
      simp only [spawned, List.zip_cons_cons, List.filter_cons] at this ⊢
      simp [hx, hy, this]

theorem handleEvent_pace (g : Game) (ev : Nat × Nat) : pace (handleEvent g ev) = pace g := by
  unfold handleEvent
  split_ifs
  · simp only [evPlay]
    split_ifs <;> rfl
  · simp only [evGameOver]
    split_ifs <;> rfl
  · rfl

theorem handleEvents_pace (evs : List (Nat × Nat)) :
    ∀ g : Game, pace (handleEvents g evs) = pace g := by
  induction evs with
  | nil => intro g; rfl
  | cons ev t ih => intro g; exact (ih _).trans (handleEvent_pace g ev)

theorem pace_fields {g g1 : Game} (h : pace g1 = pace g) :
    g1.enemies = g.enemies ∧ g1.totalEnemies = g.totalEnemies ∧
    g1.enemySpawnTimer = g.enemySpawnTimer ∧ g1.enemyWaves = g.enemyWaves ∧
    g1.player.H = g.player.H := by
  simp only [pace, Prod.mk.injEq] at h
  exact h

theorem clock_fields {g g1 : Game} (h : clock g1 = clock g) :
    g1.enemySpawnTimer = g.enemySpawnTimer ∧ g1.enemyWaves = g.enemyWaves ∧
    g1.paused = g.paused ∧ g1.player.toRect = g.player.toRect := by
  simp only [clock, Prod.mk.injEq] at h
  exact h

theorem armed_rect (p : Player) :
    p.InvulnTick.Move.Fire.H = p.H ∧
    (p.H = 64 → 0 ≤ p.InvulnTick.Move.Fire.Y) := by
  have h1 : p.InvulnTick.H = p.H := by
    unfold Player.InvulnTick; split_ifs <;> rfl
  have h2 : p.InvulnTick.Move.Fire.H = p.InvulnTick.H := rfl
  have h3 : p.InvulnTick.Move.Fire.Y = p.InvulnTick.Move.Y := rfl
  refine ⟨h2.trans h1, fun h64 => ?_⟩
  rw [h3, Player.Move_Y, h1, h64]
  simp only [BOTTOM, HEIGHT]
  have hc : i32 (480 - 32 - 64) = 384 := by decide
  split_ifs with ha hb hb
  all_goals omega

theorem playerBlock_clock (g : Game) :
    (playerBlock g).enemySpawnTimer = g.enemySpawnTimer ∧
    (playerBlock g).enemyWaves = g.enemyWaves ∧
    (playerBlock g).paused = g.paused ∧
    (playerBlock g).player.H = g.player.H ∧
    ((playerBlock g).state = g.state ∨ (playerBlock g).state = GAMEOVER) := by
  unfold playerBlock
  split_ifs with h
  · obtain ⟨hc, hs⟩ := testCollisions_clock { g with player := g.player.InvulnTick.Move.Fire }
    obtain ⟨c1, c2, c3, c4⟩ := clock_fields hc
    refine ⟨c1, c2, c3, ?_, hs⟩
    have : (testCollisions { g with player := g.player.InvulnTick.Move.Fire }).player.toRect.H
        = g.player.InvulnTick.Move.Fire.toRect.H := by rw [c4]
    exact this.trans (armed_rect g.player).1
  · exact ⟨rfl, rfl, rfl, rfl, Or.inl rfl⟩

theorem playerBlock_EnemyInv (g : Game) (h : EnemyInv g) : EnemyInv (playerBlock g) := by
  unfold playerBlock
  split_ifs
  · exact testCollisions_EnemyInv _ h
  · exact h

theorem playerBlock_fades (g : Game) : List.Forall₂ Fades g.enemies (playerBlock g).enemies := by
  unfold playerBlock
  split_ifs
  · exact testCollisions_fades { g with player := g.player.InvulnTick.Move.Fire }
  · exact fades_refl _

theorem fades_aliveCount {es es1 : List Enemy} (h : List.Forall₂ Fades es es1) :
    aliveCount es1 ≤ aliveCount es := by
  induction h with
  | nil => exact le_refl _
  | @cons a b as bs hab _ ih =>
    rw [aliveCount_cons, aliveCount_cons]
    have := hab.2.2
    by_cases hb : b.Alive = true
    · rw [if_pos hb, if_pos (this hb)]; omega
    · rw [if_neg hb]; split_ifs <;> omega

theorem playerBlock_total_le (g : Game) (h : EnemyInv g) :
    (playerBlock g).totalEnemies ≤ g.totalEnemies := by
  have h1 := (playerBlock_EnemyInv g h).1
  have h2 := fades_aliveCount (playerBlock_fades g)
  have h3 := h.1
  omega

theorem playerBlock_above (g : Game) (h : Above g.enemies) (hp : g.player.H = 64) :
    (playerBlock g).totalEnemies = g.totalEnemies := by
  unfold playerBlock
  split_ifs
  · exact testCollisions_above { g with player := g.player.InvulnTick.Move.Fire } h
      ((armed_rect g.player).2 hp)
  · rfl

theorem aliveCount_zero {es : List Enemy} (h : aliveCount es = 0) :
    ∀ e ∈ es, e.Alive = false := by
  induction es with
  | nil => intro e he; simp at he
  | cons a es ih =>
    rw [aliveCount_cons] at h
    have := aliveCount_nonneg es
    intro e he
    rcases List.mem_cons.1 he with rfl | he
    · by_cases ha : e.Alive = true
      · rw [if_pos ha] at h; omega
      · simpa using ha
    · apply ih _ e he
      split_ifs at h <;> omega

theorem Enemy.Move_fields (e : Enemy) (g : Game) (rs : List Nat) :
    (e.Move g rs).2.2.1.enemySpawnTimer = g.enemySpawnTimer ∧
    (e.Move g rs).2.2.1.enemyWaves = g.enemyWaves ∧
    (e.Move g rs).2.2.1.state = g.state ∧
    (e.Move g rs).2.2.1.paused = g.paused ∧
    (e.Move g rs).2.2.1.player.H = g.player.H := by
  have hf := Enemy.Move_frame e g rs
  exact ⟨by rw [hf], by rw [hf], by rw [hf], by rw [hf], by rw [hf]⟩

theorem moveEnemiesLoop_fields (es : List Enemy) :
    ∀ (g : Game) (rs : List Nat),
      (moveEnemiesLoop es g rs).1.length = es.length ∧
      (moveEnemiesLoop es g rs).2.1.enemySpawnTimer = g.enemySpawnTimer ∧
      (moveEnemiesLoop es g rs).2.1.enemyWaves = g.enemyWaves ∧
      (moveEnemiesLoop es g rs).2.1.state = g.state ∧
      (moveEnemiesLoop es g rs).2.1.paused = g.paused ∧
      (moveEnemiesLoop es g rs).2.1.player.H = g.player.H := by
  induction es with
  | nil => intro g rs; exact ⟨rfl, rfl, rfl, rfl, rfl, rfl⟩
  | cons a es ih =>
    intro g rs
    obtain ⟨m2, m3, m4, m5, m6⟩ := Enemy.Move_fields a g rs
    obtain ⟨i0, i2, i3, i4, i5, i6⟩ := ih (a.Move g rs).2.2.1 (a.Move g rs).2.2.2
    simp only [moveEnemiesLoop]
    split_ifs
    · exact ⟨rfl, m2, m3, m4, m5, m6⟩
    · exact ⟨by simp [i0], i2.trans m2, i3.trans m3, i4.trans m4, i5.trans m5, i6.trans m6⟩

/-- What `moveEnemies` leaves alone, and the counter, which does not grow
(for a state satisfying the pool invariant). -/
theorem moveEnemies_total_le (g : Game) (rs : List Nat) (h : EnemyInv g) :
    (moveEnemies g rs).1.enemies.length = g.enemies.length ∧
    (moveEnemies g rs).1.totalEnemies ≤ g.totalEnemies ∧
    (moveEnemies g rs).1.enemySpawnTimer = g.enemySpawnTimer ∧
    (moveEnemies g rs).1.enemyWaves = g.enemyWaves ∧
    (moveEnemies g rs).1.state = g.state ∧
    (moveEnemies g rs).1.paused = g.paused ∧
    (moveEnemies g rs).1.player.H = g.player.H := by
  obtain ⟨hb, hM⟩ := pool_counter_small h.1 h.2.2
  obtain ⟨f0, f2, f3, f4, f5, f6⟩ := moveEnemiesLoop_fields g.enemies g rs
  exact ⟨f0, (moveEnemiesLoop_pool g.enemies g rs h.2.1 hb hM).2.2.2, f2, f3, f4, f5, f6⟩

theorem Enemy.Move_fresh (e : Enemy) (g : Game) (rs : List Nat) (h : Int)
    (hh : 0 ≤ h ∧ h ≤ 64) (he : e.Alive = true ∧ e.H = h ∧ -192 ≤ e.Y ∧ e.Y ≤ -64 + 0) :
    (e.Move g rs).1 = false ∧ (e.Move g rs).2.2.1 = g ∧
    ((e.Move g rs).2.1.Alive = true ∧ (e.Move g rs).2.1.H = h ∧
      -192 ≤ (e.Move g rs).2.1.Y ∧ (e.Move g rs).2.1.Y ≤ -64 + 1) ∧
    (e.Move g rs).2.1.Kind = e.Kind := by
  obtain ⟨a1, a2, a3, a4⟩ := Enemy.advance_fields e rs
  obtain ⟨e1, e2, e3, e4⟩ := he
  have hy : (e.advance rs).1.Y = e.Y + 1 := by
    rw [a1, if_pos e1]
    exact i32_of_isI32 (by unfold isI32; omega)
  have hb : i32 (BOTTOM + e.H) = 448 + e.H :=
    i32_of_isI32 (by simp only [BOTTOM, HEIGHT]; unfold isI32; omega)
  have hc : ¬ (e.advance rs).1.Y > i32 (BOTTOM + e.H) := by rw [hy, hb]; omega
  obtain ⟨c1, c2, c3⟩ := (Enemy.Move_cases e g rs).2 hc
  refine ⟨c1, c3, ⟨?_, ?_, ?_, ?_⟩, ?_⟩
  · rw [c2, a4]; exact e1
  · rw [c2, a2]; exact e2
  · rw [c2, hy]; omega
  · rw [c2, hy]; omega
  · rw [c2, a3]

theorem moveEnemiesLoop_fresh (es : List Enemy) (h : Int) (hh : 0 ≤ h ∧ h ≤ 64) :
    ∀ (g : Game) (rs : List Nat), Fresh h 0 es →
      Fresh h 1 (moveEnemiesLoop es g rs).1 ∧ (moveEnemiesLoop es g rs).2.1 = g := by
  induction es with
  | nil => intro g rs _; exact ⟨fun e he => by simp [moveEnemiesLoop] at he, rfl⟩
  | cons a es ih =>
    intro g rs hf
    obtain ⟨m1, m2, m3, _⟩ := Enemy.Move_fresh a g rs h hh (hf a (List.mem_cons_self _ _))
    obtain ⟨i1, i2⟩ := ih (a.Move g rs).2.2.1 (a.Move g rs).2.2.2
      (fun b hb => hf b (List.mem_cons_of_mem _ hb))
    simp only [moveEnemiesLoop, m1, Bool.false_eq_true, if_false]
    refine ⟨?_, i2.trans m2⟩
    intro e he
    rcases List.mem_cons.1 he with rfl | he
    · exact m3
    · exact i1 e he

theorem fresh_above {es : List Enemy} (h : Fresh 32 1 es) : Above es := by
  intro e he _
  obtain ⟨_, h2, h3, h4⟩ := h e he
  rw [h2, i32_of_isI32 (by unfold isI32; omega)]
  omega

theorem Enemy.Fire_fades (e : Enemy) (rs : List Nat) : Fades e (e.Fire rs).1 :=
  ⟨rfl, rfl, fun h => h⟩

theorem enemiesFireLoop_fades (es : List Enemy) :
    ∀ rs : List Nat, List.Forall₂ Fades es (enemiesFireLoop es rs).1 := by
  induction es with
  | nil => intro rs; exact List.Forall₂.nil
  | cons a es ih =>
    intro rs
    simp only [enemiesFireLoop]
    exact List.Forall₂.cons (Enemy.Fire_fades a rs) (ih _)

theorem moveLasers_fades (es : List Enemy) :
    List.Forall₂ Fades es (es.map fun e => { e with Lasers := e.Lasers.map moveEnemyLaser }) := by
  induction es with
  | nil => exact List.Forall₂.nil
  | cons a es ih => exact List.Forall₂.cons ⟨rfl, rfl, fun h => h⟩ ih

/-- The last three stages of `update` (enemy fire, laser movement, end of
frame) leave the spawner's counters, the scene and the enemy bodies alone. -/
theorem closing_stages (g : Game) (rs : List Nat) :
    List.Forall₂ Fades g.enemies (frameEnd (moveLasers (enemiesFire g rs).1)).enemies ∧
    (frameEnd (moveLasers (enemiesFire g rs).1)).totalEnemies = g.totalEnemies ∧
    (frameEnd (moveLasers (enemiesFire g rs).1)).enemySpawnTimer = g.enemySpawnTimer ∧
    (frameEnd (moveLasers (enemiesFire g rs).1)).enemyWaves = g.enemyWaves ∧
    (frameEnd (moveLasers (enemiesFire g rs).1)).state = g.state ∧
    (frameEnd (moveLasers (enemiesFire g rs).1)).paused = g.paused ∧
    (frameEnd (moveLasers (enemiesFire g rs).1)).player.H = g.player.H ∧
    (EnemyInv g → EnemyInv (frameEnd (moveLasers (enemiesFire g rs).1))) := by
  refine ⟨?_, rfl, rfl, rfl, rfl, rfl, rfl, ?_⟩
  · exact fades_trans (enemiesFireLoop_fades g.enemies rs) (moveLasers_fades _)
  · intro h
    exact moveLasers_EnemyInv _ (enemiesFire_EnemyInv g rs h)

theorem spawn_move_alive (g : Game) (rs : List Nat) (hinv : EnemyInv g)
    (h : g.totalEnemies ≠ 0) :
    spawned g.enemies (spawnEnemies g rs).1.enemies = [] ∧
    (moveEnemies (spawnEnemies g rs).1 (spawnEnemies g rs).2).1.enemySpawnTimer = 180 ∧
    (moveEnemies (spawnEnemies g rs).1 (spawnEnemies g rs).2).1.enemyWaves = g.enemyWaves ∧
    (moveEnemies (spawnEnemies g rs).1 (spawnEnemies g rs).2).1.totalEnemies
      ≤ g.totalEnemies := by
  obtain ⟨_, m1, m2, m3, _⟩ := moveEnemies_total_le (spawnEnemies g rs).1 (spawnEnemies g rs).2
    (spawnEnemies_EnemyInv g rs hinv)
  have hs := spawnEnemies_alive g rs h
  refine ⟨?_, ?_, ?_, ?_⟩
  · rw [hs]; exact spawned_self _
  · rw [m2, hs]
  · rw [m3, hs]
  · refine le_trans m1 ?_
    rw [hs]

theorem spawn_move_countdown (g : Game) (rs : List Nat) (hinv : EnemyInv g)
    (h0 : g.totalEnemies = 0) (ht : 0 < g.enemySpawnTimer) :
    spawned g.enemies (spawnEnemies g rs).1.enemies = [] ∧
    (moveEnemies (spawnEnemies g rs).1 (spawnEnemies g rs).2).1.enemySpawnTimer
      = g.enemySpawnTimer - 1 ∧
    (moveEnemies (spawnEnemies g rs).1 (spawnEnemies g rs).2).1.enemyWaves =
      (if g.enemySpawnTimer - 1 = 179 then
        (if g.enemyWaves < 1000000000 then g.enemyWaves + 1 else g.enemyWaves)
       else g.enemyWaves) ∧
    (moveEnemies (spawnEnemies g rs).1 (spawnEnemies g rs).2).1.totalEnemies ≤ 0 := by
  obtain ⟨_, m1, m2, m3, _⟩ := moveEnemies_total_le (spawnEnemies g rs).1 (spawnEnemies g rs).2
    (spawnEnemies_EnemyInv g rs hinv)
  obtain ⟨s1, s2, s3, s4⟩ := spawnEnemies_countdown g rs h0 ht
  refine ⟨?_, ?_, ?_, ?_⟩
  · rw [s1]; exact spawned_self _
  · rw [m2, s3]
  · rw [m3, s4]
  · rw [s2] at m1; exact m1

theorem spawn_move_burst (g : Game) (rs : List Nat) (hinv : EnemyInv g)
    (h0 : g.totalEnemies = 0) (ht : g.enemySpawnTimer = 0) :
    spawned g.enemies (spawnEnemies g rs).1.enemies = (spawnEnemies g rs).1.enemies ∧
    (spawnEnemies g rs).1.enemies.length = g.enemies.length ∧
    (∀ e ∈ (spawnEnemies g rs).1.enemies,
      e.W = 64 ∧ e.H = (if g.enemyWaves < 5 then 32 else 64) ∧
      e.Kind = (if g.enemyWaves < 5 then 0 else 1)) ∧
    (moveEnemies (spawnEnemies g rs).1 (spawnEnemies g rs).2).1.enemySpawnTimer = 0 ∧
    (moveEnemies (spawnEnemies g rs).1 (spawnEnemies g rs).2).1.enemyWaves = g.enemyWaves ∧
    (moveEnemies (spawnEnemies g rs).1 (spawnEnemies g rs).2).1.totalEnemies
      = g.enemies.length ∧
    (moveEnemies (spawnEnemies g rs).1 (spawnEnemies g rs).2).1.enemies.length
      = g.enemies.length ∧
    Fresh (if g.enemyWaves < 5 then 32 else 64) 1
      (moveEnemies (spawnEnemies g rs).1 (spawnEnemies g rs).2).1.enemies := by
  have hdead : ∀ e ∈ g.enemies, e.Alive = false :=
    aliveCount_zero (by rw [← hinv.1]; exact h0)
  obtain ⟨s1, s2, s3, s4⟩ := spawnEnemies_bursting g rs h0 ht
  obtain ⟨d1, d2, d3⟩ := spawnLoop_all_dead g.enemies g rs hdead
  have hfr := spawnLoop_fresh g.enemies g rs hdead
  have hh : (0 : Int) ≤ (if g.enemyWaves < 5 then 32 else 64) ∧
      (if g.enemyWaves < 5 then 32 else 64) ≤ (64 : Int) := by
    split_ifs <;> constructor <;> decide
  rw [← s1] at d1 d2 hfr
  obtain ⟨f1, f2⟩ := moveEnemiesLoop_fresh (spawnEnemies g rs).1.enemies _ hh
    (spawnEnemies g rs).1 (spawnEnemies g rs).2 hfr
  obtain ⟨l0, _, _, _⟩ := moveEnemies_total_le (spawnEnemies g rs).1 (spawnEnemies g rs).2
    (spawnEnemies_EnemyInv g rs hinv)
  have e3 : (moveEnemies (spawnEnemies g rs).1 (spawnEnemies g rs).2).1.enemySpawnTimer
      = (spawnEnemies g rs).1.enemySpawnTimer := by
    show (moveEnemiesLoop _ _ _).2.1.enemySpawnTimer = _
    rw [f2]
  have e4 : (moveEnemies (spawnEnemies g rs).1 (spawnEnemies g rs).2).1.enemyWaves
      = (spawnEnemies g rs).1.enemyWaves := by
    show (moveEnemiesLoop _ _ _).2.1.enemyWaves = _
    rw [f2]
  have e5 : (moveEnemies (spawnEnemies g rs).1 (spawnEnemies g rs).2).1.totalEnemies
      = (spawnEnemies g rs).1.totalEnemies := by
    show (moveEnemiesLoop _ _ _).2.1.totalEnemies = _
    rw [f2]
  refine ⟨?_, d2, ?_, ?_, ?_, ?_, ?_, f1⟩
  · exact spawned_all _ _ d2.symm hdead (fun e he => (d1 e he).1)
  · intro e he
    exact ⟨(d1 e he).2.1, (d1 e he).2.2.1, (d1 e he).2.2.2⟩
  · rw [e3, s3]
  · rw [e4, s4]
  · rw [e5, s2, d3, h0]; simp
  · rw [l0, d2]

theorem EnemyInv.total_nonneg {g : Game} (h : EnemyInv g) : 0 ≤ g.totalEnemies := by
  rw [h.1]; exact aliveCount_nonneg _

theorem newGame_Phase (g0 : Game) : Phase 0 (newGame g0) :=
  ⟨newGame_EnemyInv g0, rfl, Or.inl ⟨rfl, fun _ => rfl, fun h => absurd h (by decide)⟩⟩

theorem handleEvents_Phase {b : Nat} {g : Game} (evs : List (Nat × Nat)) (h : Phase b g) :
    Phase b (handleEvents g evs) := by
  obtain ⟨p1, p2, p3, p4, p5⟩ := pace_fields (handleEvents_pace evs g)
  unfold Phase EnemyInv at *
  rw [p1, p2, p3, p4, p5]
  exact h

theorem playerBlock_Mid {b : Nat} {g : Game} (h : Phase b g) : Mid b (playerBlock g) := by
  obtain ⟨hinv, hH, hph⟩ := h
  obtain ⟨c1, c2, _, c4, _⟩ := playerBlock_clock g
  have hle := playerBlock_total_le g hinv
  have hinv1 := playerBlock_EnemyInv g hinv
  have hnn := hinv1.total_nonneg
  refine ⟨hinv1, c4.trans hH, ?_⟩
  rw [c1, c2]
  rcases hph with ⟨ht, hw⟩ | ⟨h0, ht1, ht2, hw⟩ | ⟨hpos, ht, hw, hab⟩
  · exact Or.inl ⟨ht, hw⟩
  · exact Or.inr (Or.inl ⟨by omega, ht1, ht2, hw⟩)
  · refine Or.inr (Or.inr ⟨ht, hw, fun h5 => ?_⟩)
    rw [playerBlock_above g (hab h5) hH]
    exact hpos

theorem closing_Phase {b : Nat} {g : Game} (rs : List Nat) (h : Phase b g) :
    Phase b (frameEnd (moveLasers (enemiesFire g rs).1)) := by
  obtain ⟨hinv, hH, hph⟩ := h
  obtain ⟨f, c1, c2, c3, _, _, c6, c7⟩ := closing_stages g rs
  refine ⟨c7 hinv, c6.trans hH, ?_⟩
  rw [c1, c2, c3]
  rcases hph with h | h | ⟨hpos, ht, hw, hab⟩
  · exact Or.inl h
  · exact Or.inr (Or.inl h)
  · exact Or.inr (Or.inr ⟨hpos, ht, hw, fun h5 => fades_above f (hab h5)⟩)

theorem spawn_move_Phase {b : Nat} {g : Game} (rs : List Nat) (h : Mid b g) :
    (spawned g.enemies (spawnEnemies g rs).1.enemies = [] ∧
      Phase b (moveEnemies (spawnEnemies g rs).1 (spawnEnemies g rs).2).1) ∨
    (spawned g.enemies (spawnEnemies g rs).1.enemies ≠ [] ∧
      (∀ e ∈ spawned g.enemies (spawnEnemies g rs).1.enemies, kindOK b e) ∧
      Phase (b + 1) (moveEnemies (spawnEnemies g rs).1 (spawnEnemies g rs).2).1) := by
  obtain ⟨hinv, hH, hph⟩ := h
  have hinv3 : EnemyInv (moveEnemies (spawnEnemies g rs).1 (spawnEnemies g rs).2).1 :=
    moveEnemies_EnemyInv _ _ (spawnEnemies_EnemyInv g rs hinv)
  have hH3 : (moveEnemies (spawnEnemies g rs).1 (spawnEnemies g rs).2).1.player.H = 64 := by
    obtain ⟨_, _, _, _, _, _, m6⟩ :=
      moveEnemies_total_le (spawnEnemies g rs).1 (spawnEnemies g rs).2
        (spawnEnemies_EnemyInv g rs hinv)
    rw [m6, spawnEnemies_player]; exact hH
  have hnn := hinv.total_nonneg
  have hnn3 := hinv3.total_nonneg
  -- the burst of a call that finds the pool empty and the countdown at 0
  have burst : g.totalEnemies = 0 → g.enemySpawnTimer = 0 → wavesOK (b + 1) g.enemyWaves →
      (spawned g.enemies (spawnEnemies g rs).1.enemies = [] ∧
        Phase b (moveEnemies (spawnEnemies g rs).1 (spawnEnemies g rs).2).1) ∨
      (spawned g.enemies (spawnEnemies g rs).1.enemies ≠ [] ∧
        (∀ e ∈ spawned g.enemies (spawnEnemies g rs).1.enemies, kindOK b e) ∧
        Phase (b + 1) (moveEnemies (spawnEnemies g rs).1 (spawnEnemies g rs).2).1) := by
    intro h0 ht hw
    obtain ⟨b1, b2, b3, b4, b5, b6, b7, b8⟩ := spawn_move_burst g rs hinv h0 ht
    by_cases hnil : (spawnEnemies g rs).1.enemies = []
    · left
      refine ⟨by rw [b1]; exact hnil, hinv3, hH3, Or.inr (Or.inl ⟨?_, ?_, ?_, ?_⟩)⟩
      · rw [b6, ← b2, hnil]; rfl
      · rw [b4]
      · rw [b4]; decide
      · rw [b5]; exact hw
    · right
      refine ⟨by rw [b1]; exact hnil, ?_, hinv3, hH3, Or.inr (Or.inr ⟨?_, b4, ?_, ?_⟩)⟩
      · intro e he
        rw [b1] at he
        obtain ⟨k1, k2, k3⟩ := b3 e he
        constructor
        · intro hb
          have : g.enemyWaves < 5 := by have := hw.1 (by omega); omega
          rw [if_pos this] at k2 k3
          exact ⟨k3, k1, k2⟩
        · intro hb
          have : ¬ g.enemyWaves < 5 := by have := hw.2 (by omega); omega
          rw [if_neg this] at k2 k3
          exact ⟨k3, k1, k2⟩
      · rw [b6, ← b2]
        have : 0 < (spawnEnemies g rs).1.enemies.length := List.length_pos.2 hnil
        omega
      · rw [b5]; exact hw
      · intro h5
        rw [b5] at h5
        rw [if_pos h5] at b8
        exact fresh_above b8
  rcases hph with ⟨ht, hw⟩ | ⟨h0, ht1, ht2, hw⟩ | ⟨ht, hw, hpos⟩
  · by_cases h0 : g.totalEnemies = 0
    · obtain ⟨s1, s2, s3, s4⟩ := spawn_move_countdown g rs hinv h0 (by omega)
      left
      refine ⟨s1, hinv3, hH3, Or.inr (Or.inl ⟨by omega, by omega, by omega, ?_⟩)⟩
      rw [s3, ht]
      simp only [show (180 : Int) - 1 = 179 by decide, if_true]
      obtain ⟨w1, w2⟩ := hw
      constructor
      · intro hb
        have := w1 (by omega)
        rw [this, if_pos (by omega)]
        push_cast; ring
      · intro hb
        by_cases hb5 : b < 5
        · have := w1 hb5
          rw [this, if_pos (by omega)]
          omega
        · have := w2 (by omega)
          split_ifs <;> omega
    · obtain ⟨s1, s2, s3, s4⟩ := spawn_move_alive g rs hinv h0
      left
      refine ⟨s1, hinv3, hH3, Or.inl ⟨s2, ?_⟩⟩
      rw [s3]; exact hw
  · by_cases ht0 : g.enemySpawnTimer = 0
    · exact burst h0 ht0 hw
    · obtain ⟨s1, s2, s3, s4⟩ := spawn_move_countdown g rs hinv h0 (by omega)
      left
      refine ⟨s1, hinv3, hH3, Or.inr (Or.inl ⟨by omega, by omega, by omega, ?_⟩)⟩
      rw [s3, if_neg (by omega)]
      exact hw
  · by_cases h0 : g.totalEnemies = 0
    · have h5 : ¬ g.enemyWaves < 5 := fun h5 => by have := hpos h5; omega
      have hb : 5 ≤ b := by
        by_contra hb
        have := hw.1 (by omega)
        omega
      exact burst h0 ht ⟨fun hlt => by omega, fun _ => by omega⟩
    · obtain ⟨s1, s2, s3, s4⟩ := spawn_move_alive g rs hinv h0
      left
      refine ⟨s1, hinv3, hH3, Or.inl ⟨s2, ?_⟩⟩
      rw [s3]; exact hw

theorem frame_Phase {b : Nat} {g : Game} (f : List (Nat × Nat) × List Nat) (h : Phase b g) :
    (burstOf g f = [] ∧ Phase b (frame g f)) ∨
    (burstOf g f ≠ [] ∧ (∀ e ∈ burstOf g f, kindOK b e) ∧ Phase (b + 1) (frame g f)) := by
  have h0 := handleEvents_Phase f.1 h
  by_cases hp : (handleEvents g f.1).paused = true ∨ (handleEvents g f.1).state = TITLE
  · left
    refine ⟨by simp only [burstOf, if_pos hp], ?_⟩
    have : frame g f = handleEvents g f.1 := by simp only [frame, update, if_pos hp]
    rw [this]; exact h0
  · have hb : burstOf g f = spawned (playerBlock (handleEvents g f.1)).enemies
        (spawnEnemies (playerBlock (handleEvents g f.1)) f.2).1.enemies := by
      simp only [burstOf, if_neg hp]
    have hf : frame g f = _ := update_eq (handleEvents g f.1) f.2 hp
    rw [hb, hf]
    rcases spawn_move_Phase f.2 (playerBlock_Mid h0) with ⟨s1, s2⟩ | ⟨s1, s2, s3⟩
    · exact Or.inl ⟨s1, closing_Phase _ s2⟩
    · exact Or.inr ⟨s1, s2, closing_Phase _ s3⟩

theorem bursts_Phase (fs : List (List (Nat × Nat) × List Nat)) :
    ∀ (b : Nat) (g : Game), Phase b g →
      ∀ (k : Nat) (es : List Enemy), (bursts g fs)[k]? = some es →
        ∀ e ∈ es, kindOK (b + k) e := by
  induction fs with
  | nil => intro b g _ k es hk; simp [bursts] at hk
  | cons f fs ih =>
    intro b g h k es hk
    rcases frame_Phase f h with ⟨s1, s2⟩ | ⟨s1, s2, s3⟩
    · have : bursts g (f :: fs) = bursts (frame g f) fs := by
        simp only [bursts, s1, List.isEmpty_nil, if_true]
      rw [this] at hk
      exact ih b (frame g f) s2 k es hk
    · have hne : (burstOf g f).isEmpty = false := by
        cases hb : burstOf g f with
        | nil => exact absurd hb s1
        | cons _ _ => rfl
      have : bursts g (f :: fs) = burstOf g f :: bursts (frame g f) fs := by
        simp only [bursts, hne, Bool.false_eq_true, if_false]
      rw [this] at hk
      cases k with
      | zero =>
        simp only [List.getElem?_cons_zero, Option.some.injEq] at hk
        rw [← hk]
        exact s2
      | succ k =>
        simp only [List.getElem?_cons_succ] at hk
        have := ih (b + 1) (frame g f) s3 k es hk
        rw [show b + (k + 1) = b + 1 + k by omega]
        exact this

/-- C17 (amended): in every run from `newGame` (any events, any random
values) the enemies activated by each of the first four spawn bursts are weak
(Kind 0, 64x32) and the enemies activated by the fifth and every later burst
are strong (Kind 1, 64x64). -/
theorem bursts_weak_for_four_then_strong (g0 : Game)
    (fs : List (List (Nat × Nat) × List Nat)) (k : Nat) (es : List Enemy)
    (h : (bursts (newGame g0) fs)[k]? = some es) :
    ∀ e ∈ es,
      (k < 4 → e.Kind = 0 ∧ e.W = 64 ∧ e.H = 32) ∧
      (4 ≤ k → e.Kind = 1 ∧ e.W = 64 ∧ e.H = 64) := by
  intro e he
  have := bursts_Phase fs 0 (newGame g0) (newGame_Phase g0) k es h e he
  rw [Nat.zero_add] at this
  exact this

theorem descent_cons (e : Enemy) (es : List Enemy) :
    descent (e :: es) = (if e.Alive = true then BOTTOM + e.H + 2 - e.Y else 0) + descent es := by
  simp only [descent, List.map_cons, List.sum_cons]

theorem descent_nonneg (es : List Enemy) (h : ∀ e ∈ es, SlotOk e) : 0 ≤ descent es := by
  induction es with
  | nil => exact le_refl _
  | cons a es ih =>
    rw [descent_cons]
    have := ih (fun e he => h e (List.mem_cons_of_mem _ he))
    obtain ⟨_, _, _, h4⟩ := h a (List.mem_cons_self _ _)
    split_ifs <;> omega

theorem Enemy.Move_descent (e : Enemy) (g : Game) (rs : List Nat) (h : SlotOk e) :
    (if (e.Move g rs).2.1.Alive = true
        then BOTTOM + (e.Move g rs).2.1.H + 2 - (e.Move g rs).2.1.Y else 0)
      + (if e.Alive = true then 1 else 0)
      ≤ (if e.Alive = true then BOTTOM + e.H + 2 - e.Y else 0) ∧
    ((e.Move g rs).1 = true → e.Alive = true) := by
  obtain ⟨a1, a2, a3⟩ := Enemy.advance_slot e rs h
  obtain ⟨h1, h2, h3, h4⟩ := h
  have hb : i32 (BOTTOM + e.H) = BOTTOM + e.H :=
    i32_of_isI32 (by simp only [BOTTOM, HEIGHT]; unfold isI32; omega)
  obtain ⟨c1, c2⟩ := Enemy.Move_cases e g rs
  by_cases hc : (e.advance rs).1.Y > i32 (BOTTOM + e.H)
  · obtain ⟨m1, _, _, _⟩ := c1 hc
    have hal : e.Alive = true := by
      by_contra hd
      rw [a3, if_neg hd, hb] at hc
      omega
    rw [m1]
    refine ⟨?_, fun _ => hal⟩
    simp only [Bool.false_eq_true, if_false, hal, if_true]
    omega
  · obtain ⟨m1, m2, _⟩ := c2 hc
    rw [m1, m2, a1, a2, a3]
    refine ⟨?_, fun hf => absurd hf (by decide)⟩
    split_ifs <;> omega

theorem descent_head (e : Enemy) (es : List Enemy) :
    descent (e :: es) = descent [e] + descent es := by
  simp only [descent, List.map_cons, List.sum_cons, List.map_nil, List.sum_nil, add_zero]

theorem Enemy.Move_descent_one (e : Enemy) (g : Game) (rs : List Nat) (h : SlotOk e) :
    descent [(e.Move g rs).2.1] ≤ descent [e] ∧
    (e.Alive = true → descent [(e.Move g rs).2.1] < descent [e]) ∧
    ((e.Move g rs).1 = true → e.Alive = true) := by
  obtain ⟨m1, m2⟩ := Enemy.Move_descent e g rs h
  rw [descent_cons, descent_cons]
  simp only [descent, List.map_nil, List.sum_nil, add_zero]
  refine ⟨?_, ?_, m2⟩
  · by_cases hal : e.Alive = true
    · rw [if_pos hal] at m1; omega
    · rw [if_neg hal] at m1; omega
  · intro hal
    rw [if_pos hal] at m1; omega

theorem moveEnemiesLoop_descent (es : List Enemy) :
    ∀ (g : Game) (rs : List Nat), (∀ e ∈ es, SlotOk e) →
      descent (moveEnemiesLoop es g rs).1 ≤ descent es ∧
      (0 < aliveCount es → descent (moveEnemiesLoop es g rs).1 < descent es) := by
  induction es with
  | nil => intro g rs _; exact ⟨le_refl _, fun h => absurd h (by decide)⟩
  | cons a es ih =>
    intro g rs h
    obtain ⟨m1, m2, m3⟩ := Enemy.Move_descent_one a g rs (h a (List.mem_cons_self _ _))
    obtain ⟨i1, i2⟩ := ih (a.Move g rs).2.2.1 (a.Move g rs).2.2.2
      (fun e he => h e (List.mem_cons_of_mem _ he))
    have hnn := aliveCount_nonneg es
    simp only [moveEnemiesLoop]
    by_cases hf : (a.Move g rs).1 = true
    · rw [if_pos hf, descent_head, descent_head a]
      have := m2 (m3 hf)
      constructor
      · omega
      · intro _; omega
    · rw [if_neg hf, descent_head, descent_head a, aliveCount_cons]
      constructor
      · omega
      · intro hpos
        by_cases hal : a.Alive = true
        · have := m2 hal
          omega
        · rw [if_neg hal] at hpos
          have := i2 (by omega)
          omega

theorem fresh_descent {h : Int} {es : List Enemy} (hf : Fresh h 1 es) (hh : h ≤ 64) :
    descent es ≤ 706 * es.length := by
  induction es with
  | nil => exact le_refl _
  | cons a es ih =>
    have := ih (fun e he => hf e (List.mem_cons_of_mem _ he))
    obtain ⟨f1, f2, f3, f4⟩ := hf a (List.mem_cons_self _ _)
    rw [descent_cons, if_pos f1, f2]
    simp only [BOTTOM, HEIGHT, List.length_cons]
    push_cast
    omega

theorem spawnLoop_length (es : List Enemy) :
    ∀ (g : Game) (rs : List Nat), (spawnLoop es g rs).1.length = es.length := by
  induction es with
  | nil => intro g rs; rfl
  | cons a es ih =>
    intro g rs
    simp only [spawnLoop]
    split_ifs <;> simp [ih]

theorem spawnEnemies_length (g : Game) (rs : List Nat) :
    (spawnEnemies g rs).1.enemies.length = g.enemies.length ∧
    (spawnEnemies g rs).1.paused = g.paused := by
  constructor
  · rcases spawnEnemies_pool g rs with h | h
    · rw [h.1]
    · rw [h.1, spawnLoop_length]
  · rw [spawnEnemies_frame]

theorem moveEnemies_descent (g : Game) (rs : List Nat) (h : EnemyInv g) :
    descent (moveEnemies g rs).1.enemies ≤ descent g.enemies ∧
    (0 < g.totalEnemies → descent (moveEnemies g rs).1.enemies < descent g.enemies) := by
  obtain ⟨h1, h2⟩ := moveEnemiesLoop_descent g.enemies g rs h.2.1
  exact ⟨h1, fun hp => h2 (by rw [← h.1]; exact hp)⟩

theorem Mid.timer_bounds {b : Nat} {g : Game} (h : Mid b g) :
    0 ≤ g.enemySpawnTimer ∧ g.enemySpawnTimer ≤ 180 := by
  rcases h.2.2 with ⟨ht, _⟩ | ⟨_, h1, h2, _⟩ | ⟨ht, _⟩ <;> constructor <;> omega

/-- One frame without events of an unpaused session: either it bursts, and
the next burst is then at most 3006 frames away, or the distance to the next
burst shrinks. -/
theorem quiet_frame_progress {b : Nat} {g : Game} (rs : List Nat) (h : Phase b g)
    (hlen : g.enemies.length = MAX_ENEMIES) (hp : g.paused = false) (hs : g.state ≠ TITLE) :
    ((burstOf g ([], rs) ≠ [] ∧ untilBurst (frame g ([], rs)) ≤ 3006) ∨
      (burstOf g ([], rs) = [] ∧ untilBurst (frame g ([], rs)) + 1 ≤ untilBurst g)) ∧
    (frame g ([], rs)).enemies.length = MAX_ENEMIES ∧
    (frame g ([], rs)).paused = false ∧
    (frame g ([], rs)).state ≠ TITLE ∧
    1 ≤ untilBurst g := by
  have hnp : ¬ (g.paused = true ∨ g.state = TITLE) := by
    rw [hp]; rintro (h1 | h1)
    · exact absurd h1 (by decide)
    · exact hs h1
  have hb : burstOf g ([], rs) = spawned (playerBlock g).enemies
      (spawnEnemies (playerBlock g) rs).1.enemies := by
    show (if (g.paused = true ∨ g.state = TITLE) then [] else _) = _
    rw [if_neg hnp]; rfl
  have hf : frame g ([], rs) = _ := update_eq g rs hnp
  have hmid : Mid b (playerBlock g) := playerBlock_Mid h
  obtain ⟨hinv, hH, hph⟩ := h
  obtain ⟨c1, c2, c3, c4, c5⟩ := playerBlock_clock g
  have hle := playerBlock_total_le g hinv
  obtain ⟨hd1, hl1⟩ := fades_descent (playerBlock_fades g) hinv.2.1
  have hinv1 := hmid.1
  have hnn1 := hinv1.total_nonneg
  have hinv2 := spawnEnemies_EnemyInv (playerBlock g) rs hinv1
  have hinv3 := moveEnemies_EnemyInv _ (spawnEnemies (playerBlock g) rs).2 hinv2
  have hnn3 := hinv3.total_nonneg
  obtain ⟨l3, _, _, _, s3, p3, _⟩ :=
    moveEnemies_total_le (spawnEnemies (playerBlock g) rs).1 (spawnEnemies (playerBlock g) rs).2
      hinv2
  obtain ⟨l2, p2⟩ := spawnEnemies_length (playerBlock g) rs
  have s2 := spawnEnemies_state (playerBlock g) rs
  obtain ⟨f4, t4, r4, _, s4, p4, _, _⟩ := closing_stages
    (moveEnemies (spawnEnemies (playerBlock g) rs).1 (spawnEnemies (playerBlock g) rs).2).1
    (moveEnemies (spawnEnemies (playerBlock g) rs).1 (spawnEnemies (playerBlock g) rs).2).2
  obtain ⟨hd4, l4⟩ := fades_descent f4 hinv3.2.1
  obtain ⟨tb1, tb2⟩ := hmid.timer_bounds
  have hd0 := descent_nonneg _ hinv.2.1
  have hd3 := descent_nonneg _ hinv3.2.1
  have hmu : 1 ≤ untilBurst g := by
    unfold untilBurst; rw [← c1]; split_ifs <;> omega
  rw [hb, hf]
  refine ⟨?_, ?_, ?_, ?_, hmu⟩
  · by_cases h0 : (playerBlock g).totalEnemies = 0
    · by_cases ht : (playerBlock g).enemySpawnTimer = 0
      · left
        obtain ⟨b1, b2, _, _, _, b6, b7, b8⟩ := spawn_move_burst (playerBlock g) rs hinv1 h0 ht
        have hlen2 : (spawnEnemies (playerBlock g) rs).1.enemies.length = 4 := by
          rw [b2, hl1, hlen]; rfl
        refine ⟨?_, ?_⟩
        · rw [b1]; intro hnil; rw [hnil] at hlen2; simp at hlen2
        · have hfd := fresh_descent b8 (by split_ifs <;> decide)
          rw [b7, hl1, hlen] at hfd
          have h4 : ((MAX_ENEMIES : Nat) : Int) = 4 := rfl
          rw [h4] at hfd
          unfold untilBurst
          rw [t4]
          split_ifs <;> omega
      · right
        obtain ⟨s1, s2', _, s4'⟩ := spawn_move_countdown (playerBlock g) rs hinv1 h0 (by omega)
        refine ⟨s1, ?_⟩
        unfold untilBurst
        rw [t4, r4, if_pos (by omega), s2', c1]
        split_ifs <;> omega
    · right
      obtain ⟨s1, s2', _, s4'⟩ := spawn_move_alive (playerBlock g) rs hinv1 h0
      refine ⟨s1, ?_⟩
      have hs' := spawnEnemies_alive (playerBlock g) rs h0
      obtain ⟨_, m2⟩ := moveEnemies_descent (spawnEnemies (playerBlock g) rs).1
        (spawnEnemies (playerBlock g) rs).2 hinv2
      have hpos : 0 < (spawnEnemies (playerBlock g) rs).1.totalEnemies := by
        rw [hs']; show 0 < (playerBlock g).totalEnemies; omega
      have hlt := m2 hpos
      have hde : descent (spawnEnemies (playerBlock g) rs).1.enemies
          = descent (playerBlock g).enemies := by rw [hs']
      rw [hde] at hlt
      unfold untilBurst
      rw [t4, r4, s2', if_neg (show ¬ g.totalEnemies = 0 by omega)]
      split_ifs <;> omega
  · rw [l4, l3, l2, hl1, hlen]
  · rw [p4, p3, p2, c3, hp]
  · rw [s4, s3, s2]
    rcases c5 with h5 | h5
    · rw [h5]; exact hs
    · rw [h5]; decide

theorem bursts_cons (g : Game) (f : List (Nat × Nat) × List Nat)
    (fs : List (List (Nat × Nat) × List Nat)) :
    (burstOf g f = [] → bursts g (f :: fs) = bursts (frame g f) fs) ∧
    (burstOf g f ≠ [] → bursts g (f :: fs) = burstOf g f :: bursts (frame g f) fs) := by
  constructor
  · intro h
    simp only [bursts, h, List.isEmpty_nil, if_true]
  · intro h
    have hne : (burstOf g f).isEmpty = false := by
      cases hb : burstOf g f with
      | nil => exact absurd hb h
      | cons _ _ => rfl
    simp only [bursts, hne, Bool.false_eq_true, if_false]

theorem bursts_nonempty (fs : List (List (Nat × Nat) × List Nat)) :
    ∀ g : Game, ∀ es ∈ bursts g fs, es ≠ [] := by
  induction fs with
  | nil => intro g es he; simp [bursts] at he
  | cons f fs ih =>
    intro g es he
    by_cases hb : burstOf g f = []
    · rw [(bursts_cons g f fs).1 hb] at he
      exact ih _ es he
    · rw [(bursts_cons g f fs).2 hb] at he
      rcases List.mem_cons.1 he with rfl | he
      · exact hb
      · exact ih _ es he

/-- An unpaused session left without events keeps bursting: `j + 1` bursts
take at most `untilBurst g + j * 3006` frames. -/
theorem quiet_bursts (n : Nat) :
    ∀ (j b : Nat) (g : Game), Phase b g → g.enemies.length = MAX_ENEMIES →
      g.paused = false → g.state ≠ TITLE → untilBurst g + j * 3006 ≤ n →
      j + 1 ≤ (bursts g (quiet n)).length := by
  induction n with
  | zero =>
    intro j b g h hlen hp hs hn
    have := (quiet_frame_progress [] h hlen hp hs).2.2.2.2
    have : (0 : Int) ≤ (j : Int) * 3006 := by positivity
    push_cast at hn
    omega
  | succ n ih =>
    intro j b g h hlen hp hs hn
    obtain ⟨hpr, l1, p1, s1, hmu⟩ := quiet_frame_progress [] h hlen hp hs
    have hq : quiet (n + 1) = ([], []) :: quiet n := rfl
    rw [hq]
    push_cast at hn
    by_cases hb : burstOf g ([], []) = []
    · rw [(bursts_cons g _ _).1 hb]
      rcases frame_Phase ([], []) h with ⟨_, ph⟩ | ⟨hne, _⟩
      · rcases hpr with ⟨hne, _⟩ | ⟨_, hdec⟩
        · exact absurd hb hne
        · exact ih j b _ ph l1 p1 s1 (by omega)
      · exact absurd hb hne
    · rw [(bursts_cons g _ _).2 hb, List.length_cons]
      rcases frame_Phase ([], []) h with ⟨he, _⟩ | ⟨_, _, ph⟩
      · exact absurd he hb
      · rcases hpr with ⟨_, hM⟩ | ⟨he, _⟩
        · cases j with
          | zero => omega
          | succ j =>
            have := ih j (b + 1) _ ph l1 p1 s1 (by push_cast at hn ⊢; omega)
            omega
        · exact absurd he hb

/-- C17 (counterexample): the run of 13000 frames from a fresh session
without events (every random draw 0) has a fifth burst, and every enemy it
activates is strong (Kind 1, 64x64), not weak. -/
theorem fifth_burst_is_strong :
    ∃ es : List Enemy, (bursts fresh (quiet 13000))[4]? = some es ∧ es ≠ [] ∧
      ∀ e ∈ es, e.Kind = 1 ∧ e.W = 64 ∧ e.H = 64 := by
  have hlen : 4 + 1 ≤ (bursts fresh (quiet 13000)).length :=
    quiet_bursts 13000 4 0 fresh (newGame_Phase blank) rfl rfl (by decide)
      (by show (181 : Int) + ((4 : Nat) : Int) * 3006 ≤ ((13000 : Nat) : Int); decide)
  have hlt : 4 < (bursts fresh (quiet 13000)).length := by omega
  refine ⟨(bursts fresh (quiet 13000))[4], List.getElem?_eq_getElem hlt, ?_, ?_⟩
  · exact bursts_nonempty _ _ _ (List.getElem_mem hlt)
  · intro e he
    exact (bursts_Phase (quiet 13000) 0 fresh (newGame_Phase blank) 4 _
      (List.getElem?_eq_getElem hlt) e he).2 (by decide)

set_option maxRecDepth 100000 in
theorem bursts_weak_for_four_then_strong_witness :
    (bursts (newGame blank) (quiet 181))[0]? = some firstBurst ∧
    ∀ e ∈ firstBurst,
      (0 < 4 → e.Kind = 0 ∧ e.W = 64 ∧ e.H = 32) ∧
      (4 ≤ 0 → e.Kind = 1 ∧ e.W = 64 ∧ e.H = 64) :=
  ⟨by decide, bursts_weak_for_four_then_strong blank (quiet 181) 0 firstBurst (by decide)⟩

/-! ## C21: the invulnerability window lasts 100 ticks -/

theorem Damage_opens_window (g : Game) (d : Int) (h : g.invincible = false) :
    (Player.Damage g d).player.Invuln = true ∧ (Player.Damage g d).player.InvulnTimer = 100 := by
  simp only [Player.Damage, h, Bool.false_eq_true, ↓reduceIte]
  split_ifs <;> exact ⟨rfl, rfl⟩

theorem invulnTicks_counting (p : Player) (h : p.Invuln = true) :
    ∀ n : Nat, n ≤ p.InvulnTimer →
      (invulnTicks p n).Invuln = true ∧ (invulnTicks p n).InvulnTimer = p.InvulnTimer - n := by
  intro n
  induction n with
  | zero => intro _; exact ⟨h, rfl⟩
  | succ n ih =>
    intro hn
    obtain ⟨i1, i2⟩ := ih (by omega)
    have hne : (invulnTicks p n).InvulnTimer ≠ 0 := by omega
    simp only [invulnTicks, Player.InvulnTick, hne, ne_eq, not_false_eq_true, if_true]
    exact ⟨i1, by rw [i2]; omega⟩

theorem invulnTicks_closing (p : Player) (h : p.Invuln = true) :
    (invulnTicks p (p.InvulnTimer + 1)).Invuln = false := by
  obtain ⟨_, i2⟩ := invulnTicks_counting p h p.InvulnTimer (le_refl _)
  have h0 : (invulnTicks p p.InvulnTimer).InvulnTimer = 0 := by rw [i2]; omega
  simp only [invulnTicks, Player.InvulnTick, h0, ne_eq, not_true_eq_false, if_false]

/-- C21. For every state with invincibility off in which `Player.Damage`
leaves the player alive, `player.Invuln` is true after each of the next 100
`InvulnTick` calls and false after the 101st. -/
theorem Damage_window_lasts_100_ticks (g : Game) (d : Int) (hi : g.invincible = false)
    (_ha : (Player.Damage g d).player.Alive = true) :
    (∀ n : Nat, 1 ≤ n → n ≤ 100 →
      (invulnTicks (Player.Damage g d).player n).Invuln = true) ∧
    (invulnTicks (Player.Damage g d).player 101).Invuln = false := by
  obtain ⟨w1, w2⟩ := Damage_opens_window g d hi
  constructor
  · intro n _ hn
    exact (invulnTicks_counting _ w1 n (by rw [w2]; exact hn)).1
  · have := invulnTicks_closing _ w1
    rw [w2] at this
    exact this

/-- C21 at a fresh session hit for 1: the player survives with 4 health
points; the flag is still set after 100 ticks and cleared by the 101st. -/
theorem Damage_window_lasts_100_ticks_witness :
    (fresh.invincible = false ∧ (Player.Damage fresh 1).player.Alive = true) ∧
    (Player.Damage fresh 1).player.Health = 4 ∧
    (invulnTicks (Player.Damage fresh 1).player 100).Invuln = true ∧
    (invulnTicks (Player.Damage fresh 1).player 101).Invuln = false :=
  ⟨⟨rfl, by decide⟩, by decide,
    (Damage_window_lasts_100_ticks fresh 1 rfl (by decide)).1 100 (by decide) (by decide),
    (Damage_window_lasts_100_ticks fresh 1 rfl (by decide)).2⟩

/-! ## C22: a collision pass while the window is open -/

theorem laserScan_lasers (l : Laser) (es : List Enemy) (g : Game) :
    enemyLasers (laserScan l es g).2.1 = enemyLasers es := by
  induction es with
  | nil => rfl
  | cons a es ih =>
    simp only [laserScan]
    split_ifs
    · simp only [enemyLasers, List.map_cons] at ih ⊢
      rw [ih]
    all_goals rfl

theorem laserPass_lasers (ls : List Laser) :
    ∀ (es : List Enemy) (g : Game), enemyLasers (laserPass ls es g).2.1 = enemyLasers es := by
  induction ls with
  | nil => intro es g; rfl
  | cons l ls ih =>
    intro es g
    simp only [laserPass]
    exact (ih _ _).trans (laserScan_lasers l es g)

/-- The first pass of `testCollisions` leaves the player's health and flags,
the scene, the invincibility option and the enemy lasers alone. -/
theorem testCollisions1_keeps (g : Game) :
    (testCollisions1 g).player.Health = g.player.Health ∧
    (testCollisions1 g).player.Alive = g.player.Alive ∧
    (testCollisions1 g).player.Invuln = g.player.Invuln ∧
    (testCollisions1 g).state = g.state ∧
    (testCollisions1 g).invincible = g.invincible ∧
    enemyLasers (testCollisions1 g).enemies = enemyLasers g.enemies := by
  obtain ⟨s, hs⟩ := testCollisions1_player g
  obtain ⟨t, s1, ex, h⟩ := laserPass_frame g.player.Lasers g.enemies g
  refine ⟨by rw [hs], by rw [hs], by rw [hs], ?_, ?_, laserPass_lasers _ _ _⟩
  · show (laserPass g.player.Lasers g.enemies g).2.2.state = g.state
    rw [h]
  · show (laserPass g.player.Lasers g.enemies g).2.2.invincible = g.invincible
    rw [h]

/-- C22. For every state with `player.Invuln` set on entry, one
`testCollisions` call leaves `player.Health`, `player.Alive` and the scene
unchanged and deactivates no enemy laser; the enemy pool and `totalEnemies`
it leaves are those left by its first pass (player lasers against enemies),
so no enemy is destroyed by body contact. -/
theorem testCollisions_window_open (g : Game) (h : g.player.Invuln = true) :
    (testCollisions g).player.Health = g.player.Health ∧
    (testCollisions g).player.Alive = g.player.Alive ∧
    (testCollisions g).state = g.state ∧
    enemyLasers (testCollisions g).enemies = enemyLasers g.enemies ∧
    (testCollisions g).enemies = (laserPass g.player.Lasers g.enemies g).2.1 ∧
    (testCollisions g).totalEnemies
      = (laserPass g.player.Lasers g.enemies g).2.2.totalEnemies := by
  obtain ⟨k1, k2, _, k4, _, k6⟩ := testCollisions1_keeps g
  rw [testCollisions_invuln g h]
  exact ⟨k1, k2, k4, k6, rfl, rfl⟩

/-- C22 at the session `invulnerableInContact`: an alive enemy and one of
its lasers lie on the invulnerable player, and the call changes nothing. -/
theorem testCollisions_window_open_witness :
    invulnerableInContact.player.Invuln = true ∧
    collide invulnerableInContact.player.toRect
      { X := 300, Y := 400, W := 8, H := 16 } = true ∧
    collide { X := 295, Y := 400, W := 64, H := 32 }
      invulnerableInContact.player.toRect = true ∧
    (testCollisions invulnerableInContact).player.Health = 5 ∧
    (testCollisions invulnerableInContact).state = PLAY ∧
    (testCollisions invulnerableInContact).enemies = invulnerableInContact.enemies ∧
    (testCollisions invulnerableInContact).totalEnemies = 1 :=
  ⟨rfl, by decide, by decide,
    (testCollisions_window_open invulnerableInContact rfl).1,
    (testCollisions_window_open invulnerableInContact rfl).2.2.1,
    by decide, by decide⟩

/-! ## C23: at most one damage per collision pass -/

theorem Damage_drop (g : Game) (d : Int) (hd : 0 ≤ d) (hH : isI64 g.player.Health) :
    g.player.Health - (Player.Damage g d).player.Health ≤ d ∧
    (Player.Damage g d).invincible = g.invincible ∧
    (g.invincible = false → (Player.Damage g d).player.Invuln = true) := by
  cases hi : g.invincible with
  | true =>
    rw [Damage_invincible g d hi]
    exact ⟨by omega, hi, fun h => absurd h (by decide)⟩
  | false =>
    refine ⟨?_, ?_, fun _ => ?_⟩
    · rw [Damage_health g d hi]
      by_cases hle : g.player.Health ≤ d
      · split_ifs <;> omega
      · have hw : i64 (g.player.Health - d) = g.player.Health - d :=
          i64_of_isI64 (by unfold isI64 at *; omega)
        rw [hw]
        split_ifs <;> omega
    · simp only [Player.Damage, hi, Bool.false_eq_true, ↓reduceIte]
      split_ifs <;> rfl
    · simp only [Player.Damage, hi, Bool.false_eq_true, ↓reduceIte]
      split_ifs <;> rfl

/-- With invincibility off the scan of one enemy's lasers either changes
nothing or applies one hit, which opens the window and costs at most 1. -/
theorem enemyLaserScan_hit (ls : List Laser) (g : Game) (hi : g.invincible = false)
    (hH : isI64 g.player.Health) :
    enemyLaserScan ls g = (ls, g) ∨
    ((enemyLaserScan ls g).2.player.Invuln = true ∧
      (enemyLaserScan ls g).2.invincible = false ∧
      g.player.Health - (enemyLaserScan ls g).2.player.Health ≤ 1) := by
  induction ls with
  | nil => exact Or.inl rfl
  | cons l ls ih =>
    by_cases hc : (!(g.player.Alive && l.Alive && collide g.player.toRect l.toRect)) = true
    · simp only [enemyLaserScan, hc, if_true]
      rcases ih with h | h
      · left; rw [h]
      · right; exact h
    · by_cases hv : (!g.player.Invuln) = true
      · right
        simp only [enemyLaserScan, hc, hv, if_true, if_false]
        obtain ⟨d1, d2, d3⟩ := Damage_drop g 1 (by decide) hH
        exact ⟨d3 hi, d2.trans hi, d1⟩
      · left
        simp only [enemyLaserScan, hc, hv, Bool.false_eq_true, if_false]

/-- With invincibility off the second pass of `testCollisions` either
changes nothing or applies one hit, which opens the window and costs at most
1 health point. -/
theorem enemyLaserPass_hit (es : List Enemy) :
    ∀ g : Game, g.invincible = false → isI64 g.player.Health →
      enemyLaserPass es g = (es, g) ∨
      ((enemyLaserPass es g).2.player.Invuln = true ∧
        (enemyLaserPass es g).2.invincible = false ∧
        g.player.Health - (enemyLaserPass es g).2.player.Health ≤ 1) := by
  induction es with
  | nil => intro g _ _; exact Or.inl rfl
  | cons a es ih =>
    intro g hi hH
    rcases enemyLaserScan_hit a.Lasers g hi hH with h | ⟨h1, h2, h3⟩
    · rcases ih g hi hH with h' | h'
      · left
        simp only [enemyLaserPass, h, h']
      · right
        simp only [enemyLaserPass, h]
        exact h'
    · right
      have hr := enemyLaserPass_invuln es (enemyLaserScan a.Lasers g).2 h1
      simp only [enemyLaserPass, hr]
      exact ⟨h1, h2, h3⟩

theorem bodyPass_drop (es : List Enemy) (g : Game) (hH : isI64 g.player.Health) :
    g.player.Health - (bodyPass es g).2.player.Health ≤ 2 ∧
    enemyLasers (bodyPass es g).1 = enemyLasers es := by
  induction es with
  | nil => exact ⟨by show g.player.Health - g.player.Health ≤ 2; omega, rfl⟩
  | cons a es ih =>
    by_cases hc : (!(a.Alive && g.player.Alive && collide a.toRect g.player.toRect)) = true
    · simp only [bodyPass, hc, if_true]
      refine ⟨ih.1, ?_⟩
      have := ih.2
      simp only [enemyLasers, List.map_cons] at this ⊢
      rw [this]
    · by_cases hv : (!g.player.Invuln) = true
      · simp only [bodyPass, hc, hv, if_true, if_false]
        exact ⟨(Damage_drop { g with totalEnemies := i64 (g.totalEnemies - 1) } 2 (by decide)
          hH).1, rfl⟩
      · simp only [bodyPass, hc, hv, Bool.false_eq_true, if_false]
        exact ⟨by omega, trivial⟩

theorem enemyLaserScan_invincible (ls : List Laser) (g : Game) (hi : g.invincible = true) :
    (enemyLaserScan ls g).2 = g := by
  induction ls with
  | nil => rfl
  | cons l ls ih =>
    simp only [enemyLaserScan, Damage_invincible g 1 hi]
    split_ifs
    · exact ih
    · rfl
    · rfl

theorem enemyLaserPass_invincible (es : List Enemy) :
    ∀ g : Game, g.invincible = true → (enemyLaserPass es g).2 = g := by
  induction es with
  | nil => intro g _; rfl
  | cons a es ih =>
    intro g hi
    simp only [enemyLaserPass, enemyLaserScan_invincible a.Lasers g hi]
    exact ih g hi

theorem bodyPass_invincible (es : List Enemy) (g : Game) (hi : g.invincible = true) :
    (bodyPass es g).2.player = g.player := by
  induction es with
  | nil => rfl
  | cons a es ih =>
    simp only [bodyPass]
    split_ifs
    · exact ih
    · rw [Damage_invincible _ 2
        (show ({ g with totalEnemies := i64 (g.totalEnemies - 1) } : Game).invincible
          = true from hi)]
    · rfl

/-- With invincibility on, a whole `testCollisions` call leaves the
player's health alone. -/
theorem testCollisions_invincible (g : Game) (hi : g.invincible = true) :
    (testCollisions g).player.Health = g.player.Health := by
  obtain ⟨k1, _, _, _, k5, _⟩ := testCollisions1_keeps g
  have hi1 : (testCollisions1 g).invincible = true := k5.trans hi
  have h2 : testCollisions2 (testCollisions1 g) = { testCollisions1 g with
      enemies := (enemyLaserPass (testCollisions1 g).enemies (testCollisions1 g)).1 } := by
    simp only [testCollisions2, enemyLaserPass_invincible _ _ hi1]
  have hi2 : (testCollisions2 (testCollisions1 g)).invincible = true := by rw [h2]; exact hi1
  have h3 := bodyPass_invincible (testCollisions2 (testCollisions1 g)).enemies _ hi2
  have e3 : (testCollisions g).player = (testCollisions2 (testCollisions1 g)).player := h3
  rw [e3, h2]
  exact k1

/-- C23. One `testCollisions` call, from any state (its `Health` a Go `int`),
reduces `player.Health` by at most 2, and by at most 1 when an enemy laser
hit was applied in the call (that is, when the call has changed an enemy
laser: only a hit deactivates one). -/
theorem testCollisions_health_drop (g : Game) (hH : isI64 g.player.Health) :
    g.player.Health - (testCollisions g).player.Health ≤ 2 ∧
    (enemyLasers (testCollisions g).enemies ≠ enemyLasers g.enemies →
      g.player.Health - (testCollisions g).player.Health ≤ 1) := by
  cases hi : g.invincible with
  | true =>
    rw [testCollisions_invincible g hi]
    exact ⟨by omega, fun _ => by omega⟩
  | false =>
    obtain ⟨k1, _, _, _, k5, k6⟩ := testCollisions1_keeps g
    have hi1 : (testCollisions1 g).invincible = false := k5.trans hi
    have hH1 : isI64 (testCollisions1 g).player.Health := by rw [k1]; exact hH
    rcases enemyLaserPass_hit (testCollisions1 g).enemies (testCollisions1 g) hi1 hH1
      with h | ⟨h1, _, h3⟩
    · have h2 : testCollisions2 (testCollisions1 g) = testCollisions1 g := by
        simp only [testCollisions2, h]
      obtain ⟨b1, b2⟩ := bodyPass_drop (testCollisions1 g).enemies (testCollisions1 g) hH1
      have e : testCollisions g = testCollisions3 (testCollisions1 g) := by
        rw [testCollisions, h2]
      rw [e]
      have hH : (testCollisions3 (testCollisions1 g)).player.Health
          = (bodyPass (testCollisions1 g).enemies (testCollisions1 g)).2.player.Health := rfl
      have hL : enemyLasers (testCollisions3 (testCollisions1 g)).enemies
          = enemyLasers g.enemies := b2.trans k6
      rw [hH]
      refine ⟨by omega, fun hne => absurd hL hne⟩
    · have hv : (testCollisions2 (testCollisions1 g)).player.Invuln = true := h1
      have h3' : testCollisions3 (testCollisions2 (testCollisions1 g))
          = testCollisions2 (testCollisions1 g) := by
        simp only [testCollisions3, bodyPass_invuln _ _ hv]
      have hH : (testCollisions g).player.Health
          = (enemyLaserPass (testCollisions1 g).enemies (testCollisions1 g)).2.player.Health := by
        rw [testCollisions, h3']; rfl
      rw [hH]
      exact ⟨by omega, fun _ => by omega⟩

/-- C23 at the sessions `underFire` and `bodyContact`: a laser and the body
of its enemy lie on the player, the laser hit costs 1 health point and the
body contact is then ignored; with the laser spent the body contact costs
2. -/
theorem testCollisions_health_drop_witness :
    isI64 underFire.player.Health ∧
    (underFire.player.Health - (testCollisions underFire).player.Health ≤ 2 ∧
      (enemyLasers (testCollisions underFire).enemies ≠ enemyLasers underFire.enemies →
        underFire.player.Health - (testCollisions underFire).player.Health ≤ 1)) ∧
    enemyLasers (testCollisions underFire).enemies ≠ enemyLasers underFire.enemies ∧
    (testCollisions underFire).player.Health = 4 ∧
    (testCollisions underFire).totalEnemies = 1 ∧
    (testCollisions bodyContact).player.Health = 3 ∧
    (testCollisions bodyContact).totalEnemies = 0 :=
  ⟨by decide, testCollisions_health_drop underFire (by decide), by decide, by decide,
    by decide, by decide, by decide⟩

end Espada
